import Mathlib

/-!
# lperf: a ptrace based sampler for Lua 5.3

Shallow embedding of the process controller (`src/src/Debugger.cpp`), the
breakpoints it owns, the remote memory accessor
(`src/include/RemoteLuaWrapper.hpp`, `src/src/LuaSampler.cpp`) and the
short-source formatter `luaO_chunkid` (`src/src/RemoteLuaWrapper.cpp`).

The traced process is modelled by `Target`: a byte-addressed memory, the set
of mapped addresses and the register bank.  The kernel side of
`PTRACE_PEEKDATA` / `PTRACE_POKEDATA` transfers one little-endian 64 bit word
at the address it is given and fails when one of the eight bytes is not
mapped.  Every request the controller issues is appended to the ghost field
`Debugger.trace`, so that statements about which requests are issued can be
made.

The stack walker (`GetInfo`, `DumpStack`, the instruction decoders and the
name recovery of `src/src/RemoteLuaWrapper.cpp`) runs over `Remote`, a typed
view of the target memory.  The locator `FetchLuaState` is written over
`DebuggerApi`, the methods of the controller it calls; `Controller` gives
these methods for the control part of `Debugger` (`Wait`, `Interrupt`,
`Continue`, `StepOverBreakpoint` and the breakpoint map), where `waitpid` is
modelled by the list of the results it will return and a `Breakpoint*` is
valid as long as the object it points to has not been destroyed.
-/

namespace lperf

/-! ## Machine integers -/

/-- Number of values of a `size_t` / `uintptr_t` / `Word` on x86_64. -/
def WORD_MOD : Nat := 2 ^ 64

/-- The constant `sizeof(Word)`. -/
def WORD_SIZE : Nat := 8

/-- One `uint8_t`. -/
abbrev Byte := Fin 256

/-- Byte number `i` of the word `w`, in memory (little-endian) order:
`reinterpret_cast<const uint8_t*>(&w)[i]`. -/
def byteOfWord (w i : Nat) : Byte :=
  ⟨(w / 256 ^ i) % 256, Nat.mod_lt _ (by decide)⟩

/-- The word whose in-memory bytes are the given list (little-endian). -/
def wordOfBytes : List Byte → Nat
  | [] => 0
  | b :: bs => b.val + 256 * wordOfBytes bs

/-- The eight bytes of a word, in memory order (`memcpy(dst, &val, sizeof(val))`). -/
def bytesOfWord (w : Nat) : List Byte :=
  (List.range WORD_SIZE).map (byteOfWord w)

/-- The effect of `b[0] = data` on the word `val` seen as `uint8_t b[8]`. -/
def setByte0 (val : Nat) (data : Byte) : Nat :=
  val / 256 * 256 + data.val

/-! ## The traced process -/

/-- Register bank `user_regs_struct` of x86_64 (`<sys/user.h>`), 27 fields. -/
structure user_regs_struct where
  r15 : Nat
  r14 : Nat
  r13 : Nat
  r12 : Nat
  rbp : Nat
  rbx : Nat
  r11 : Nat
  r10 : Nat
  r9 : Nat
  r8 : Nat
  rax : Nat
  rcx : Nat
  rdx : Nat
  rsi : Nat
  rdi : Nat
  orig_rax : Nat
  rip : Nat
  cs : Nat
  eflags : Nat
  rsp : Nat
  ss : Nat
  fs_base : Nat
  gs_base : Nat
  ds : Nat
  es : Nat
  fs : Nat
  gs : Nat
deriving DecidableEq, Repr

/-- State of the traced process as seen through ptrace. -/
structure Target where
  /-- content of the address space, one byte per address -/
  mem : Nat → Byte
  /-- which addresses are mapped -/
  mapped : Nat → Bool
  /-- the register bank -/
  regs : user_regs_struct

/-- A word transfer at `address` succeeds: the eight bytes lie inside the
address space and are mapped. -/
def Target.readable (t : Target) (address : Nat) : Bool :=
  decide (address + WORD_SIZE ≤ WORD_MOD) &&
    (List.range WORD_SIZE).all (fun i => t.mapped (address + i))

/-- The word stored in the eight bytes from `address` on. -/
def Target.word (t : Target) (address : Nat) : Nat :=
  wordOfBytes ((List.range WORD_SIZE).map (fun i => t.mem (address + i)))

/-- Kernel side of `PTRACE_PEEKDATA`: the word at `address`, or failure. -/
def Target.peek (t : Target) (address : Nat) : Option Nat :=
  if t.readable address then some (t.word address) else none

/-- Kernel side of `PTRACE_POKEDATA`: store the word `data` at `address`, or
fail. -/
def Target.poke (t : Target) (address data : Nat) : Option Target :=
  if t.readable address then
    some { t with
      mem := fun x =>
        if address ≤ x ∧ x < address + WORD_SIZE then byteOfWord data (x - address)
        else t.mem x }
  else none

/-! ## Process controller (`Debugger`) -/

/-- The enum `ProcessStatus`. -/
inductive ProcessStatus where
  | Terminated
  | Running
  | Paused
deriving DecidableEq, Repr

/-- The enum `Registers`. -/
inductive Registers where
  | RAX | RBX | RCX | RDX
  | RDI | RSI | RBP | RSP
  | R8 | R9 | R10 | R11
  | R12 | R13 | R14 | R15
  | RIP | EFLAGS | CS
  | ORIG_RAX | FS_BASE
  | GS_BASE
  | FS | GS | SS | DS | ES
deriving DecidableEq, Repr

/-- Exceptions thrown by the code, a failed `assert`, `UndefinedBehavior` for
an access outside an object of the program itself, and `Terminate` for a call
of `std::terminate`. -/
inductive Exn where
  | InvalidCallException
  | ApiException
  | AssertionFailed
  | BadStateException
  | OperationNotSupportException
  | OperationCancelledException
  | ObjectNotFoundException
  | UndefinedBehavior
  | Terminate
deriving DecidableEq, Repr

/-- Outcome of running a piece of code: a value, a thrown exception, or the
model running out of loop fuel. -/
inductive Outcome (α : Type) where
  | ok (v : α)
  | throw (e : Exn)
  | outOfFuel
deriving DecidableEq, Repr

/-- A ptrace request issued by the controller. -/
inductive PtraceReq where
  | PEEKDATA (address : Nat)
  | POKEDATA (address : Nat) (data : Nat)
  | GETREGS
  | SETREGS (regs : user_regs_struct)
deriving DecidableEq, Repr

/-- Address of a memory request, `none` for a register request. -/
def PtraceReq.memAddress : PtraceReq → Option Nat
  | .PEEKDATA a => some a
  | .POKEDATA a _ => some a
  | .GETREGS => none
  | .SETREGS _ => none

/-- Whether the request writes target memory. -/
def PtraceReq.isPoke : PtraceReq → Bool
  | .POKEDATA _ _ => true
  | _ => false

/-- The fields of `Debugger` that the register and memory operations use,
the traced process, and the ghost log of requests issued so far. -/
structure Debugger where
  m_uStatus : ProcessStatus
  target : Target
  trace : List PtraceReq

/-- Append a request to the ghost log. -/
def Debugger.log (d : Debugger) (r : PtraceReq) : Debugger :=
  { d with trace := d.trace ++ [r] }

/-- The method `Debugger::GetRegister`.  `PTRACE_GETREGS` on a stopped tracee
returns the bank. -/
def Debugger.GetRegister (d : Debugger) (reg : Registers) : Outcome Nat × Debugger :=
  if d.m_uStatus ≠ ProcessStatus.Paused then (.throw .InvalidCallException, d)
  else
    let ret := d.target.regs
    let d1 := d.log .GETREGS
    match reg with
    | .RAX => (.ok ret.rax, d1)
    | .RBX => (.ok ret.rbx, d1)
    | .RCX => (.ok ret.rcx, d1)
    | .RDX => (.ok ret.rdx, d1)
    | .RDI => (.ok ret.rdi, d1)
    | .RSI => (.ok ret.rsi, d1)
    | .RBP => (.ok ret.rbp, d1)
    | .RSP => (.ok ret.rsp, d1)
    | .R8 => (.ok ret.r8, d1)
    | .R9 => (.ok ret.r9, d1)
    | .R10 => (.ok ret.r10, d1)
    | .R11 => (.ok ret.r11, d1)
    | .R12 => (.ok ret.r12, d1)
    | .R13 => (.ok ret.r13, d1)
    | .R14 => (.ok ret.r14, d1)
    | .R15 => (.ok ret.r15, d1)
    | .RIP => (.ok ret.rip, d1)
    | .EFLAGS => (.ok ret.eflags, d1)
    | .CS => (.ok ret.cs, d1)
    | .ORIG_RAX => (.ok ret.orig_rax, d1)
    | .FS_BASE => (.ok ret.fs_base, d1)
    | .GS_BASE => (.ok ret.gs_base, d1)
    | .FS => (.ok ret.fs, d1)
    | .GS => (.ok ret.gs, d1)
    | .SS => (.ok ret.ss, d1)
    | .DS => (.ok ret.ds, d1)
    | .ES => (.ok ret.es, d1)

/-- The `switch` of `Debugger::SetRegister`: assign one field of the bank. -/
def assignRegister (regs : user_regs_struct) (reg : Registers) (val : Nat) :
    user_regs_struct :=
  match reg with
  | .RAX => { regs with rax := val }
  | .RBX => { regs with rbx := val }
  | .RCX => { regs with rcx := val }
  | .RDX => { regs with rdx := val }
  | .RDI => { regs with rdi := val }
  | .RSI => { regs with rsi := val }
  | .RBP => { regs with rbp := val }
  | .RSP => { regs with rsp := val }
  | .R8 => { regs with r8 := val }
  | .R9 => { regs with r9 := val }
  | .R10 => { regs with r10 := val }
  | .R11 => { regs with r11 := val }
  | .R12 => { regs with r12 := val }
  | .R13 => { regs with r13 := val }
  | .R14 => { regs with r14 := val }
  | .R15 => { regs with r15 := val }
  | .RIP => { regs with rip := val }
  | .EFLAGS => { regs with eflags := val }
  | .CS => { regs with cs := val }
  | .ORIG_RAX => { regs with orig_rax := val }
  | .FS_BASE => { regs with fs_base := val }
  | .GS_BASE => { regs with gs_base := val }
  | .FS => { regs with fs := val }
  | .GS => { regs with gs := val }
  | .SS => { regs with ss := val }
  | .DS => { regs with ds := val }
  | .ES => { regs with es := val }

/-- The method `Debugger::SetRegister`: read the bank, assign one field, write
the bank back. -/
def Debugger.SetRegister (d : Debugger) (reg : Registers) (val : Nat) :
    Outcome Unit × Debugger :=
  if d.m_uStatus ≠ ProcessStatus.Paused then (.throw .InvalidCallException, d)
  else
    let regs := d.target.regs
    let d1 := d.log .GETREGS
    let regs := assignRegister regs reg val
    let d2 := d1.log (.SETREGS regs)
    (.ok (), { d2 with target := { d2.target with regs := regs } })

/-- The method `Debugger::Read`: one `PTRACE_PEEKDATA` at `address`; a failed
request (`-1` with `errno` set) throws `ApiException`. -/
def Debugger.Read (d : Debugger) (address : Nat) : Outcome Nat × Debugger :=
  if d.m_uStatus ≠ ProcessStatus.Paused then (.throw .InvalidCallException, d)
  else
    let d1 := d.log (.PEEKDATA address)
    match d.target.peek address with
    | none => (.throw .ApiException, d1)
    | some data => (.ok data, d1)

/-- The method `Debugger::ReadByte`: byte 0 of the word read at `address`. -/
def Debugger.ReadByte (d : Debugger) (address : Nat) : Outcome Byte × Debugger :=
  match d.Read address with
  | (.ok data, d1) => (.ok (byteOfWord data 0), d1)
  | (.throw e, d1) => (.throw e, d1)
  | (.outOfFuel, d1) => (.outOfFuel, d1)

/-- The method `Debugger::Write`: one `PTRACE_POKEDATA` at `address`. -/
def Debugger.Write (d : Debugger) (address data : Nat) : Outcome Unit × Debugger :=
  if d.m_uStatus ≠ ProcessStatus.Paused then (.throw .InvalidCallException, d)
  else
    let d1 := d.log (.POKEDATA address data)
    match d.target.poke address data with
    | none => (.throw .ApiException, d1)
    | some t => (.ok (), { d1 with target := t })

/-- The method `Debugger::WriteByte`: read the word at `address`, replace its
byte 0, write the word back. -/
def Debugger.WriteByte (d : Debugger) (address : Nat) (data : Byte) :
    Outcome Unit × Debugger :=
  match d.Read address with
  | (.ok val, d1) => d1.Write address (setByte0 val data)
  | (.throw e, d1) => (.throw e, d1)
  | (.outOfFuel, d1) => (.outOfFuel, d1)

/-- Inner `for` loop of `Debugger::ReadString` over the bytes of one word:
`(true, ret)` when a NUL byte was met (the function returns `ret`), otherwise
`(false, ret)` with the bytes pushed. -/
def ReadString.inner : List Byte → List Byte → Bool × List Byte
  | [], ret => (false, ret)
  | ch :: rest, ret =>
    if ch = 0 then (true, ret) else ReadString.inner rest (ret ++ [ch])

/-- The `while (offset < maxlen)` loop of `Debugger::ReadString` followed by
the final `resize`; `fuel` bounds the number of iterations. -/
def ReadString.loop (address maxlen : Nat) :
    Nat → Debugger → Nat → List Byte → Outcome (List Byte) × Debugger
  | 0, d, offset, ret =>
    if offset < maxlen then (.outOfFuel, d)
    else (.ok (if ret.length > maxlen then ret.take maxlen else ret), d)
  | fuel + 1, d, offset, ret =>
    if offset < maxlen then
      match d.Read ((address + offset) % WORD_MOD) with
      | (.ok val, d1) =>
        match ReadString.inner (bytesOfWord val) ret with
        | (true, ret1) => (.ok ret1, d1)
        | (false, ret1) =>
          ReadString.loop address maxlen fuel d1 ((offset + WORD_SIZE) % WORD_MOD) ret1
      | (.throw e, d1) => (.throw e, d1)
      | (.outOfFuel, d1) => (.outOfFuel, d1)
    else (.ok (if ret.length > maxlen then ret.take maxlen else ret), d)

/-- The method `Debugger::ReadString`.  The fuel given to the loop is enough
for every `maxlen` whose rounding up to a word multiple does not wrap. -/
def Debugger.ReadString (d : Debugger) (address maxlen : Nat) :
    Outcome (List Byte) × Debugger :=
  ReadString.loop address maxlen (maxlen / WORD_SIZE + 1) d 0 []

/-- Copy `src` into `buf` at index `pos` (`memcpy(buf + pos, src, src.length)`). -/
def writeAt {α : Type} (buf : List α) (pos : Nat) (src : List α) : List α :=
  buf.take pos ++ src ++ buf.drop (pos + src.length)

/-- The `while (offset < count)` loop of `Debugger::ReadBytes`. -/
def ReadBytes.loop (address count : Nat) :
    Nat → Debugger → Nat → List Byte → Outcome Unit × List Byte × Debugger
  | 0, d, offset, buffer =>
    if offset < count then (.outOfFuel, buffer, d) else (.ok (), buffer, d)
  | fuel + 1, d, offset, buffer =>
    if offset < count then
      match d.Read ((address + offset) % WORD_MOD) with
      | (.ok val, d1) =>
        ReadBytes.loop address count fuel d1 ((offset + WORD_SIZE) % WORD_MOD)
          (writeAt buffer offset (bytesOfWord val))
      | (.throw e, d1) => (.throw e, buffer, d1)
      | (.outOfFuel, d1) => (.outOfFuel, buffer, d1)
    else (.ok (), buffer, d)

/-- The method `Debugger::ReadBytes`: `count` is rounded down to a word
multiple, the buffer is filled word by word, the rounded count is returned. -/
def Debugger.ReadBytes (d : Debugger) (address : Nat) (buffer : List Byte) (count : Nat) :
    Outcome Nat × List Byte × Debugger :=
  let count := if count % WORD_SIZE ≠ 0 then count - count % WORD_SIZE else count
  match ReadBytes.loop address count (count / WORD_SIZE) d 0 buffer with
  | (.ok (), buffer1, d1) => (.ok count, buffer1, d1)
  | (.throw e, buffer1, d1) => (.throw e, buffer1, d1)
  | (.outOfFuel, buffer1, d1) => (.outOfFuel, buffer1, d1)

/-! ## Breakpoints -/

/-- The fields of `Breakpoint` (the controller reference is passed to the
methods). -/
structure Breakpoint where
  m_uAddress : Nat
  m_bEnabled : Bool
  m_uOriginalByte : Byte
deriving DecidableEq, Repr

/-- The constructor `Breakpoint::Breakpoint(dbg, address)`. -/
def Breakpoint.create (address : Nat) : Breakpoint :=
  { m_uAddress := address, m_bEnabled := false, m_uOriginalByte := 0 }

/-- The method `Breakpoint::Enable`. -/
def Breakpoint.Enable (bp : Breakpoint) (d : Debugger) :
    Outcome Unit × Breakpoint × Debugger :=
  match d.ReadByte bp.m_uAddress with
  | (.ok code, d1) =>
    if bp.m_bEnabled ∧ code = 0xCC then (.ok (), bp, d1)
    else
      match d1.WriteByte bp.m_uAddress 0xCC with
      | (.ok (), d2) =>
        (.ok (), { bp with m_bEnabled := true, m_uOriginalByte := code }, d2)
      | (.throw e, d2) => (.throw e, bp, d2)
      | (.outOfFuel, d2) => (.outOfFuel, bp, d2)
  | (.throw e, d1) => (.throw e, bp, d1)
  | (.outOfFuel, d1) => (.outOfFuel, bp, d1)

/-- The method `Breakpoint::Disable`. -/
def Breakpoint.Disable (bp : Breakpoint) (d : Debugger) :
    Outcome Unit × Breakpoint × Debugger :=
  if ¬ bp.m_bEnabled then (.ok (), bp, d)
  else
    match d.ReadByte bp.m_uAddress with
    | (.ok code, d1) =>
      if code ≠ 0xCC then
        (.ok (), { bp with m_bEnabled := false, m_uOriginalByte := code }, d1)
      else
        match d1.WriteByte bp.m_uAddress bp.m_uOriginalByte with
        | (.ok (), d2) => (.ok (), { bp with m_bEnabled := false }, d2)
        | (.throw e, d2) => (.throw e, bp, d2)
        | (.outOfFuel, d2) => (.outOfFuel, bp, d2)
    | (.throw e, d1) => (.throw e, bp, d1)
    | (.outOfFuel, d1) => (.outOfFuel, bp, d1)

/-! ## Remote memory accessor -/

/-- The template parameter `Align = sizeof(size_t)` of `MemoryAccessorBase`. -/
def Align : Nat := 8

/-- Bitwise complement of a `size_t`. -/
def not64 (x : Nat) : Nat := WORD_MOD - 1 - x % WORD_MOD

/-- The function `MemoryAccessorBase::RoundUp`: `(n + Align - 1) & ~(Align - 1)`. -/
def RoundUp (n : Nat) : Nat :=
  ((n + Align - 1) % WORD_MOD) &&& not64 (Align - 1)

/-- The function `MemoryAccessorBase::RoundDown`: `n & ~(Align - 1)`. -/
def RoundDown (n : Nat) : Nat :=
  n &&& not64 (Align - 1)

/-- The class `MemoryAccessor` of `LuaSampler.cpp` with the buffer of its base
class; `rawReads` is the ghost log of the calls of the raw
`Read(address, output)`, each with its address and the size of its output. -/
structure MemoryAccessor where
  m_pDebugger : Debugger
  m_stBuffer : List Byte
  rawReads : List (Nat × Nat)

/-- The raw read `MemoryAccessor::Read(address, output)`, with its three
assertions. -/
def MemoryAccessor.Read (d : Debugger) (address : Nat) (output : List Byte) :
    Outcome Unit × List Byte × Debugger :=
  if address % WORD_SIZE ≠ 0 then (.throw .AssertionFailed, output, d)
  else if output.length % WORD_SIZE ≠ 0 then (.throw .AssertionFailed, output, d)
  else
    match d.ReadBytes address output output.length with
    | (.ok sz, output1, d1) =>
      if sz ≠ output.length then (.throw .AssertionFailed, output1, d1)
      else (.ok (), output1, d1)
    | (.throw e, output1, d1) => (.throw e, output1, d1)
    | (.outOfFuel, output1, d1) => (.outOfFuel, output1, d1)

/-- The call `std::vector<uint8_t>::resize(n)`. -/
def resize (v : List Byte) (n : Nat) : List Byte :=
  v.take n ++ List.replicate (n - v.length) 0

/-- The typed read `MemoryAccessorBase::Read<T>(out, address)` for a type `T`
with `sizeof(T) = size`; the value is the `size` bytes of `out`. -/
def MemoryAccessor.ReadT (m : MemoryAccessor) (size address : Nat) :
    Outcome (List Byte) × MemoryAccessor :=
  let lowBound := RoundDown address
  if ¬ (lowBound ≤ address) then (.throw .AssertionFailed, m)
  else
    let highBound := RoundUp ((address + size) % WORD_MOD)
    if ¬ (highBound ≥ (address + size) % WORD_MOD) then (.throw .AssertionFailed, m)
    else
      let buffer := resize m.m_stBuffer ((highBound + WORD_MOD - lowBound) % WORD_MOD)
      if ¬ (buffer.length ≥ size) then
        (.throw .AssertionFailed, { m with m_stBuffer := buffer })
      else
        let log := m.rawReads ++ [(lowBound, buffer.length)]
        match MemoryAccessor.Read m.m_pDebugger lowBound buffer with
        | (.ok (), buffer1, d1) =>
          let out := List.replicate size (0 : Byte)
          let out := writeAt out 0 ((buffer1.drop (address - lowBound)).take size)
          (.ok out, { m_pDebugger := d1, m_stBuffer := buffer1, rawReads := log })
        | (.throw e, buffer1, d1) =>
          (.throw e, { m_pDebugger := d1, m_stBuffer := buffer1, rawReads := log })
        | (.outOfFuel, buffer1, d1) =>
          (.outOfFuel, { m_pDebugger := d1, m_stBuffer := buffer1, rawReads := log })

/-! ## Short-source formatter -/

/-- The terminator of a C string. -/
def NUL : Char := Char.ofNat 0

/-- The call `std::string::c_str()`: the characters followed by the terminator. -/
def c_str (s : List Char) : List Char := s ++ [NUL]

/-- The string a `char*` denotes: the characters before the first terminator. -/
def cstring (p : List Char) : List Char := p.takeWhile (fun c => c ≠ NUL)

/-- The function `strlen`. -/
def strlen (p : List Char) : Nat := (cstring p).length

/-- The function `strchr(p, c)` for `c ≠ NUL`: offset of the first `c` of the
string, `none` for a null result. -/
def strchr (p : List Char) (c : Char) : Option Nat :=
  if (cstring p).indexOf c < strlen p then some ((cstring p).indexOf c) else none

/-- The literal `RETS = "..."`. -/
def RETS : List Char := ['.', '.', '.', NUL]

/-- The literal `PRE = "[string \""`. -/
def PRE : List Char := ['[', 's', 't', 'r', 'i', 'n', 'g', ' ', '"', NUL]

/-- The literal `POS = "\"]"`. -/
def POS : List Char := ['"', ']', NUL]

/-- The destination `char* out`: the memory it points into and the offset
the pointer has reached. -/
structure OutPtr where
  buf : List Char
  pos : Nat

/-- The call `memcpy(out, b, l)`: `b` is the memory from the source pointer on. -/
def memcpyOut (out : OutPtr) (b : List Char) (l : Nat) : OutPtr :=
  { out with buf := writeAt out.buf out.pos (b.take l) }

/-- The helper `addstr(a, b, l)`: `memcpy(a, b, l); a += l`. -/
def addstr (a : OutPtr) (b : List Char) (l : Nat) : OutPtr :=
  { buf := (memcpyOut a b l).buf, pos := a.pos + l }

/-- The function `luaO_chunkid(out, source, bufflen)`; `source` is the memory
the source pointer points to (terminator included). -/
def luaO_chunkid (out : OutPtr) (source : List Char) (bufflen : Nat) : OutPtr :=
  let l := strlen source
  if source.head? = some '=' then
    if l ≤ bufflen then memcpyOut out (source.drop 1) l
    else
      let out := addstr out (source.drop 1) ((bufflen + WORD_MOD - 1) % WORD_MOD)
      memcpyOut out [NUL] 1
  else if source.head? = some '@' then
    if l ≤ bufflen then memcpyOut out (source.drop 1) l
    else
      let out := addstr out RETS (strlen RETS)
      let bufflen := (bufflen + WORD_MOD - strlen RETS) % WORD_MOD
      memcpyOut out (source.drop ((1 + l + WORD_MOD - bufflen) % WORD_MOD)) bufflen
  else
    let nl := strchr source '\n'
    let out := addstr out PRE (strlen PRE)
    let bufflen :=
      (bufflen + WORD_MOD - (strlen PRE + strlen RETS + strlen POS + 1)) % WORD_MOD
    if l < bufflen ∧ nl = none then
      let out := addstr out source l
      memcpyOut out POS (strlen POS + 1)
    else
      let l := match nl with
        | some i => i
        | none => l
      let l := if l > bufflen then bufflen else l
      let out := addstr out source l
      let out := addstr out RETS (strlen RETS)
      memcpyOut out POS (strlen POS + 1)

/-- The constant `LUA_IDSIZE`. -/
def LUA_IDSIZE : Nat := 60

/-- The last statement of `funcinfo`:
`luaO_chunkid(ar.short_src, ar.source.c_str(), LUA_IDSIZE)`, and the string
then found in `ar.short_src`, whose content before the call is `buf0`. -/
def short_src (buf0 : List Char) (source : List Char) : List Char :=
  cstring (luaO_chunkid { buf := buf0, pos := 0 } (c_str source) LUA_IDSIZE).buf

/-! ## Outcomes in sequence -/

/-- Run `f` on the value of `x`; an exception (or fuel exhaustion) of `x`
propagates. -/
def Outcome.bind {α β : Type} (x : Outcome α) (f : α → Outcome β) : Outcome β :=
  match x with
  | .ok v => f v
  | .throw e => .throw e
  | .outOfFuel => .outOfFuel

instance : Monad Outcome where
  pure := Outcome.ok
  bind := Outcome.bind

/-! ## C integer conversions -/

/-- Conversion to `int` (32 bit, two's complement). -/
def toInt32 (x : Int) : Int := (x + 2 ^ 31) % 2 ^ 32 - 2 ^ 31

/-- Conversion to `ptrdiff_t` (64 bit, two's complement). -/
def toInt64 (x : Int) : Int := (x + 2 ^ 63) % 2 ^ 64 - 2 ^ 63

/-- Conversion to `unsigned` (32 bit). -/
def toUInt32 (x : Int) : Nat := (x % 2 ^ 32).toNat

/-- Bitwise complement of an `unsigned`. -/
def not32 (x : Nat) : Nat := 2 ^ 32 - 1 - x % 2 ^ 32

/-- Left shift of an `unsigned`. -/
def shl32 (x n : Nat) : Nat := (x * 2 ^ n) % 2 ^ 32

/-- A pointer moved by `offset` bytes (`uintptr_t` arithmetic). -/
def ptrAdd (pointer : Nat) (offset : Int) : Nat := (((pointer : Int) + offset) % 2 ^ 64).toNat

/-! ## Lua 5.3 ABI mirror (`LuaObjects`) -/

def LUA_TNIL : Nat := 0
def LUA_TBOOLEAN : Nat := 1
def LUA_TLIGHTUSERDATA : Nat := 2
def LUA_TNUMBER : Nat := 3
def LUA_TSTRING : Nat := 4
def LUA_TTABLE : Nat := 5
def LUA_TFUNCTION : Nat := 6
def LUA_TUSERDATA : Nat := 7
def LUA_TTHREAD : Nat := 8
def LUA_TSHRSTR : Nat := LUA_TSTRING ||| (0 <<< 4)
def LUA_TLNGSTR : Nat := LUA_TSTRING ||| (1 <<< 4)
def LUA_TNUMFLT : Nat := LUA_TNUMBER ||| (0 <<< 4)
def LUA_TNUMINT : Nat := LUA_TNUMBER ||| (1 <<< 4)
def LUA_TLCL : Nat := LUA_TFUNCTION ||| (0 <<< 4)
def LUA_TLCF : Nat := LUA_TFUNCTION ||| (1 <<< 4)
def LUA_TCCL : Nat := LUA_TFUNCTION ||| (2 <<< 4)

/-- The function `MarkAsCollectableType`. -/
def MarkAsCollectableType (t : Nat) : Nat := t ||| (1 <<< 6)

def CIST_LUA : Nat := 1 <<< 1
def CIST_HOOKED : Nat := 1 <<< 2
def CIST_TAIL : Nat := 1 <<< 5
def CIST_FIN : Nat := 1 <<< 8

/-- The enum `TMS`, by value. -/
def TM_INDEX : Int := 0
def TM_NEWINDEX : Int := 1
def TM_GC : Int := 2
def TM_MODE : Int := 3
def TM_LEN : Int := 4
def TM_EQ : Int := 5
def TM_ADD : Int := 6
def TM_SUB : Int := 7
def TM_MUL : Int := 8
def TM_MOD : Int := 9
def TM_POW : Int := 10
def TM_DIV : Int := 11
def TM_IDIV : Int := 12
def TM_BAND : Int := 13
def TM_BOR : Int := 14
def TM_BXOR : Int := 15
def TM_SHL : Int := 16
def TM_SHR : Int := 17
def TM_UNM : Int := 18
def TM_BNOT : Int := 19
def TM_LT : Int := 20
def TM_LE : Int := 21
def TM_CONCAT : Int := 22
def TM_CALL : Int := 23
def TM_N : Int := 24

/-- The struct `lua_TValue`: the union `value_` as the 64 bit word it
occupies (a `gc` pointer, a light C function `f`, ...) and the tag `tt_`. -/
structure TValue where
  value_ : Nat
  tt_ : Int
deriving DecidableEq, Repr

def TValue.GetTypeTag (v : TValue) : Int := Int.land v.tt_ 0x3F
def TValue.GetTypeTagNoVariant (v : TValue) : Int := Int.land v.tt_ 0xF
def TValue.IsString (v : TValue) : Bool := toUInt32 v.GetTypeTagNoVariant = LUA_TSTRING
def TValue.IsFunction (v : TValue) : Bool := toUInt32 v.GetTypeTagNoVariant = LUA_TFUNCTION
def TValue.IsClosure (v : TValue) : Bool := toUInt32 (Int.land v.tt_ 0x1F) = LUA_TFUNCTION
def TValue.IsCClosure (v : TValue) : Bool :=
  toUInt32 v.GetTypeTag = MarkAsCollectableType LUA_TCCL
def TValue.IsLClosure (v : TValue) : Bool :=
  toUInt32 v.GetTypeTag = MarkAsCollectableType LUA_TLCL
def TValue.IsLightCFunction (v : TValue) : Bool := toUInt32 v.GetTypeTag = LUA_TLCF
def TValue.IsShrString (v : TValue) : Bool :=
  toUInt32 v.GetTypeTag = MarkAsCollectableType LUA_TSHRSTR
def TValue.IsLngString (v : TValue) : Bool :=
  toUInt32 v.GetTypeTag = MarkAsCollectableType LUA_TLNGSTR
def TValue.IsTable (v : TValue) : Bool :=
  toUInt32 v.GetTypeTag = MarkAsCollectableType LUA_TTABLE
def TValue.IsFullUserData (v : TValue) : Bool :=
  toUInt32 v.GetTypeTag = MarkAsCollectableType LUA_TUSERDATA
def TValue.IsThread (v : TValue) : Bool :=
  toUInt32 v.GetTypeTag = MarkAsCollectableType LUA_TTHREAD

/-- The union `Closure`: the fields of `CClosure` and `LClosure` that are
used; `l.p` and `c.f` occupy the same bytes and are the one field `p`. -/
structure Closure where
  tt : Nat
  nupvalues : Nat
  p : Nat
deriving DecidableEq, Repr

/-- The struct `Proto`, the fields that are used. -/
structure Proto where
  numparams : Nat
  is_vararg : Nat
  sizeupvalues : Int
  sizelocvars : Int
  linedefined : Int
  lastlinedefined : Int
  k : Nat
  code : Nat
  lineinfo : Nat
  locvars : Nat
  upvalues : Nat
  source : Nat
deriving DecidableEq, Repr

/-- The struct `LocVar`. -/
structure LocVar where
  varname : Nat
  startpc : Int
  endpc : Int
deriving DecidableEq, Repr

/-- The struct `Upvaldesc`, the field that is used. -/
structure Upvaldesc where
  name : Nat
deriving DecidableEq, Repr

/-- The struct `CallInfo`, the fields that are used (`savedpc` is
`u.l.savedpc`). -/
structure CallInfo where
  func : Nat
  previous : Nat
  savedpc : Nat
  callstatus : Nat
deriving DecidableEq, Repr

def CallInfo.IsLua (ci : CallInfo) : Bool := ci.callstatus &&& CIST_LUA ≠ 0
def CallInfo.IsHooked (ci : CallInfo) : Bool := ci.callstatus &&& CIST_HOOKED ≠ 0
def CallInfo.IsTailCall (ci : CallInfo) : Bool := ci.callstatus &&& CIST_TAIL ≠ 0
def CallInfo.IsFinalizer (ci : CallInfo) : Bool := ci.callstatus &&& CIST_FIN ≠ 0

/-- The struct `global_State`, the field that is used: `tmname[i]`. -/
structure global_State where
  tmname : Nat → Nat

/-- The struct `lua_State`, the fields that are used. -/
structure lua_State where
  top : Nat
  l_G : Nat
  ci : Nat
deriving DecidableEq, Repr

/-- The struct `lua_Debug`; `namewhat` and `what` are `const char*` and may be
null, `short_src` is the 60 byte array. -/
structure lua_Debug where
  name : List Char
  namewhat : Option (List Char)
  what : Option (List Char)
  source : List Char
  currentline : Int
  linedefined : Int
  lastlinedefined : Int
  nups : Nat
  nparams : Nat
  isvararg : Bool
  istailcall : Bool
  short_src : List Char
  address : Nat
  i_ci : Nat
deriving DecidableEq, Repr

/-- The value `lua_Debug debug {}`. -/
def lua_Debug.zero : lua_Debug :=
  { name := [], namewhat := none, what := none, source := [], currentline := 0,
    linedefined := 0, lastlinedefined := 0, nups := 0, nparams := 0, isvararg := false,
    istailcall := false, short_src := List.replicate LUA_IDSIZE NUL, address := 0, i_ci := 0 }

/-! Sizes and offsets of the mirrored structs on x86_64. -/

def sizeof_Instruction : Int := 4
def sizeof_int : Int := 4
def sizeof_TValue : Int := 16
def sizeof_LocVar : Int := 16
def sizeof_Upvaldesc : Int := 16
def sizeof_UTString : Int := 24
def offsetof_base_ci : Int := 96

/-! ## Remote memory, typed -/

/-- The memory of the paused target as the accessor decodes it: for each
mirrored type, the value a typed read at an address yields (`none` when the
read fails), and the result of `ReadString(address, maxlen)`. -/
structure Remote where
  TValue_at : Nat → Option TValue
  Closure_at : Nat → Option Closure
  Proto_at : Nat → Option Proto
  Instruction_at : Nat → Option Nat
  int_at : Nat → Option Int
  LocVar_at : Nat → Option LocVar
  Upvaldesc_at : Nat → Option Upvaldesc
  CallInfo_at : Nat → Option CallInfo
  lua_State_at : Nat → Option lua_State
  global_State_at : Nat → Option global_State
  ReadString : Nat → Nat → Outcome (List Char)

/-- The operator `RemotePtr<T>::operator*`: `InvalidCall` for a null pointer,
otherwise the typed read through the accessor. -/
def deref {α : Type} (read : Nat → Option α) (pointer : Nat) : Outcome α :=
  if pointer = 0 then .throw .InvalidCallException
  else
    match read pointer with
    | some v => .ok v
    | none => .throw .ApiException

/-- The function `getstr`. -/
def getstr (R : Remote) (stringPtr : Nat) : Outcome (List Char) :=
  R.ReadString (ptrAdd stringPtr sizeof_UTString) 1024

/-! ## Lua stack walker (`RemoteLuaWrapper.cpp`) -/

/-- The function `noLuaClosure`. -/
def noLuaClosure (closure : Option Closure) : Bool :=
  match closure with
  | none => true
  | some cl => cl.tt = LUA_TCCL

/-- The function `funcinfo`. -/
def funcinfo (R : Remote) (ar : lua_Debug) (closure : Option Closure) : Outcome lua_Debug := do
  let ar ←
    if noLuaClosure closure then
      pure { ar with
        source := ['=', '[', 'C', ']'], linedefined := -1, lastlinedefined := -1,
        what := some ['C'] }
    else
      match closure with
      | none => Outcome.throw .UndefinedBehavior
      | some cl => do
        let proto ← deref R.Proto_at cl.p
        let source ← if proto.source ≠ 0 then getstr R proto.source else pure ['=', '?']
        pure { ar with
          source := source, linedefined := proto.linedefined,
          lastlinedefined := proto.lastlinedefined,
          what := some (if proto.linedefined = 0 then ['m', 'a', 'i', 'n'] else ['L', 'u', 'a']) }
  pure { ar with
    short_src := (luaO_chunkid { buf := ar.short_src, pos := 0 } (c_str ar.source) LUA_IDSIZE).buf }

/-- The function `pcRel`: the pointer difference in instructions, as an `int`,
minus one. -/
def pcRel (pc : Nat) (p : Proto) : Int :=
  toInt32 (toInt64 ((pc : Int) - (p.code : Int)) / sizeof_Instruction) - 1

/-- The function `currentline`. -/
def currentline (R : Remote) (ci : CallInfo) : Outcome Int := do
  if ¬ ci.IsLua then Outcome.throw .BadStateException
  else
    let val ← deref R.TValue_at ci.func
    let cl ← deref R.Closure_at val.value_
    let proto ← deref R.Proto_at cl.p
    let pc := pcRel ci.savedpc proto
    if proto.lineinfo = 0 then pure (-1)
    else deref R.int_at (ptrAdd proto.lineinfo (sizeof_int * pc))

/-! ### Instruction decoding -/

def OP_MOVE : Int := 0
def OP_LOADK : Int := 1
def OP_LOADKX : Int := 2
def OP_LOADBOOL : Int := 3
def OP_LOADNIL : Int := 4
def OP_GETUPVAL : Int := 5
def OP_GETTABUP : Int := 6
def OP_GETTABLE : Int := 7
def OP_SETTABUP : Int := 8
def OP_SETUPVAL : Int := 9
def OP_SETTABLE : Int := 10
def OP_NEWTABLE : Int := 11
def OP_SELF : Int := 12
def OP_ADD : Int := 13
def OP_SUB : Int := 14
def OP_MUL : Int := 15
def OP_MOD : Int := 16
def OP_POW : Int := 17
def OP_DIV : Int := 18
def OP_IDIV : Int := 19
def OP_BAND : Int := 20
def OP_BOR : Int := 21
def OP_BXOR : Int := 22
def OP_SHL : Int := 23
def OP_SHR : Int := 24
def OP_UNM : Int := 25
def OP_BNOT : Int := 26
def OP_NOT : Int := 27
def OP_LEN : Int := 28
def OP_CONCAT : Int := 29
def OP_JMP : Int := 30
def OP_EQ : Int := 31
def OP_LT : Int := 32
def OP_LE : Int := 33
def OP_TEST : Int := 34
def OP_TESTSET : Int := 35
def OP_CALL : Int := 36
def OP_TAILCALL : Int := 37
def OP_RETURN : Int := 38
def OP_FORLOOP : Int := 39
def OP_FORPREP : Int := 40
def OP_TFORCALL : Int := 41
def OP_TFORLOOP : Int := 42
def OP_SETLIST : Int := 43
def OP_CLOSURE : Int := 44
def OP_VARARG : Int := 45
def OP_EXTRAARG : Int := 46

def OpArgN : Nat := 0
def OpArgU : Nat := 1
def OpArgR : Nat := 2
def OpArgK : Nat := 3

def iABC : Nat := 0
def iABx : Nat := 1
def iAsBx : Nat := 2
def iAx : Nat := 3

/-- The function `opmode`, a `lu_byte`. -/
def opmode (t a b c m : Nat) : Nat :=
  ((t <<< 7) ||| (a <<< 6) ||| (b <<< 4) ||| (c <<< 2) ||| m) % 256

/-- The table `luaP_opmodes`. -/
def luaP_opmodes : List Nat :=
  [ opmode 0 1 OpArgR OpArgN iABC   -- OP_MOVE
  , opmode 0 1 OpArgK OpArgN iABx   -- OP_LOADK
  , opmode 0 1 OpArgN OpArgN iABx   -- OP_LOADKX
  , opmode 0 1 OpArgU OpArgU iABC   -- OP_LOADBOOL
  , opmode 0 1 OpArgU OpArgN iABC   -- OP_LOADNIL
  , opmode 0 1 OpArgU OpArgN iABC   -- OP_GETUPVAL
  , opmode 0 1 OpArgU OpArgK iABC   -- OP_GETTABUP
  , opmode 0 1 OpArgR OpArgK iABC   -- OP_GETTABLE
  , opmode 0 0 OpArgK OpArgK iABC   -- OP_SETTABUP
  , opmode 0 0 OpArgU OpArgN iABC   -- OP_SETUPVAL
  , opmode 0 0 OpArgK OpArgK iABC   -- OP_SETTABLE
  , opmode 0 1 OpArgU OpArgU iABC   -- OP_NEWTABLE
  , opmode 0 1 OpArgR OpArgK iABC   -- OP_SELF
  , opmode 0 1 OpArgK OpArgK iABC   -- OP_ADD
  , opmode 0 1 OpArgK OpArgK iABC   -- OP_SUB
  , opmode 0 1 OpArgK OpArgK iABC   -- OP_MUL
  , opmode 0 1 OpArgK OpArgK iABC   -- OP_MOD
  , opmode 0 1 OpArgK OpArgK iABC   -- OP_POW
  , opmode 0 1 OpArgK OpArgK iABC   -- OP_DIV
  , opmode 0 1 OpArgK OpArgK iABC   -- OP_IDIV
  , opmode 0 1 OpArgK OpArgK iABC   -- OP_BAND
  , opmode 0 1 OpArgK OpArgK iABC   -- OP_BOR
  , opmode 0 1 OpArgK OpArgK iABC   -- OP_BXOR
  , opmode 0 1 OpArgK OpArgK iABC   -- OP_SHL
  , opmode 0 1 OpArgK OpArgK iABC   -- OP_SHR
  , opmode 0 1 OpArgR OpArgN iABC   -- OP_UNM
  , opmode 0 1 OpArgR OpArgN iABC   -- OP_BNOT
  , opmode 0 1 OpArgR OpArgN iABC   -- OP_NOT
  , opmode 0 1 OpArgR OpArgN iABC   -- OP_LEN
  , opmode 0 1 OpArgR OpArgR iABC   -- OP_CONCAT
  , opmode 0 0 OpArgR OpArgN iAsBx  -- OP_JMP
  , opmode 1 0 OpArgK OpArgK iABC   -- OP_EQ
  , opmode 1 0 OpArgK OpArgK iABC   -- OP_LT
  , opmode 1 0 OpArgK OpArgK iABC   -- OP_LE
  , opmode 1 0 OpArgN OpArgU iABC   -- OP_TEST
  , opmode 1 1 OpArgR OpArgU iABC   -- OP_TESTSET
  , opmode 0 1 OpArgU OpArgU iABC   -- OP_CALL
  , opmode 0 1 OpArgU OpArgU iABC   -- OP_TAILCALL
  , opmode 0 0 OpArgU OpArgN iABC   -- OP_RETURN
  , opmode 0 1 OpArgR OpArgN iAsBx  -- OP_FORLOOP
  , opmode 0 1 OpArgR OpArgN iAsBx  -- OP_FORPREP
  , opmode 0 0 OpArgN OpArgU iABC   -- OP_TFORCALL
  , opmode 0 1 OpArgR OpArgN iAsBx  -- OP_TFORLOOP
  , opmode 0 0 OpArgU OpArgU iABC   -- OP_SETLIST
  , opmode 0 1 OpArgU OpArgN iABx   -- OP_CLOSURE
  , opmode 0 1 OpArgU OpArgN iABC   -- OP_VARARG
  , opmode 0 0 OpArgU OpArgU iAx    -- OP_EXTRAARG
  ]

def SIZE_OP : Nat := 6
def SIZE_A : Nat := 8
def SIZE_B : Nat := 9
def SIZE_C : Nat := 9
def SIZE_Bx : Nat := SIZE_C + SIZE_B
def SIZE_Ax : Nat := SIZE_C + SIZE_B + SIZE_A

def POS_OP : Nat := 0
def POS_A : Nat := POS_OP + SIZE_OP
def POS_C : Nat := POS_A + SIZE_A
def POS_B : Nat := POS_C + SIZE_C
def POS_Bx : Nat := POS_C
def POS_Ax : Nat := POS_A

def MAXARG_Bx : Nat := (1 <<< SIZE_Bx) - 1
def MAXARG_sBx : Nat := MAXARG_Bx >>> 1

def BITRK : Nat := 1 <<< (SIZE_B - 1)

/-- The function `MASK1`: computed on `Instruction` (unsigned), returned as
`int`. -/
def MASK1 (n p : Nat) : Int := toInt32 (shl32 (not32 (shl32 (not32 0) n)) p)

/-- The function `getarg`: arithmetic shift and bitwise and on `int`. -/
def getarg (i : Int) (pos size : Nat) : Int := Int.land (i >>> pos) (MASK1 size 0)

def GETARG_A (i : Int) : Int := getarg i POS_A SIZE_A
def GETARG_Ax (i : Int) : Int := getarg i POS_Ax SIZE_Ax
def GETARG_B (i : Int) : Int := getarg i POS_B SIZE_B
def GETARG_C (i : Int) : Int := getarg i POS_C SIZE_C
def GETARG_Bx (i : Int) : Int := getarg i POS_Bx SIZE_Bx

/-- The function `GET_OPCODE`; the result is the value of the `OpCode`. -/
def GET_OPCODE (i : Int) : Int := Int.land (i >>> POS_OP) (MASK1 SIZE_OP 0)

/-- The function `GETARG_sBx`: the subtraction is done on `unsigned` and the
result converted to `int`. -/
def GETARG_sBx (i : Int) : Int := toInt32 (GETARG_Bx i - (MAXARG_sBx : Int))

/-- The function `testAMode`; `UndefinedBehavior` when `m` is no index of
the table. -/
def testAMode (m : Int) : Outcome Int :=
  if 0 ≤ m ∧ m < luaP_opmodes.length then
    .ok (((luaP_opmodes.getD m.toNat 0) &&& (1 <<< 6) : Nat) : Int)
  else .throw .UndefinedBehavior

/-- The function `ISK`. -/
def ISK (x : Int) : Bool := toUInt32 x &&& BITRK ≠ 0

/-- The function `INDEXK`. -/
def INDEXK (r : Int) : Int := toInt32 ((toUInt32 r &&& not32 BITRK : Nat) : Int)

/-- Read the instruction `code[pc]` of a prototype and pass it as `int`. -/
def readInstruction (R : Remote) (p : Proto) (pc : Int) : Outcome Int := do
  let i ← deref R.Instruction_at (ptrAdd p.code (sizeof_Instruction * pc))
  pure (toInt32 (i : Int))

/-! ### Names of locals, upvalues and constants -/

/-- The loop of `luaF_getlocalname`; the first argument counts the indices
`i` still below `f.sizelocvars`. -/
def luaF_getlocalname.loop (R : Remote) (f : Proto) (pc : Int) :
    Nat → Int → Int → Outcome (List Char)
  | 0, _, _ => .ok []
  | n + 1, i, local_number => do
    let loc ← deref R.LocVar_at (ptrAdd f.locvars (sizeof_LocVar * i))
    if loc.startpc ≤ pc then
      if pc < loc.endpc then
        if local_number - 1 = 0 then getstr R loc.varname
        else luaF_getlocalname.loop R f pc n (i + 1) (local_number - 1)
      else luaF_getlocalname.loop R f pc n (i + 1) local_number
    else .ok []

/-- The function `luaF_getlocalname`; the empty string means not found. -/
def luaF_getlocalname (R : Remote) (f : Proto) (local_number pc : Int) :
    Outcome (List Char) :=
  luaF_getlocalname.loop R f pc f.sizelocvars.toNat 0 local_number

/-- The function `filterpc`. -/
def filterpc (pc jmptarget : Int) : Int :=
  if pc < jmptarget then -1 else pc

/-- One iteration of the loop of `findsetreg`, on the instruction `i` at
`pc`: the new `(setreg, jmptarget)`. -/
def findsetreg.step (lastpc reg pc i setreg jmptarget : Int) : Outcome (Int × Int) :=
  let op := GET_OPCODE i
  let a := GETARG_A i
  if op = OP_LOADNIL then
    let b := GETARG_B i
    if a ≤ reg ∧ reg ≤ a + b then .ok (filterpc pc jmptarget, jmptarget)
    else .ok (setreg, jmptarget)
  else if op = OP_TFORCALL then
    if reg ≥ a + 2 then .ok (filterpc pc jmptarget, jmptarget)
    else .ok (setreg, jmptarget)
  else if op = OP_CALL ∨ op = OP_TAILCALL then
    if reg ≥ a then .ok (filterpc pc jmptarget, jmptarget)
    else .ok (setreg, jmptarget)
  else if op = OP_JMP then
    let b := GETARG_sBx i
    let dest := pc + 1 + b
    if pc < dest ∧ dest ≤ lastpc then
      if dest > jmptarget then .ok (setreg, dest)
      else .ok (setreg, jmptarget)
    else .ok (setreg, jmptarget)
  else do
    let am ← testAMode op
    if am ≠ 0 ∧ reg = a then pure (filterpc pc jmptarget, jmptarget)
    else pure (setreg, jmptarget)

/-- The loop of `findsetreg`; the first argument counts the values of `pc`
still below `lastpc`. -/
def findsetreg.loop (R : Remote) (p : Proto) (lastpc reg : Int) :
    Nat → Int → Int → Int → Outcome Int
  | 0, _, setreg, _ => .ok setreg
  | n + 1, pc, setreg, jmptarget => do
    let i ← readInstruction R p pc
    let (setreg, jmptarget) ← findsetreg.step lastpc reg pc i setreg jmptarget
    findsetreg.loop R p lastpc reg n (pc + 1) setreg jmptarget

/-- The function `findsetreg`. -/
def findsetreg (R : Remote) (p : Proto) (lastpc reg : Int) : Outcome Int :=
  findsetreg.loop R p lastpc reg lastpc.toNat 0 (-1) 0

/-- The function `upvalname`. -/
def upvalname (R : Remote) (p : Proto) (uv : Int) : Outcome (List Char) := do
  if uv ≥ p.sizeupvalues then Outcome.throw .BadStateException
  else
    let desc ← deref R.Upvaldesc_at (ptrAdd p.upvalues (sizeof_Upvaldesc * uv))
    if desc.name = 0 then pure ['?'] else getstr R desc.name

/-- The function `kname`, with the function to call for `getobjname`. The
result is the new `name`. -/
def knameWith (getobjname : Int → Int → Outcome (Option (List Char) × List Char))
    (R : Remote) (p : Proto) (pc c : Int) : Outcome (List Char) := do
  if ISK c then
    let kvalue ← deref R.TValue_at (ptrAdd p.k (sizeof_TValue * INDEXK c))
    if kvalue.IsString then getstr R kvalue.value_
    else pure ['?']
  else
    let (what, name) ← getobjname pc c
    match what with
    | some w => if w.head? = some 'c' then pure name else pure ['?']
    | none => pure ['?']

/-- The function `getobjname`: the string returned (`none` for a null
pointer) and the new `name`.  `fuel` bounds the depth of the recursion. -/
def getobjname (R : Remote) (p : Proto) :
    Nat → Int → Int → Outcome (Option (List Char) × List Char)
  | 0, _, _ => .outOfFuel
  | fuel + 1, lastpc, reg => do
    let name ← luaF_getlocalname R p (reg + 1) lastpc
    if name ≠ [] then pure (some ['l', 'o', 'c', 'a', 'l'], name)
    else
      let pc ← findsetreg R p lastpc reg
      if pc ≠ -1 then
        let i ← readInstruction R p pc
        let op := GET_OPCODE i
        if op = OP_MOVE then
          let b := GETARG_B i
          if b < GETARG_A i then getobjname R p fuel pc b
          else pure (none, name)
        else if op = OP_GETTABUP ∨ op = OP_GETTABLE then
          let k := GETARG_C i
          let t := GETARG_B i
          let vn ← if op = OP_GETTABLE then luaF_getlocalname R p (t + 1) pc
                   else upvalname R p t
          let name ← knameWith (getobjname R p fuel) R p pc k
          pure (some (if vn ≠ [] ∧ cstring (c_str vn) = ['_', 'E', 'N', 'V']
                      then ['g', 'l', 'o', 'b', 'a', 'l'] else ['f', 'i', 'e', 'l', 'd']), name)
        else if op = OP_GETUPVAL then
          let name ← upvalname R p (GETARG_B i)
          pure (some ['u', 'p', 'v', 'a', 'l', 'u', 'e'], name)
        else if op = OP_LOADK ∨ op = OP_LOADKX then
          let b ←
            if op = OP_LOADK then pure (GETARG_Bx i)
            else do
              let i2 ← readInstruction R p (pc + 1)
              pure (GETARG_Ax i2)
          let kvalue ← deref R.TValue_at (ptrAdd p.k (sizeof_TValue * b))
          if kvalue.IsString then
            let name ← getstr R kvalue.value_
            pure (some ['c', 'o', 'n', 's', 't', 'a', 'n', 't'], name)
          else pure (none, name)
        else if op = OP_SELF then
          let k := GETARG_C i
          let name ← knameWith (getobjname R p fuel) R p pc k
          pure (some ['m', 'e', 't', 'h', 'o', 'd'], name)
        else pure (none, name)
      else pure (none, name)

/-- The function `kname`. -/
def kname (R : Remote) (p : Proto) (fuel : Nat) (pc c : Int) : Outcome (List Char) :=
  knameWith (getobjname R p fuel) R p pc c

/-! ### Function names -/

/-- The function `funcnamefromcode`: the string returned (`none` for a null
pointer) and the new `name`.  The recursion of `getobjname` is given the
fuel `pc + 1`. -/
def funcnamefromcode (R : Remote) (L : lua_State) (ci : CallInfo) (name : List Char) :
    Outcome (Option (List Char) × List Char) := do
  let val ← deref R.TValue_at ci.func
  if ¬ val.IsFunction then Outcome.throw .BadStateException
  else
    let cl ← deref R.Closure_at val.value_
    let p ← deref R.Proto_at cl.p
    let pc := pcRel ci.savedpc p
    let i ← readInstruction R p pc
    if ci.IsHooked then pure (some ['h', 'o', 'o', 'k'], ['?'])
    else
      let op := GET_OPCODE i
      if op = OP_CALL ∨ op = OP_TAILCALL then
        getobjname R p (pc.toNat + 1) pc (GETARG_A i)
      else if op = OP_TFORCALL then
        pure (some "for iterator".toList, "for iterator".toList)
      else
        let tm : Option Int :=
          if op = OP_SELF ∨ op = OP_GETTABUP ∨ op = OP_GETTABLE then some TM_INDEX
          else if op = OP_SETTABUP ∨ op = OP_SETTABLE then some TM_NEWINDEX
          else if op = OP_ADD ∨ op = OP_SUB ∨ op = OP_MUL ∨ op = OP_MOD ∨
              op = OP_POW ∨ op = OP_DIV ∨ op = OP_IDIV ∨ op = OP_BAND ∨
              op = OP_BOR ∨ op = OP_BXOR ∨ op = OP_SHL ∨ op = OP_SHR then
            some (op - OP_ADD + TM_ADD)
          else if op = OP_UNM then some TM_UNM
          else if op = OP_BNOT then some TM_BNOT
          else if op = OP_LEN then some TM_LEN
          else if op = OP_CONCAT then some TM_CONCAT
          else if op = OP_EQ then some TM_EQ
          else if op = OP_LT then some TM_LT
          else if op = OP_LE then some TM_LE
          else none
        match tm with
        | none => pure (none, name)
        | some tm => do
          let G ← deref R.global_State_at L.l_G
          let name ← getstr R (G.tmname tm.toNat)
          pure (some "metamethod".toList, name)

/-- The places of the code where a `RemotePtr<CallInfo>` is dereferenced. -/
inductive DerefSite where
  | getfuncname
  | GetInfo
  | DumpStack
deriving DecidableEq, Repr

/-- The function `getfuncname`: the string returned and the new `name`, and
the `CallInfo` addresses read through the accessor, each with the place of
the dereference. -/
def getfuncname (R : Remote) (L : lua_State) (ci : Option CallInfo) (name : List Char) :
    Outcome (Option (List Char) × List Char) × List (DerefSite × Nat) :=
  match ci with
  | none => (.ok (none, name), [])
  | some ci =>
    if ci.IsFinalizer then (.ok (some "metamethod".toList, "__gc".toList), [])
    else
      match deref R.CallInfo_at ci.previous with
      | .ok previous =>
        if ¬ ci.IsTailCall ∧ previous.IsLua then
          (funcnamefromcode R L previous name, [(.getfuncname, ci.previous)])
        else (.ok (none, name), [(.getfuncname, ci.previous)])
      | .throw e => (.throw e, if ci.previous = 0 then [] else [(.getfuncname, ci.previous)])
      | .outOfFuel => (.outOfFuel, [])

/-- One option letter of `auxgetinfo`: the body of the `switch`. -/
def auxgetinfo.option (R : Remote) (L : lua_State) (c : Char) (ar : lua_Debug)
    (f : Option Closure) (ci : Option CallInfo) : Outcome lua_Debug × List (DerefSite × Nat) :=
  if c = 'S' then
    (do
      let ar ← funcinfo R ar f
      match f with
      | some cl => if cl.tt = LUA_TCCL then pure { ar with address := cl.p } else pure ar
      | none => pure ar, [])
  else if c = 'l' then
    (do
      let line ←
        match ci with
        | some ci => if ci.IsLua then currentline R ci else pure (-1)
        | none => pure (-1)
      pure { ar with currentline := line }, [])
  else if c = 'u' then
    (do
      let nups := match f with
        | none => 0
        | some cl => cl.nupvalues % 256
      if noLuaClosure f then pure { ar with nups := nups, isvararg := true, nparams := 0 }
      else
        match f with
        | none => Outcome.throw .UndefinedBehavior
        | some cl => do
          let proto ← deref R.Proto_at cl.p
          pure { ar with
            nups := nups, isvararg := decide (proto.is_vararg ≠ 0), nparams := proto.numparams },
      [])
  else if c = 't' then
    (.ok { ar with istailcall := match ci with
                                 | some ci => ci.IsTailCall
                                 | none => false }, [])
  else if c = 'n' then
    match getfuncname R L ci ar.name with
    | (.ok (some namewhat, name), log) =>
      (.ok { ar with namewhat := some namewhat, name := name }, log)
    | (.ok (none, _), log) => (.ok { ar with namewhat := some [], name := [] }, log)
    | (.throw e, log) => (.throw e, log)
    | (.outOfFuel, log) => (.outOfFuel, log)
  else (.throw .AssertionFailed, [])

/-- The function `auxgetinfo`: the loop over the option letters. -/
def auxgetinfo (R : Remote) (L : lua_State) :
    List Char → lua_Debug → Option Closure → Option CallInfo → Outcome lua_Debug × List (DerefSite × Nat)
  | [], ar, _, _ => (.ok ar, [])
  | c :: what, ar, f, ci =>
    match auxgetinfo.option R L c ar f ci with
    | (.ok ar1, log) =>
      ((auxgetinfo R L what ar1 f ci).1, log ++ (auxgetinfo R L what ar1 f ci).2)
    | (.throw e, log) => (.throw e, log)
    | (.outOfFuel, log) => (.outOfFuel, log)

/-- The part of `lua_State::GetInfo` after the function value has been read:
the closure is read and `auxgetinfo` is run. -/
def GetInfo.finish (R : Remote) (L : lua_State) (what : List Char) (ar : lua_Debug)
    (func : TValue) (callInfo : Option CallInfo) : Outcome lua_Debug × List (DerefSite × Nat) :=
  if func.IsClosure then
    match deref R.Closure_at func.value_ with
    | .ok cl => auxgetinfo R L what ar (some cl) callInfo
    | .throw e => (.throw e, [])
    | .outOfFuel => (.outOfFuel, [])
  else if func.IsLightCFunction then
    auxgetinfo R L what { ar with address := func.value_ } none callInfo
  else auxgetinfo R L what ar none callInfo

/-- The method `lua_State::GetInfo(what, ar)`, with the `CallInfo` addresses
read through the accessor. -/
def GetInfo (R : Remote) (L : lua_State) (what : List Char) (ar : lua_Debug) :
    Outcome lua_Debug × List (DerefSite × Nat) :=
  if what.head? = some '>' then
    match deref R.TValue_at (ptrAdd L.top (- sizeof_TValue)) with
    | .ok func =>
      if ¬ func.IsFunction then (.throw .BadStateException, [])
      else GetInfo.finish R L (what.drop 1) ar func none
    | .throw e => (.throw e, [])
    | .outOfFuel => (.outOfFuel, [])
  else
    match deref R.CallInfo_at ar.i_ci with
    | .ok callInfo =>
      match deref R.TValue_at callInfo.func with
      | .ok func =>
        if ¬ func.IsFunction then (.throw .BadStateException, [(.GetInfo, ar.i_ci)])
        else
          ((GetInfo.finish R L what ar func (some callInfo)).1,
            (.GetInfo, ar.i_ci) :: (GetInfo.finish R L what ar func (some callInfo)).2)
      | .throw e => (.throw e, [(.GetInfo, ar.i_ci)])
      | .outOfFuel => (.outOfFuel, [(.GetInfo, ar.i_ci)])
    | .throw e => (.throw e, if ar.i_ci = 0 then [] else [(.GetInfo, ar.i_ci)])
    | .outOfFuel => (.outOfFuel, [])

/-! ## Stack dump (`LuaSampler::DumpStack`) -/

/-- The enum `LuaFunctionType`. -/
inductive LuaFunctionType where
  | Unknown
  | Native
  | Lua
deriving DecidableEq, Repr

/-- The struct `LuaStackFrame` (`FrameType` is its field `Type`). -/
structure LuaStackFrame where
  FrameType : LuaFunctionType
  Address : Nat
  Source : List Char
  Name : List Char
  Line : Nat
deriving DecidableEq, Repr

/-- The frame `DumpStack` builds from the record `GetInfo` filled;
`GetFunctionName` is the symbol lookup of the controller. -/
def makeFrame (GetFunctionName : Nat → List Char) (debug : lua_Debug) : Outcome LuaStackFrame :=
  match debug.what with
  | none => .throw .UndefinedBehavior
  | some what =>
    let Source := cstring debug.short_src
    let Line := if debug.linedefined = -1 then 0 else toUInt32 debug.linedefined
    if cstring (c_str what) = ['C'] then
      .ok { FrameType := .Native, Address := debug.address, Source := Source, Line := Line,
            Name := if debug.address ≠ 0 then GetFunctionName debug.address else debug.name }
    else
      .ok { FrameType := .Lua, Address := debug.address, Source := Source, Line := Line,
            Name := debug.name }

/-- The address `address + offsetof(lua_State, base_ci)`. -/
def baseCallInfo (address : Nat) : Nat := ptrAdd address offsetof_base_ci

/-- The `while` loop of `DumpStack`: `ret` with the frames pushed, and the
`CallInfo` addresses read through the accessor.  `fuel` bounds the number of
iterations. -/
def DumpStack.loop (R : Remote) (GetFunctionName : Nat → List Char) (address : Nat)
    (luaState : lua_State) :
    Nat → Nat → List LuaStackFrame →
      Outcome (List LuaStackFrame) × List (DerefSite × Nat)
  | 0, callInfoPtr, ret =>
    if callInfoPtr ≠ 0 ∧ callInfoPtr ≠ baseCallInfo address then (.outOfFuel, [])
    else (.ok ret, [])
  | fuel + 1, callInfoPtr, ret =>
    if callInfoPtr ≠ 0 ∧ callInfoPtr ≠ baseCallInfo address then
      match GetInfo R luaState ['n', 'S', 'l', 't'] { lua_Debug.zero with i_ci := callInfoPtr } with
      | (.ok debug, log) =>
        match makeFrame GetFunctionName debug with
        | .ok frame =>
          match deref R.CallInfo_at callInfoPtr with
          | .ok callInfo =>
            ((DumpStack.loop R GetFunctionName address luaState fuel callInfo.previous
                (ret ++ [frame])).1,
              log ++ (.DumpStack, callInfoPtr) ::
                (DumpStack.loop R GetFunctionName address luaState fuel callInfo.previous
                  (ret ++ [frame])).2)
          | .throw e => (.throw e, log ++ [(.DumpStack, callInfoPtr)])
          | .outOfFuel => (.outOfFuel, log)
        | .throw e => (.throw e, log)
        | .outOfFuel => (.outOfFuel, log)
      | (.throw e, log) => (.throw e, log)
      | (.outOfFuel, log) => (.outOfFuel, log)
    else (.ok ret, [])

/-- The method `LuaSampler::DumpStack(address)` on the memory of the paused
target: the frames, and the `CallInfo` addresses read through the accessor. -/
def DumpStack (R : Remote) (GetFunctionName : Nat → List Char) (address : Nat) (fuel : Nat) :
    Outcome (List LuaStackFrame) × List (DerefSite × Nat) :=
  match deref R.lua_State_at address with
  | .ok luaState => DumpStack.loop R GetFunctionName address luaState fuel luaState.ci []
  | .throw e => (.throw e, [])
  | .outOfFuel => (.outOfFuel, [])

/-! ## Lua state locator (`LuaSampler::FetchLuaState`) -/

def SIGINT : Int := 2
def SIGTRAP : Int := 5

/-- Whether a `catch (const ExceptionBase&)` handler catches the outcome:
the exceptions of the program do, a failed assertion and undefined behaviour
do not. -/
def Exn.isExceptionBase : Exn → Bool
  | .AssertionFailed => false
  | .UndefinedBehavior => false
  | .Terminate => false
  | _ => true

/-- The methods of `Debugger` that `FetchLuaState` and `LuaStateFetcher`
call, on a controller state `σ`.  A `Breakpoint*` is a number, `none` being
the null pointer; `Enable` is the call `p->Enable()`.  A method given a
pointer to a destroyed breakpoint has undefined behaviour. -/
structure DebuggerApi (σ : Type) where
  GetStatus : σ → ProcessStatus
  GetLastSignal : σ → Int
  GetAddressOffset : σ → Nat
  Interrupt : σ → Outcome Unit × σ
  Continue : σ → Outcome Unit × σ
  Wait : σ → Outcome Bool × σ
  GetRegister : σ → Registers → Outcome Nat × σ
  GetBreakpoint : σ → Nat → Option Nat
  CreateBreakpoint : σ → Nat → Outcome Nat × σ
  CreateBreakpointByName : σ → List Char → Bool → Outcome Nat × σ
  Enable : σ → Nat → Outcome Unit × σ
  RemoveBreakpoint : σ → Nat → Outcome Unit × σ

/-- The method `Debugger::ContinueSafe`: `Continue` with its exception
swallowed. -/
def DebuggerApi.ContinueSafe {σ : Type} (api : DebuggerApi σ) (s : σ) : σ :=
  (api.Continue s).2

/-- The method `Debugger::IsHitBreakpoint`: `GetBreakpoint(GetPC() - 1)`. -/
def DebuggerApi.IsHitBreakpoint {σ : Type} (api : DebuggerApi σ) (s : σ) :
    Outcome (Option Nat) × σ :=
  match api.GetRegister s Registers.RIP with
  | (.ok pc, s1) => (.ok (api.GetBreakpoint s1 ((pc + WORD_MOD - 1) % WORD_MOD)), s1)
  | (.throw e, s1) => (.throw e, s1)
  | (.outOfFuel, s1) => (.outOfFuel, s1)

/-- The common part of the two `LuaStateFetcher::Hook` overloads, after the
breakpoint has been looked up or created: `m_stBreakpoints` and the
controller afterwards, and the value returned. -/
def LuaStateFetcher.hookCreated {σ : Type} (api : DebuggerApi σ) (m_stBreakpoints : List Nat)
    (created : Outcome Nat × σ) : Outcome Bool × List Nat × σ :=
  match created with
  | (.ok p, s1) =>
    match api.Enable s1 p with
    | (.ok (), s2) => (.ok true, m_stBreakpoints ++ [p], s2)
    | (.throw e, s2) =>
      if e.isExceptionBase then
        match api.RemoveBreakpoint s2 p with
        | (.ok (), s3) => (.ok false, m_stBreakpoints, s3)
        | (.throw e3, s3) => (.throw e3, m_stBreakpoints, s3)
        | (.outOfFuel, s3) => (.outOfFuel, m_stBreakpoints, s3)
      else (.throw e, m_stBreakpoints, s2)
    | (.outOfFuel, s2) => (.outOfFuel, m_stBreakpoints, s2)
  | (.throw e, s1) =>
    if e.isExceptionBase then (.ok false, m_stBreakpoints, s1)
    else (.throw e, m_stBreakpoints, s1)
  | (.outOfFuel, s1) => (.outOfFuel, m_stBreakpoints, s1)

/-- The method `LuaStateFetcher::Hook(uintptr_t func)`. -/
def LuaStateFetcher.Hook {σ : Type} (api : DebuggerApi σ) (m_stBreakpoints : List Nat)
    (s : σ) (func : Nat) : Outcome Bool × List Nat × σ :=
  LuaStateFetcher.hookCreated api m_stBreakpoints
    (api.CreateBreakpoint s ((func + api.GetAddressOffset s) % WORD_MOD))

/-- The method `LuaStateFetcher::Hook(const char* func)`. -/
def LuaStateFetcher.HookByName {σ : Type} (api : DebuggerApi σ) (m_stBreakpoints : List Nat)
    (s : σ) (func : List Char) : Outcome Bool × List Nat × σ :=
  LuaStateFetcher.hookCreated api m_stBreakpoints (api.CreateBreakpointByName s func false)

/-- The loop `for (auto i : customEntryPoints) fetcher.Hook(i)`. -/
def FetchLuaState.hookEntries {σ : Type} (api : DebuggerApi σ) :
    List Nat → List Nat → σ → Outcome Unit × List Nat × σ
  | [], hooks, s => (.ok (), hooks, s)
  | i :: rest, hooks, s =>
    match LuaStateFetcher.Hook api hooks s i with
    | (.ok _, hooks1, s1) => FetchLuaState.hookEntries api rest hooks1 s1
    | (.throw e, hooks1, s1) => (.throw e, hooks1, s1)
    | (.outOfFuel, hooks1, s1) => (.outOfFuel, hooks1, s1)

/-- The first block of `FetchLuaState`: under a `ProcessPauseScope`, hook
`lua_callk`, `lua_pcallk` and the custom entry points.  The result holds the
hooks installed. -/
def FetchLuaState.hookAll {σ : Type} (api : DebuggerApi σ) (customEntryPoints : List Nat)
    (s : σ) : Outcome Unit × List Nat × σ :=
  let entered : Outcome Unit × σ :=
    if api.GetStatus s = ProcessStatus.Running then api.Interrupt s else (.ok (), s)
  match entered with
  | (.ok (), s1) =>
    let leave (r : Outcome Unit × List Nat × σ) : Outcome Unit × List Nat × σ :=
      (r.1, r.2.1,
        if api.GetStatus r.2.2 = ProcessStatus.Paused then api.ContinueSafe r.2.2 else r.2.2)
    match LuaStateFetcher.HookByName api [] s1 "lua_callk".toList with
    | (.ok _, hooks1, s2) =>
      match LuaStateFetcher.HookByName api hooks1 s2 "lua_pcallk".toList with
      | (.ok _, hooks2, s3) => leave (FetchLuaState.hookEntries api customEntryPoints hooks2 s3)
      | (.throw e, hooks2, s3) => leave (.throw e, hooks2, s3)
      | (.outOfFuel, hooks2, s3) => leave (.outOfFuel, hooks2, s3)
    | (.throw e, hooks1, s2) => leave (.throw e, hooks1, s2)
    | (.outOfFuel, hooks1, s2) => leave (.outOfFuel, hooks1, s2)
  | (.throw e, s1) => (.throw e, [], s1)
  | (.outOfFuel, s1) => (.outOfFuel, [], s1)

/-- The loop `while (m_pDebugger.Wait())` of `FetchLuaState` and the `throw`
after it; `hooks` is `fetcher.m_stBreakpoints`, `fuel` bounds the number of
iterations. -/
def FetchLuaState.loop {σ : Type} (api : DebuggerApi σ) (hooks : List Nat) :
    Nat → σ → Outcome Nat × σ
  | 0, s => (.outOfFuel, s)
  | fuel + 1, s =>
    match api.Wait s with
    | (.ok true, s1) =>
      if api.GetLastSignal s1 = SIGINT then (.throw .OperationCancelledException, s1)
      else if api.GetLastSignal s1 = SIGTRAP then
        match api.IsHitBreakpoint s1 with
        | (.ok p, s2) =>
          let hit : Bool := match p with
            | some b => decide (b ∈ hooks)
            | none => false
          if hit then
            match api.GetRegister s2 Registers.RDI with
            | (.ok L, s3) =>
              match api.Continue s3 with
              | (.ok (), s4) => (.ok L, s4)
              | (.throw e, s4) => (.throw e, s4)
              | (.outOfFuel, s4) => (.outOfFuel, s4)
            | (.throw e, s3) => (.throw e, s3)
            | (.outOfFuel, s3) => (.outOfFuel, s3)
          else
            match api.Continue s2 with
            | (.ok (), s3) => FetchLuaState.loop api hooks fuel s3
            | (.throw e, s3) => (.throw e, s3)
            | (.outOfFuel, s3) => (.outOfFuel, s3)
        | (.throw e, s2) => (.throw e, s2)
        | (.outOfFuel, s2) => (.outOfFuel, s2)
      else (.throw .OperationNotSupportException, s1)
    | (.ok false, s1) => (.throw .InvalidCallException, s1)
    | (.throw e, s1) => (.throw e, s1)
    | (.outOfFuel, s1) => (.outOfFuel, s1)

/-- The body of `FetchLuaState` up to its `return` or `throw`: the outcome,
`fetcher.m_stBreakpoints` and the controller at that point. -/
def FetchLuaState.body {σ : Type} (api : DebuggerApi σ) (customEntryPoints : List Nat)
    (fuel : Nat) (s : σ) : Outcome Nat × List Nat × σ :=
  if api.GetStatus s ≠ ProcessStatus.Running then (.throw .AssertionFailed, [], s)
  else
    match FetchLuaState.hookAll api customEntryPoints s with
    | (.ok (), hooks, s1) =>
      if hooks.length = 0 then (.throw .OperationNotSupportException, hooks, s1)
      else ((FetchLuaState.loop api hooks fuel s1).1, hooks, (FetchLuaState.loop api hooks fuel s1).2)
    | (.throw e, hooks, s1) => (.throw e, hooks, s1)
    | (.outOfFuel, hooks, s1) => (.outOfFuel, hooks, s1)

/-- The loop `for (auto p : m_stBreakpoints) m_pDebugger.RemoveBreakpoint(p)`
of the destructor of the fetcher. -/
def LuaStateFetcher.removeAll {σ : Type} (api : DebuggerApi σ) :
    List Nat → σ → Outcome Unit × σ
  | [], s => (.ok (), s)
  | p :: rest, s =>
    match api.RemoveBreakpoint s p with
    | (.ok (), s1) => LuaStateFetcher.removeAll api rest s1
    | (.throw e, s1) => (.throw e, s1)
    | (.outOfFuel, s1) => (.outOfFuel, s1)

/-- The destructor `LuaStateFetcher::~LuaStateFetcher`: under a
`ProcessPauseScope`, whose constructor is outside the `try`, remove every
hook from the controller; the handlers of the `try` swallow the exceptions
of the program. -/
def LuaStateFetcher.destroy {σ : Type} (api : DebuggerApi σ) (m_stBreakpoints : List Nat)
    (s : σ) : Outcome Unit × σ :=
  let entered : Outcome Unit × σ :=
    if api.GetStatus s = ProcessStatus.Running then api.Interrupt s else (.ok (), s)
  match entered with
  | (.ok (), s1) =>
    let leave (t : σ) : σ :=
      if api.GetStatus t = ProcessStatus.Paused then api.ContinueSafe t else t
    match LuaStateFetcher.removeAll api m_stBreakpoints s1 with
    | (.ok (), s2) => (.ok (), leave s2)
    | (.throw e, s2) =>
      if e.isExceptionBase then (.ok (), leave s2) else (.throw e, s2)
    | (.outOfFuel, s2) => (.outOfFuel, s2)
  | (.throw e, s1) => (.throw e, s1)
  | (.outOfFuel, s1) => (.outOfFuel, s1)

/-- The method `LuaSampler::FetchLuaState`: its body, then the destructor of
`fetcher`; an exception leaving the destructor ends the program
(`std::terminate`).  A failed assertion ends the program at once, and after
undefined behaviour nothing more is said. -/
def FetchLuaState {σ : Type} (api : DebuggerApi σ) (customEntryPoints : List Nat)
    (fuel : Nat) (s : σ) : Outcome Nat × σ :=
  match FetchLuaState.body api customEntryPoints fuel s with
  | (.throw .AssertionFailed, _, s1) => (.throw .AssertionFailed, s1)
  | (.throw .UndefinedBehavior, _, s1) => (.throw .UndefinedBehavior, s1)
  | (r, hooks, s1) =>
    match LuaStateFetcher.destroy api hooks s1 with
    | (.ok (), s2) => (r, s2)
    | (.throw .UndefinedBehavior, s2) => (.throw .UndefinedBehavior, s2)
    | (.throw _, s2) => (.throw .Terminate, s2)
    | (.outOfFuel, s2) => (.outOfFuel, s2)

/-! ## Predicates on request logs and memory windows -/

/-- Every memory request of the log uses a word-aligned address. -/
def AlignedTrace (tr : List PtraceReq) : Prop :=
  ∀ r ∈ tr, ∀ a, r.memAddress = some a → a % WORD_SIZE = 0

/-- The log `after` extends `before`, and every request added is a memory
request whose address satisfies `P`. -/
def IssuesOnly (P : Nat → Prop) (before after : List PtraceReq) : Prop :=
  ∃ added, after = before ++ added ∧ ∀ r ∈ added, ∃ a, r.memAddress = some a ∧ P a

/-- The `n` bytes of target memory from `address` on. -/
def Target.bytes (t : Target) (address n : Nat) : List Byte :=
  (List.range n).map (fun i => t.mem (address + i))

/-! ## Example states -/

/-- A register bank with distinct values. -/
def exampleRegs : user_regs_struct :=
  { r15 := 15, r14 := 14, r13 := 13, r12 := 12, rbp := 5, rbx := 3, r11 := 11, r10 := 10,
    r9 := 9, r8 := 8, rax := 1, rcx := 2, rdx := 4, rsi := 6, rdi := 7, orig_rax := 60,
    rip := 4198400, cs := 51, eflags := 582, rsp := 140737488347136, ss := 43,
    fs_base := 139637976727552, gs_base := 0, ds := 0, es := 0, fs := 0, gs := 0 }

/-- A target with one mapped page; address 16 holds `0x55` (`push %rbp`),
addresses 32.. hold the C string `"abc"`, every other byte is `0x90`. -/
def exampleTarget : Target :=
  { mem := fun a =>
      if a = 16 then 0x55
      else if a = 32 then 0x61
      else if a = 33 then 0x62
      else if a = 34 then 0x63
      else if a = 35 then 0
      else 0x90
    mapped := fun a => decide (a < 4096)
    regs := exampleRegs }

/-- A controller attached to `exampleTarget`, target paused. -/
def examplePaused : Debugger :=
  { m_uStatus := ProcessStatus.Paused, target := exampleTarget, trace := [] }

/-- A controller attached to `exampleTarget`, target running. -/
def exampleRunning : Debugger :=
  { m_uStatus := ProcessStatus.Running, target := exampleTarget, trace := [] }

/-- A breakpoint at address 16 of `exampleTarget`, installed. -/
def exampleEnabled : Breakpoint × Debugger :=
  ({ m_uAddress := 16, m_bEnabled := true, m_uOriginalByte := 0x55 },
   { m_uStatus := ProcessStatus.Paused
     target := { exampleTarget with mem := Function.update exampleTarget.mem 16 0xCC }
     trace := [] })

/-- A memory accessor over `examplePaused` with an empty buffer. -/
def exampleAccessor : MemoryAccessor :=
  { m_pDebugger := examplePaused, m_stBuffer := [], rawReads := [] }

/-- A file path of 79 characters. -/
def exampleLongPath : List Char :=
  "/tmp/very/long/path/to/my/game/server/lua/scripts/modules/battle/skill/file.lua".toList

/-- The source of a chunk loaded from the file `exampleLongPath`, 80 characters. -/
def exampleLongFile : List Char := '@' :: exampleLongPath

/-- The source of a chunk loaded from a one-line string of 51 characters. -/
def exampleChunk : List Char :=
  "local p = require(\"profiler\"); p.start(10); p.run()".toList

/-- The content of `short_src` in a value-initialised `lua_Debug`. -/
def exampleShortSrc : List Char := List.replicate LUA_IDSIZE NUL

/-! ## Example Lua state -/

/-- The prototype of the main chunk of `fixture.lua` in `exampleRemote`. -/
def exampleProto : Proto :=
  { numparams := 0, is_vararg := 1, sizeupvalues := 1, sizelocvars := 0,
    linedefined := 0, lastlinedefined := 0, k := 0x9000, code := 0x8000,
    lineinfo := 0xC000, locvars := 0, upvalues := 0xA000, source := 0xD000 }

/-- The `lua_State` of `exampleRemote`. -/
def exampleLuaState : lua_State := { top := 0x5030, l_G := 0x3000, ci := 0x2000 }

/-- The frame of the main chunk of `fixture.lua` while it calls `print`. -/
def exampleMainFrame : CallInfo :=
  { func := 0x5000, previous := 0x1060, savedpc := 0x800C, callstatus := CIST_LUA }

/-- The frame of `print`, a light C function called from the main chunk. -/
def examplePrintFrame : CallInfo :=
  { func := 0x5010, previous := 0x2100, savedpc := 0, callstatus := 0 }

/-- The frame of the main chunk of `fixture.lua` while it runs its `ADD`. -/
def exampleAddFrame : CallInfo :=
  { func := 0x5000, previous := 0x1060, savedpc := 0x8010, callstatus := CIST_LUA }

/-- The memory of a target stopped inside `print("hi")`, called from the main
chunk of `fixture.lua`: a `lua_State` at `0x1000` (its `base_ci` at `0x1060`),
the frame of `print` at `0x2000`, the frame of the main chunk at `0x2100`,
whose code is `GETTABUP 0 0 K0; LOADK 1 K1; CALL 0 2 1; ADD 1 2 3;
RETURN 0 1`, the first three on line 1 and the others on line 2, with
constants `"print"`, `"hi"` and the upvalue `_ENV`. -/
def exampleRemote : Remote :=
  { lua_State_at := fun a => if a = 0x1000 then some exampleLuaState else none
    CallInfo_at := fun a =>
      if a = 0x2000 then some examplePrintFrame
      else if a = 0x2100 then some exampleMainFrame
      else if a = 0x1060 then
        some { func := 0x4FF0, previous := 0, savedpc := 0, callstatus := 0 }
      else none
    TValue_at := fun a =>
      if a = 0x4FF0 then some { value_ := 0, tt_ := 0 }
      else if a = 0x5000 then some { value_ := 0x6000, tt_ := 70 }
      else if a = 0x5010 then some { value_ := 0x401230, tt_ := 22 }
      else if a = 0x9000 then some { value_ := 0xE000, tt_ := 68 }
      else if a = 0x9010 then some { value_ := 0xE100, tt_ := 68 }
      else none
    Closure_at := fun a =>
      if a = 0x6000 then some { tt := LUA_TLCL, nupvalues := 1, p := 0x7000 } else none
    Proto_at := fun a => if a = 0x7000 then some exampleProto else none
    Instruction_at := fun a =>
      if a = 0x8000 then some 4194310
      else if a = 0x8004 then some 16449
      else if a = 0x8008 then some 16793636
      else if a = 0x800C then some 16826445
      else if a = 0x8010 then some 8388646
      else none
    int_at := fun a =>
      if a = 0xC000 then some 1
      else if a = 0xC004 then some 1
      else if a = 0xC008 then some 1
      else if a = 0xC00C then some 2
      else if a = 0xC010 then some 2
      else none
    LocVar_at := fun _ => none
    Upvaldesc_at := fun a => if a = 0xA000 then some { name := 0xF000 } else none
    global_State_at := fun a =>
      if a = 0x3000 then some { tmname := fun i => 0x10000 + 32 * i } else none
    ReadString := fun a _ =>
      if a = 0xD018 then .ok "@fixture.lua".toList
      else if a = 0xE018 then .ok "print".toList
      else if a = 0xE118 then .ok "hi".toList
      else if a = 0xF018 then .ok "_ENV".toList
      else if a = 0x100D8 then .ok "__add".toList
      else .throw .ApiException }

/-- The symbol lookup used in the examples. -/
def exampleSymbols (address : Nat) : List Char :=
  if address = 0x401230 then "luaB_print".toList else []

/-- A memory whose only frame holds a function value with a null closure
pointer: the `lua_State` is at `0x1000`, its `ci` at `0x2000` is followed by
`base_ci`. -/
def exampleNullClosure : Remote :=
  { exampleRemote with
    CallInfo_at := fun a =>
      if a = 0x2000 then
        some { func := 0x5000, previous := 0x1060, savedpc := 0, callstatus := 0 }
      else none
    TValue_at := fun a => if a = 0x5000 then some { value_ := 0, tt_ := 70 } else none }

/-! ## Predicates on the chain of frames -/

/-- The chain `ci, ci.previous, ...` read in `R` from `callInfoPtr` passes
through the addresses `chain`, each readable and none of them null or `base`,
and then arrives at `base`. -/
def WalkReaches (R : Remote) (base : Nat) : Nat → List Nat → Prop
  | callInfoPtr, [] => callInfoPtr = base
  | callInfoPtr, c :: chain =>
    callInfoPtr = c ∧ c ≠ 0 ∧ c ≠ base ∧
      ∃ callInfo, R.CallInfo_at c = some callInfo ∧ WalkReaches R base callInfo.previous chain

def lua53_opmodes : List (Nat × Nat × Nat × Nat × Nat) :=
  [ (0, 1, OpArgR, OpArgN, iABC), (0, 1, OpArgK, OpArgN, iABx), (0, 1, OpArgN, OpArgN, iABx),
    (0, 1, OpArgU, OpArgU, iABC), (0, 1, OpArgU, OpArgN, iABC), (0, 1, OpArgU, OpArgN, iABC),
    (0, 1, OpArgU, OpArgK, iABC), (0, 1, OpArgR, OpArgK, iABC), (0, 0, OpArgK, OpArgK, iABC),
    (0, 0, OpArgU, OpArgN, iABC), (0, 0, OpArgK, OpArgK, iABC), (0, 1, OpArgU, OpArgU, iABC),
    (0, 1, OpArgR, OpArgK, iABC), (0, 1, OpArgK, OpArgK, iABC), (0, 1, OpArgK, OpArgK, iABC),
    (0, 1, OpArgK, OpArgK, iABC), (0, 1, OpArgK, OpArgK, iABC), (0, 1, OpArgK, OpArgK, iABC),
    (0, 1, OpArgK, OpArgK, iABC), (0, 1, OpArgK, OpArgK, iABC), (0, 1, OpArgK, OpArgK, iABC),
    (0, 1, OpArgK, OpArgK, iABC), (0, 1, OpArgK, OpArgK, iABC), (0, 1, OpArgK, OpArgK, iABC),
    (0, 1, OpArgK, OpArgK, iABC), (0, 1, OpArgR, OpArgN, iABC), (0, 1, OpArgR, OpArgN, iABC),
    (0, 1, OpArgR, OpArgN, iABC), (0, 1, OpArgR, OpArgN, iABC), (0, 1, OpArgR, OpArgR, iABC),
    (0, 0, OpArgR, OpArgN, iAsBx), (1, 0, OpArgK, OpArgK, iABC), (1, 0, OpArgK, OpArgK, iABC),
    (1, 0, OpArgK, OpArgK, iABC), (1, 0, OpArgN, OpArgU, iABC), (1, 1, OpArgR, OpArgU, iABC),
    (0, 1, OpArgU, OpArgU, iABC), (0, 1, OpArgU, OpArgU, iABC), (0, 0, OpArgU, OpArgN, iABC),
    (0, 1, OpArgR, OpArgN, iAsBx), (0, 1, OpArgR, OpArgN, iAsBx), (0, 0, OpArgN, OpArgU, iABC),
    (0, 1, OpArgR, OpArgN, iAsBx), (0, 0, OpArgU, OpArgU, iABC), (0, 1, OpArgU, OpArgN, iABx),
    (0, 1, OpArgU, OpArgN, iABC), (0, 0, OpArgU, OpArgU, iAx) ]

/-! ## Predicates on instructions -/

/-- The instruction `i` sets register `reg`, in the sense of `findsetreg`:
`OP_LOADNIL` with `A ≤ reg ≤ A + B`, `OP_TFORCALL` with `reg ≥ A + 2`,
`OP_CALL` or `OP_TAILCALL` with `reg ≥ A`, or an opcode other than these and
`OP_JMP` whose mode byte has the A bit set, with `A = reg`. -/
def writesReg (i reg : Int) : Bool :=
  (GET_OPCODE i = OP_LOADNIL ∧ GETARG_A i ≤ reg ∧ reg ≤ GETARG_A i + GETARG_B i) ∨
  (GET_OPCODE i = OP_TFORCALL ∧ reg ≥ GETARG_A i + 2) ∨
  ((GET_OPCODE i = OP_CALL ∨ GET_OPCODE i = OP_TAILCALL) ∧ reg ≥ GETARG_A i) ∨
  (GET_OPCODE i ≠ OP_LOADNIL ∧ GET_OPCODE i ≠ OP_TFORCALL ∧ GET_OPCODE i ≠ OP_CALL ∧
    GET_OPCODE i ≠ OP_TAILCALL ∧ GET_OPCODE i ≠ OP_JMP ∧
    testAMode (GET_OPCODE i) = .ok 64 ∧ reg = GETARG_A i)

/-- The instructions `code[pc]` for `from ≤ pc < to` are read from the code
of `p` as the values `code pc`. -/
def CodeRead (R : Remote) (p : Proto) (code : Int → Int) (lo hi : Int) : Prop :=
  ∀ pc, lo ≤ pc → pc < hi → readInstruction R p pc = .ok (code pc)

/-! ## Example bytecode -/

/-- The memory `exampleRemote` with the code `LOADK 0 K0; JMP +1; LOADK 0 K1`
at `0x8000`: the jump at pc 1 goes to pc 3, so the write to register 0 at
pc 2 is conditional. -/
def exampleJumpRemote : Remote :=
  { exampleRemote with
    Instruction_at := fun a =>
      if a = 0x8000 then some 1
      else if a = 0x8004 then some 2147483678
      else if a = 0x8008 then some 16385
      else none }

/-- The memory `exampleJumpRemote` with `LOADK 1 K1` at pc 2 instead: the
instruction there does not write register 0. -/
def exampleJumpOtherRemote : Remote :=
  { exampleRemote with
    Instruction_at := fun a =>
      if a = 0x8000 then some 1
      else if a = 0x8004 then some 2147483678
      else if a = 0x8008 then some 16449
      else none }

/-- The memory `exampleRemote` with the word 47 at `0x8000`: its opcode
field is 47, one more than `OP_EXTRAARG`. -/
def exampleBadOpcode : Remote :=
  { exampleRemote with
    Instruction_at := fun a => if a = 0x8000 then some 47 else none }

/-- The first two instructions of the code of `exampleProto` in
`exampleRemote`, `GETTABUP 0 0 K0` and `LOADK 1 K1`, by index. -/
def exampleCode (pc : Int) : Int :=
  if pc = 0 then toInt32 4194310 else toInt32 16449

/-! ## Predicates on local variables -/

/-- The local variables of a function that are active at `pc`, in the order
of the registers they occupy: of the entries of `locvars` that come before
the first one starting after `pc`, those that have not ended at `pc`. -/
def activeLocals (locvars : List LocVar) (pc : Int) : List LocVar :=
  (locvars.takeWhile (fun l => decide (l.startpc ≤ pc))).filter (fun l => decide (pc < l.endpc))

/-- The name stored for a local variable, the empty string when there is no
variable. -/
def localName (R : Remote) : Option LocVar → Outcome (List Char)
  | some l => getstr R l.varname
  | none => .ok []

/-- The prototype of a function whose only local variable lives in register
0 from `pc = 1` on. -/
def exampleLocalProto : Proto :=
  { exampleProto with sizelocvars := 1, locvars := 0xB000, code := 0x8100 }

/-- The only local variable of `exampleLocalProto`. -/
def exampleLocVar : LocVar := { varname := 0xB100, startpc := 1, endpc := 4 }

/-- The memory `exampleRemote` with the code of `exampleLocalProto`,
`NEWTABLE 0 0 0; GETTABLE 1 0 K0; LOADK 2 K1; CALL 1 2 1`, that is
`local v = ...; v.print("hi")`, where `name` is the name of the local
variable `v`. -/
def exampleLocal (name : List Char) : Remote :=
  { exampleRemote with
    Instruction_at := fun a =>
      if a = 0x8100 then some 11
      else if a = 0x8104 then some 4194375
      else if a = 0x8108 then some 16513
      else if a = 0x810C then some 16793700
      else none
    LocVar_at := fun a => if a = 0xB000 then some exampleLocVar else none
    ReadString := fun a n =>
      if a = 0xB118 then .ok name else exampleRemote.ReadString a n }

/-- The code of `exampleLocalProto`, by index. -/
def exampleLocalCode (pc : Int) : Int :=
  if pc = 0 then toInt32 11
  else if pc = 1 then toInt32 4194375
  else toInt32 16513

/-- In code without `OP_JMP` below `lastpc`, read as `code` and with defined
opcodes, the instruction at `pc` is the last one below `lastpc` that sets
`reg`. -/
def LastSetter (R : Remote) (p : Proto) (lastpc reg pc : Int) : Prop :=
  ∃ code : Int → Int, CodeRead R p code 0 lastpc ∧
    (∀ q, 0 ≤ q → q < lastpc → GET_OPCODE (code q) ≤ 46 ∧ GET_OPCODE (code q) ≠ OP_JMP) ∧
    0 ≤ pc ∧ pc < lastpc ∧ writesReg (code pc) reg = true ∧
    ∀ q, pc < q → q < lastpc → writesReg (code q) reg = false

/-! ## Predicates on the frames and their functions -/

/-- The chain `ci, ci.previous, ...` read in `R` from `callInfoPtr` passes
through the addresses `chain`, each readable and none of them null or `base`,
and then arrives at a null pointer or at `base`: the `CallInfo` objects the
loop of `DumpStack` visits, in order. -/
def WalkVisits (R : Remote) (base : Nat) : Nat → List Nat → Prop
  | callInfoPtr, [] => callInfoPtr = 0 ∨ callInfoPtr = base
  | callInfoPtr, c :: chain =>
    callInfoPtr = c ∧ c ≠ 0 ∧ c ≠ base ∧
      ∃ callInfo, R.CallInfo_at c = some callInfo ∧ WalkVisits R base callInfo.previous chain

/-- The definition line of the function that runs in the `CallInfo` at `c`:
`-1` when the value in `func` is no closure or a C closure, otherwise the
field `linedefined` of the prototype of the closure. -/
def LineDefined (R : Remote) (c : Nat) (ld : Int) : Prop :=
  ∃ (callInfo : CallInfo) (func : TValue),
    deref R.CallInfo_at c = .ok callInfo ∧ deref R.TValue_at callInfo.func = .ok func ∧
    ((func.IsClosure = false ∧ ld = -1) ∨
     (∃ cl, func.IsClosure = true ∧ deref R.Closure_at func.value_ = .ok cl ∧
        ((cl.tt = LUA_TCCL ∧ ld = -1) ∨
         (∃ proto, cl.tt ≠ LUA_TCCL ∧ deref R.Proto_at cl.p = .ok proto ∧
            ld = proto.linedefined))))

/-- Two memories hold the same stack of function calls for the `lua_State`
at `address`: the same `ci`, and in every `CallInfo` the same `func` and
`previous`, the same values in the function slots, the same closures and the
same `linedefined` in every prototype.  The fields `savedpc` and `callstatus`,
the other values, the code and the line tables may differ. -/
structure SameFunctions (R R1 : Remote) (address : Nat) : Prop where
  ci : (R.lua_State_at address).map lua_State.ci = (R1.lua_State_at address).map lua_State.ci
  callInfo : ∀ a, (R.CallInfo_at a).map (fun c => (c.func, c.previous)) =
    (R1.CallInfo_at a).map (fun c => (c.func, c.previous))
  func : ∀ a c, R.CallInfo_at a = some c → R.TValue_at c.func = R1.TValue_at c.func
  closure : ∀ a, R.Closure_at a = R1.Closure_at a
  proto : ∀ a, (R.Proto_at a).map Proto.linedefined = (R1.Proto_at a).map Proto.linedefined

/-- The memory `exampleRemote` with `fixture.lua` turned into a function
defined on the lines 3 to 5, sampled while `savedpc` of its frame has the
given value. -/
def exampleSample (savedpc : Nat) : Remote :=
  { exampleRemote with
    CallInfo_at := fun a =>
      if a = 0x2100 then some { exampleMainFrame with savedpc := savedpc }
      else exampleRemote.CallInfo_at a
    Proto_at := fun a =>
      if a = 0x7000 then some { exampleProto with linedefined := 3, lastlinedefined := 5 }
      else none }

/-- The frames of `exampleSample`: the C function on top and the Lua function
that called it. -/
def exampleSampleFrames : List LuaStackFrame :=
  [ ⟨.Native, 0x401230, "[C]".toList, "luaB_print".toList, 0⟩,
    ⟨.Lua, 0, "fixture.lua".toList, [], 3⟩ ]

/-- The frames of `exampleSample` when the controller finds no symbol for
the C function. -/
def exampleSampleUnnamed : List LuaStackFrame :=
  [ ⟨.Native, 0x401230, "[C]".toList, [], 0⟩,
    ⟨.Lua, 0, "fixture.lua".toList, [], 3⟩ ]

/-- The value of an outcome, if it is one. -/
def Outcome.value? {α : Type} : Outcome α → Option α
  | .ok v => some v
  | _ => none

/-! ## Process controller: waiting, resuming and the breakpoint map -/

def SIGCHLD : Int := 17

/-- What one call of `waitpid` on the target returns: `-1` with `errno` equal
to `EINTR`, `-1` with another `errno`, a status with `WIFSTOPPED` (the signal
`WSTOPSIG` and the target as it has stopped), a status with `WIFEXITED` (the
exit code), or another status. -/
inductive WaitResult where
  | eintr
  | error
  | stopped (sig : Int) (t : Target)
  | exited (code : Int)
  | other

/-- A request that lets the target run or stops it, with the target as it is
when the request is issued. -/
inductive ControlReq where
  | INTERRUPT
  | CONT (t : Target)
  | SINGLESTEP (t : Target)

/-- The class `Debugger` with the fields its control methods use: `base`
holds `m_uStatus` and the target, `m_stBreakpoints` maps an address to the
pointer its `unique_ptr<Breakpoint>` holds, `lineEntry` is the lookup of a
function name in the debug information (`entry->address`, or the exception
thrown).  `future` lists what the coming calls of `waitpid` will return,
`control` is the ghost log of the control requests issued.

A `Breakpoint*` is a number.  `objects` gives the `Breakpoint` a pointer
points to while that object is alive; `new Breakpoint` returns `nextPointer`,
so that no pointer is handed out twice, and the destruction of a breakpoint
takes its pointer out of `objects`.  Using a pointer that is not in
`objects` is undefined behaviour. -/
structure Controller where
  base : Debugger
  m_iLastSignal : Int
  m_iExitCode : Int
  m_uAddressOffset : Nat
  m_stBreakpoints : Nat → Option Nat
  objects : Nat → Option Breakpoint
  nextPointer : Nat
  lineEntry : List Char → Bool → Outcome Nat
  future : List WaitResult
  control : List ControlReq

/-- The method `Debugger::GetStatus`. -/
def Controller.GetStatus (c : Controller) : ProcessStatus := c.base.m_uStatus

/-- The method `Debugger::GetLastSignal`. -/
def Controller.GetLastSignal (c : Controller) : Int := c.m_iLastSignal

/-- The method `Debugger::GetAddressOffset`. -/
def Controller.GetAddressOffset (c : Controller) : Nat := c.m_uAddressOffset

/-- The method `Debugger::GetRegister` on the whole controller. -/
def Controller.GetRegister (c : Controller) (reg : Registers) : Outcome Nat × Controller :=
  ((c.base.GetRegister reg).1, { c with base := (c.base.GetRegister reg).2 })

/-- The method `Debugger::SetRegister` on the whole controller. -/
def Controller.SetRegister (c : Controller) (reg : Registers) (val : Nat) :
    Outcome Unit × Controller :=
  ((c.base.SetRegister reg val).1, { c with base := (c.base.SetRegister reg val).2 })

/-- The tail of `Debugger::Continue`: the request `PTRACE_CONT`, which a
stopped tracee accepts, then `m_uStatus = Running` and `m_iLastSignal = 0`. -/
def Controller.resume (c : Controller) : Controller :=
  { c with
    base := { c.base with m_uStatus := ProcessStatus.Running }
    m_iLastSignal := 0
    control := c.control ++ [.CONT c.base.target] }

/-- The loop `while (true)` of `Debugger::Wait` over the results of
`waitpid` still to come; with none left the call blocks.  After a stop by
`SIGCHLD` the code calls `Continue()` with `m_uStatus = Paused` and
`m_iLastSignal = SIGCHLD`, which passes the state check, skips the step over
a breakpoint and is `resume`. -/
def Wait.loop : List WaitResult → Controller → Outcome Bool × Controller
  | [], c => (.outOfFuel, { c with future := [] })
  | .eintr :: rest, c => Wait.loop rest c
  | .error :: rest, c => (.throw .ApiException, { c with future := rest })
  | .stopped sig t :: rest, c =>
    let c1 : Controller :=
      { c with
        base := { c.base with m_uStatus := ProcessStatus.Paused, target := t }
        m_iLastSignal := sig
        future := rest }
    if sig = SIGCHLD then Wait.loop rest c1.resume
    else (.ok true, c1)
  | .exited code :: rest, c =>
    (.ok false,
      { c with
        base := { c.base with m_uStatus := ProcessStatus.Terminated }
        m_iLastSignal := 0
        m_iExitCode := code
        future := rest })
  | .other :: rest, c => (.throw .ApiException, { c with future := rest })

/-- The method `Debugger::Wait`. -/
def Controller.Wait (c : Controller) : Outcome Bool × Controller :=
  if c.GetStatus = ProcessStatus.Terminated then (.throw .InvalidCallException, c)
  else Wait.loop c.future c

/-- The method `Debugger::Interrupt`; the request `PTRACE_INTERRUPT` fails
when the process is gone. -/
def Controller.Interrupt (c : Controller) : Outcome Unit × Controller :=
  if c.GetStatus = ProcessStatus.Terminated then (.throw .ApiException, c)
  else
    match ({ c with control := c.control ++ [.INTERRUPT] } : Controller).Wait with
    | (.ok true, c1) => (.ok (), c1)
    | (.ok false, c1) => (.throw .InvalidCallException, c1)
    | (.throw e, c1) => (.throw e, c1)
    | (.outOfFuel, c1) => (.outOfFuel, c1)

/-- The method `Debugger::InternalStepOver`; the request `PTRACE_SINGLESTEP`
fails unless the tracee is stopped.  The value `Wait` returns is dropped. -/
def Controller.InternalStepOver (c : Controller) : Outcome Unit × Controller :=
  if c.GetStatus ≠ ProcessStatus.Paused then (.throw .ApiException, c)
  else
    match ({ c with control := c.control ++ [.SINGLESTEP c.base.target] } : Controller).Wait with
    | (.ok _, c1) => (.ok (), c1)
    | (.throw e, c1) => (.throw e, c1)
    | (.outOfFuel, c1) => (.outOfFuel, c1)

/-- The method `Debugger::GetBreakpoint`. -/
def Controller.GetBreakpoint (c : Controller) (address : Nat) : Option Nat :=
  c.m_stBreakpoints address

/-- The call `p->Enable()`. -/
def Controller.Enable (c : Controller) (p : Nat) : Outcome Unit × Controller :=
  match c.objects p with
  | some bp =>
    ((bp.Enable c.base).1,
      { c with
        base := (bp.Enable c.base).2.2
        objects := Function.update c.objects p (some (bp.Enable c.base).2.1) })
  | none => (.throw .UndefinedBehavior, c)

/-- The call `p->Disable()`. -/
def Controller.Disable (c : Controller) (p : Nat) : Outcome Unit × Controller :=
  match c.objects p with
  | some bp =>
    ((bp.Disable c.base).1,
      { c with
        base := (bp.Disable c.base).2.2
        objects := Function.update c.objects p (some (bp.Disable c.base).2.1) })
  | none => (.throw .UndefinedBehavior, c)

/-- The method `Debugger::StepOverBreakpoint`. -/
def Controller.StepOverBreakpoint (c : Controller) : Outcome Bool × Controller :=
  match c.GetRegister Registers.RIP with
  | (.ok pc, c1) =>
    let lastLocation := (pc + WORD_MOD - 1) % WORD_MOD
    match c1.GetBreakpoint lastLocation with
    | some p =>
      match c1.objects p with
      | some bp =>
        if bp.m_bEnabled then
          match c1.SetRegister Registers.RIP lastLocation with
          | (.ok (), c2) =>
            match c2.Disable p with
            | (.ok (), c3) =>
              match c3.InternalStepOver with
              | (.ok (), c4) =>
                match c4.Enable p with
                | (.ok (), c5) => (.ok true, c5)
                | (.throw e, c5) => (.throw e, c5)
                | (.outOfFuel, c5) => (.outOfFuel, c5)
              | (.throw e, c4) => (.throw e, c4)
              | (.outOfFuel, c4) => (.outOfFuel, c4)
            | (.throw e, c3) => (.throw e, c3)
            | (.outOfFuel, c3) => (.outOfFuel, c3)
          | (.throw e, c2) => (.throw e, c2)
          | (.outOfFuel, c2) => (.outOfFuel, c2)
        else (.ok false, c1)
      | none => (.throw .UndefinedBehavior, c1)
    | none => (.ok false, c1)
  | (.throw e, c1) => (.throw e, c1)
  | (.outOfFuel, c1) => (.outOfFuel, c1)

/-- The method `Debugger::Continue`. -/
def Controller.Continue (c : Controller) : Outcome Unit × Controller :=
  if c.GetStatus ≠ ProcessStatus.Paused then (.throw .InvalidCallException, c)
  else
    let stepped : Outcome Bool × Controller :=
      if c.m_iLastSignal = SIGTRAP then c.StepOverBreakpoint else (.ok false, c)
    match stepped with
    | (.ok _, c1) => (.ok (), c1.resume)
    | (.throw e, c1) => (.throw e, c1)
    | (.outOfFuel, c1) => (.outOfFuel, c1)

/-- The method `Debugger::CreateBreakpoint(uintptr_t address)`. -/
def Controller.CreateBreakpoint (c : Controller) (address : Nat) : Outcome Nat × Controller :=
  match c.m_stBreakpoints address with
  | some p => (.ok p, c)
  | none =>
    (.ok c.nextPointer,
      { c with
        m_stBreakpoints := Function.update c.m_stBreakpoints address (some c.nextPointer)
        objects := Function.update c.objects c.nextPointer (some (Breakpoint.create address))
        nextPointer := c.nextPointer + 1 })

/-- The method `Debugger::CreateBreakpoint(const char* func, bool skipPrologue)`. -/
def Controller.CreateBreakpointByName (c : Controller) (func : List Char) (skipPrologue : Bool) :
    Outcome Nat × Controller :=
  match c.lineEntry func skipPrologue with
  | .ok address => c.CreateBreakpoint ((address + c.m_uAddressOffset) % WORD_MOD)
  | .throw e => (.throw e, c)
  | .outOfFuel => (.outOfFuel, c)

/-- The destructor `Breakpoint::~Breakpoint` run on the object at `p`, then
the release of the object: nothing is done for a terminated target, otherwise
`Disable()` with every exception swallowed. -/
def Controller.destroyBreakpoint (c : Controller) (p : Nat) : Outcome Unit × Controller :=
  match c.objects p with
  | some bp =>
    let c1 : Controller :=
      if c.GetStatus = ProcessStatus.Terminated then c
      else { c with base := (bp.Disable c.base).2.2 }
    (.ok (), { c1 with objects := Function.update c1.objects p none })
  | none => (.throw .UndefinedBehavior, c)

/-- The method `Debugger::RemoveBreakpoint`: `breakpoint->GetAddress()` reads
the object the pointer points to, the entry found at that address is erased,
which destroys the breakpoint it owns. -/
def Controller.RemoveBreakpoint (c : Controller) (breakpoint : Nat) :
    Outcome Unit × Controller :=
  match c.objects breakpoint with
  | some bp =>
    match c.m_stBreakpoints bp.m_uAddress with
    | some p =>
      ({ c with m_stBreakpoints := Function.update c.m_stBreakpoints bp.m_uAddress none } :
        Controller).destroyBreakpoint p
    | none => (.ok (), c)
  | none => (.throw .UndefinedBehavior, c)

/-- The methods of the controller that the locator calls. -/
def controllerApi : DebuggerApi Controller :=
  { GetStatus := Controller.GetStatus
    GetLastSignal := Controller.GetLastSignal
    GetAddressOffset := Controller.GetAddressOffset
    Interrupt := Controller.Interrupt
    Continue := Controller.Continue
    Wait := Controller.Wait
    GetRegister := Controller.GetRegister
    GetBreakpoint := Controller.GetBreakpoint
    CreateBreakpoint := Controller.CreateBreakpoint
    CreateBreakpointByName := Controller.CreateBreakpointByName
    Enable := Controller.Enable
    RemoveBreakpoint := Controller.RemoveBreakpoint }


/-- The requests `PTRACE_CONT` that `Wait` issues while it consumes the
results `pre`: one after each stop by `SIGCHLD`. -/
def Wait.resumed : List WaitResult → List ControlReq
  | [] => []
  | .stopped sig t :: rest =>
    if sig = SIGCHLD then .CONT t :: Wait.resumed rest else Wait.resumed rest
  | _ :: rest => Wait.resumed rest

/-- A controller stopped by the trap of its breakpoint at address 16 of
`exampleTarget` (the program counter is 17; the breakpoint is the object at
pointer 1).  The single step to come is interrupted once, stops by `SIGCHLD`
and then stops at address 17 with the register `rax` changed. -/
def exampleTrapped : Controller :=
  { base :=
      { m_uStatus := ProcessStatus.Paused
        target :=
          { exampleTarget with
            mem := Function.update exampleTarget.mem 16 0xCC
            regs := { exampleRegs with rip := 17 } }
        trace := [] }
    m_iLastSignal := SIGTRAP
    m_iExitCode := 0
    m_uAddressOffset := 0
    m_stBreakpoints := fun a => if a = 16 then some 1 else none
    objects :=
      fun p => if p = 1 then some { m_uAddress := 16, m_bEnabled := true, m_uOriginalByte := 0x55 }
        else none
    nextPointer := 2
    lineEntry := fun _ _ => .throw .ObjectNotFoundException
    future :=
      [ .eintr,
        .stopped SIGCHLD { exampleTarget with regs := { exampleRegs with rip := 17 } },
        .stopped SIGTRAP { exampleTarget with regs := { exampleRegs with rip := 17, rax := 99 } } ]
    control := [] }

/-- The memory of `exampleTarget` with the trap byte at the addresses 16 and
24. -/
def exampleHooked : Target :=
  { exampleTarget with
    mem := Function.update (Function.update exampleTarget.mem 16 0xCC) 24 0xCC }

/-- The lookup of a function name in an image that has `lua_callk` at
address 16 and `lua_pcallk` at address 24. -/
def exampleLineEntry (func : List Char) (_skipPrologue : Bool) : Outcome Nat :=
  if func = "lua_callk".toList then .ok 16
  else if func = "lua_pcallk".toList then .ok 24
  else .throw .ObjectNotFoundException

/-- A running target without breakpoints.  It stops when it is interrupted,
then by the trap at `lua_callk` with `RDI = 0x1000`, then after the single
step over that breakpoint, then when it is interrupted again. -/
def exampleHooking : Controller :=
  { base := exampleRunning
    m_iLastSignal := 0
    m_iExitCode := 0
    m_uAddressOffset := 0
    m_stBreakpoints := fun _ => none
    objects := fun _ => none
    nextPointer := 1
    lineEntry := exampleLineEntry
    future :=
      [ .stopped SIGTRAP exampleTarget,
        .stopped SIGTRAP { exampleHooked with regs := { exampleRegs with rip := 17, rdi := 0x1000 } },
        .stopped SIGTRAP
          { exampleTarget with
            mem := Function.update exampleTarget.mem 24 0xCC
            regs := { exampleRegs with rip := 17, rdi := 0x1000 } },
        .stopped SIGTRAP { exampleHooked with regs := { exampleRegs with rip := 40 } } ]
    control := [] }

/-- The target of `exampleHooking`, but one that exits once it has been
resumed after the trap at `lua_callk`. -/
def exampleExiting : Controller :=
  { exampleHooking with
    future :=
      [ .stopped SIGTRAP exampleTarget,
        .stopped SIGTRAP { exampleHooked with regs := { exampleRegs with rip := 17, rdi := 0x1000 } },
        .stopped SIGTRAP
          { exampleTarget with
            mem := Function.update exampleTarget.mem 24 0xCC
            regs := { exampleRegs with rip := 17, rdi := 0x1000 } },
        .exited 0 ] }

/-- The target of `exampleHooking` in an image without the two functions,
which exits once it has been resumed. -/
def exampleStripped : Controller :=
  { exampleHooking with
    lineEntry := fun _ _ => .throw .ObjectNotFoundException
    future := [ .stopped SIGTRAP exampleTarget, .exited 0 ] }

/-- The target of `exampleHooking`, but `waitpid` fails when the target is
interrupted again. -/
def exampleWaitFails : Controller :=
  { exampleHooking with
    future :=
      [ .stopped SIGTRAP exampleTarget,
        .stopped SIGTRAP { exampleHooked with regs := { exampleRegs with rip := 17, rdi := 0x1000 } },
        .stopped SIGTRAP
          { exampleTarget with
            mem := Function.update exampleTarget.mem 24 0xCC
            regs := { exampleRegs with rip := 17, rdi := 0x1000 } },
        .error ] }

/-- The target of `exampleHooking` with the given results of `waitpid` after
the stop in which the hooks are installed. -/
def exampleStops (stops : List WaitResult) : Controller :=
  { exampleHooking with future := .stopped SIGTRAP exampleTarget :: stops }

/-! # Theorems -/

/-! ## Words and bytes -/

theorem byteOfWord_wordOfBytes (bs : List Byte) (i : Nat) (h : i < bs.length) :
    byteOfWord (wordOfBytes bs) i = bs[i] := by
  induction bs generalizing i with
  | nil => simp at h
  | cons b bs ih =>
    cases i with
    | zero =>
      apply Fin.ext
      have hb := b.isLt
      simp only [byteOfWord, wordOfBytes, pow_zero, Nat.div_one, List.getElem_cons_zero]
      omega
    | succ i =>
      have hi : i < bs.length := by simpa using h
      have hb := b.isLt
      have hdiv : (b.val + 256 * wordOfBytes bs) / 256 ^ (i + 1) = wordOfBytes bs / 256 ^ i := by
        rw [pow_succ, Nat.mul_comm (256 ^ i) 256, ← Nat.div_div_eq_div_mul]
        congr 1
        omega
      have := ih i hi
      apply Fin.ext
      have hv := congrArg Fin.val this
      simp only [byteOfWord] at hv
      simp only [byteOfWord, wordOfBytes, List.getElem_cons_succ, hdiv]
      exact hv

theorem byteOfWord_word (t : Target) (a i : Nat) (h : i < WORD_SIZE) :
    byteOfWord (t.word a) i = t.mem (a + i) := by
  unfold Target.word
  rw [byteOfWord_wordOfBytes _ _ (by simpa using h)]
  simp

theorem byteOfWord_setByte0_zero (val : Nat) (data : Byte) :
    byteOfWord (setByte0 val data) 0 = data := by
  apply Fin.ext
  have hb := data.isLt
  simp only [byteOfWord, setByte0, pow_zero, Nat.div_one]
  omega

theorem byteOfWord_setByte0_succ (val : Nat) (data : Byte) (i : Nat) :
    byteOfWord (setByte0 val data) (i + 1) = byteOfWord val (i + 1) := by
  apply Fin.ext
  have hb := data.isLt
  simp only [byteOfWord, setByte0, pow_succ, Nat.mul_comm (256 ^ i) 256,
    ← Nat.div_div_eq_div_mul]
  congr 2
  omega

/-! ## Single reads and writes on a paused target -/

theorem Read_paused (d : Debugger) (a : Nat) (hP : d.m_uStatus = ProcessStatus.Paused)
    (hr : d.target.readable a = true) :
    d.Read a = (.ok (d.target.word a), d.log (.PEEKDATA a)) := by
  simp [Debugger.Read, hP, Target.peek, hr]

theorem Read_unreadable (d : Debugger) (a : Nat) (hP : d.m_uStatus = ProcessStatus.Paused)
    (hr : d.target.readable a = false) :
    d.Read a = (.throw .ApiException, d.log (.PEEKDATA a)) := by
  simp [Debugger.Read, hP, Target.peek, hr]

theorem Read_not_paused (d : Debugger) (a : Nat) (hP : d.m_uStatus ≠ ProcessStatus.Paused) :
    d.Read a = (.throw .InvalidCallException, d) := by
  simp [Debugger.Read, hP]

theorem ReadByte_paused (d : Debugger) (a : Nat) (hP : d.m_uStatus = ProcessStatus.Paused)
    (hr : d.target.readable a = true) :
    d.ReadByte a = (.ok (d.target.mem a), d.log (.PEEKDATA a)) := by
  have h0 := byteOfWord_word d.target a 0 (by decide)
  simp only [Nat.add_zero] at h0
  simp [Debugger.ReadByte, Read_paused d a hP hr, h0]

/-- Memory after a word with byte 0 replaced has been stored over the word it
was read from: only the byte at the address changes. -/
theorem poke_setByte0 (t : Target) (a : Nat) (b : Byte) :
    (fun x => if a ≤ x ∧ x < a + WORD_SIZE then byteOfWord (setByte0 (t.word a) b) (x - a)
      else t.mem x) = Function.update t.mem a b := by
  funext x
  by_cases hx : a ≤ x ∧ x < a + WORD_SIZE
  · rw [if_pos hx]
    obtain ⟨k, rfl⟩ : ∃ k, x = a + k := ⟨x - a, by omega⟩
    have hk : k < WORD_SIZE := by omega
    cases k with
    | zero => simp [byteOfWord_setByte0_zero]
    | succ k =>
      have hne : a + (k + 1) ≠ a := by omega
      rw [Function.update_noteq hne, Nat.add_sub_cancel_left, byteOfWord_setByte0_succ,
        byteOfWord_word t a (k + 1) hk]
  · rw [if_neg hx]
    have hne : x ≠ a := by
      intro h
      apply hx
      subst h
      simp [WORD_SIZE]
    rw [Function.update_noteq hne]

theorem WriteByte_paused (d : Debugger) (a : Nat) (b : Byte)
    (hP : d.m_uStatus = ProcessStatus.Paused) (hr : d.target.readable a = true) :
    d.WriteByte a b =
      (.ok (),
        { m_uStatus := d.m_uStatus
          target := { d.target with mem := Function.update d.target.mem a b }
          trace := d.trace ++
            [.PEEKDATA a, .POKEDATA a (setByte0 (d.target.word a) b)] }) := by
  simp [Debugger.WriteByte, Read_paused d a hP hr, Debugger.Write, Debugger.log, hP,
    Target.poke, hr, poke_setByte0]

theorem Enable_fresh_paused (d : Debugger) (A : Nat) (bp : Breakpoint)
    (hA : bp.m_uAddress = A) (hE : bp.m_bEnabled = false)
    (hP : d.m_uStatus = ProcessStatus.Paused) (hr : d.target.readable A = true) :
    bp.Enable d =
      (.ok (),
        { m_uAddress := A, m_bEnabled := true, m_uOriginalByte := d.target.mem A },
        { m_uStatus := d.m_uStatus
          target := { d.target with mem := Function.update d.target.mem A 0xCC }
          trace := d.trace ++ [.PEEKDATA A, .PEEKDATA A,
            .POKEDATA A (setByte0 (d.target.word A) 0xCC)] }) := by
  subst hA
  have hW := WriteByte_paused (d.log (.PEEKDATA bp.m_uAddress)) bp.m_uAddress 0xCC hP hr
  simp only [Debugger.log] at hW
  simp [Breakpoint.Enable, ReadByte_paused d _ hP hr, hE, Debugger.log, hW]

theorem Disable_trap_paused (d : Debugger) (bp : Breakpoint)
    (hE : bp.m_bEnabled = true) (hP : d.m_uStatus = ProcessStatus.Paused)
    (hr : d.target.readable bp.m_uAddress = true) (hc : d.target.mem bp.m_uAddress = 0xCC) :
    bp.Disable d =
      (.ok (), { bp with m_bEnabled := false },
        { m_uStatus := d.m_uStatus
          target := { d.target with
            mem := Function.update d.target.mem bp.m_uAddress bp.m_uOriginalByte }
          trace := d.trace ++ [.PEEKDATA bp.m_uAddress, .PEEKDATA bp.m_uAddress,
            .POKEDATA bp.m_uAddress (setByte0 (d.target.word bp.m_uAddress) bp.m_uOriginalByte)] }) := by
  have hW := WriteByte_paused (d.log (.PEEKDATA bp.m_uAddress)) bp.m_uAddress
    bp.m_uOriginalByte hP hr
  simp only [Debugger.log] at hW
  simp [Breakpoint.Disable, ReadByte_paused d _ hP hr, hE, Debugger.log, hW, hc]

theorem Disable_modified_paused (d : Debugger) (bp : Breakpoint)
    (hE : bp.m_bEnabled = true) (hP : d.m_uStatus = ProcessStatus.Paused)
    (hr : d.target.readable bp.m_uAddress = true) (hc : d.target.mem bp.m_uAddress ≠ 0xCC) :
    bp.Disable d =
      (.ok (), { bp with m_bEnabled := false, m_uOriginalByte := d.target.mem bp.m_uAddress },
        d.log (.PEEKDATA bp.m_uAddress)) := by
  simp [Breakpoint.Disable, ReadByte_paused d _ hP hr, hE, hc]

/-- C1 (breakpoint round-trip): on a paused target, for every memory and
every address `A`, creating a breakpoint at `A`, calling `Enable` and then
`Disable` leaves the byte at `A` equal to the byte that was there before
`Enable`.  When the word at `A` can be transferred both calls return
normally, the trap byte `0xCC` is at `A` in between, and the breakpoint ends
disabled. -/
theorem breakpoint_roundtrip (d : Debugger) (A : Nat)
    (hP : d.m_uStatus = ProcessStatus.Paused) :
    (((Breakpoint.create A).Enable d).2.1.Disable
        ((Breakpoint.create A).Enable d).2.2).2.2.target.mem A = d.target.mem A ∧
    (d.target.readable A = true →
      ((Breakpoint.create A).Enable d).1 = .ok () ∧
      ((Breakpoint.create A).Enable d).2.1.m_bEnabled = true ∧
      ((Breakpoint.create A).Enable d).2.2.target.mem A = 0xCC ∧
      (((Breakpoint.create A).Enable d).2.1.Disable
        ((Breakpoint.create A).Enable d).2.2).1 = .ok () ∧
      (((Breakpoint.create A).Enable d).2.1.Disable
        ((Breakpoint.create A).Enable d).2.2).2.1.m_bEnabled = false) := by
  by_cases hr : d.target.readable A = true
  · rw [Enable_fresh_paused d A (Breakpoint.create A) rfl rfl hP hr]
    have hD := Disable_trap_paused
      { m_uStatus := d.m_uStatus
        target := { d.target with mem := Function.update d.target.mem A 0xCC }
        trace := d.trace ++ [.PEEKDATA A, .PEEKDATA A,
          .POKEDATA A (setByte0 (d.target.word A) 0xCC)] }
      { m_uAddress := A, m_bEnabled := true, m_uOriginalByte := d.target.mem A }
      rfl hP hr (by simp)
    rw [hD]
    simp
  · have hr2 : d.target.readable A = false := by simpa using hr
    have hE : (Breakpoint.create A).Enable d =
        (.throw .ApiException, Breakpoint.create A, d.log (.PEEKDATA A)) := by
      simp [Breakpoint.Enable, Debugger.ReadByte, Breakpoint.create,
        Read_unreadable d A hP hr2]
    rw [hE]
    simp [hr2, Breakpoint.Disable, Breakpoint.create, Debugger.log]

theorem breakpoint_roundtrip_witness :
    examplePaused.m_uStatus = ProcessStatus.Paused ∧
    (((Breakpoint.create 16).Enable examplePaused).2.1.Disable
        ((Breakpoint.create 16).Enable examplePaused).2.2).2.2.target.mem 16 = 0x55 ∧
    ((Breakpoint.create 16).Enable examplePaused).2.2.target.mem 16 = 0xCC :=
  ⟨rfl, (breakpoint_roundtrip examplePaused 16 rfl).1,
    ((breakpoint_roundtrip examplePaused 16 rfl).2 (by decide)).2.2.1⟩

/-- C2: `Breakpoint::Disable` on an enabled breakpoint of a paused target
(the word at its address being transferable) returns normally and leaves the
breakpoint disabled.  If the byte at the address is `0xCC` it issues one
write, of the word read back with byte 0 replaced by the saved byte, so that
only the byte at the address changes, to the saved byte.  If the byte is not
`0xCC` it issues the single read and no write, and the target is unchanged.
Hence a write is issued if and only if the byte at the address is `0xCC`. -/
theorem disable_restores_iff_trap (d : Debugger) (bp : Breakpoint)
    (hE : bp.m_bEnabled = true) (hP : d.m_uStatus = ProcessStatus.Paused)
    (hr : d.target.readable bp.m_uAddress = true) :
    (bp.Disable d).1 = .ok () ∧ (bp.Disable d).2.1.m_bEnabled = false ∧
    (d.target.mem bp.m_uAddress = 0xCC →
      (bp.Disable d).2.2.trace = d.trace ++
        [.PEEKDATA bp.m_uAddress, .PEEKDATA bp.m_uAddress,
          .POKEDATA bp.m_uAddress (setByte0 (d.target.word bp.m_uAddress) bp.m_uOriginalByte)] ∧
      (bp.Disable d).2.2.target.mem =
        Function.update d.target.mem bp.m_uAddress bp.m_uOriginalByte) ∧
    (d.target.mem bp.m_uAddress ≠ 0xCC →
      (bp.Disable d).2.2.trace = d.trace ++ [.PEEKDATA bp.m_uAddress] ∧
      (bp.Disable d).2.2.target = d.target) ∧
    ((∃ r ∈ (bp.Disable d).2.2.trace.drop d.trace.length, r.isPoke = true) ↔
      d.target.mem bp.m_uAddress = 0xCC) := by
  by_cases hc : d.target.mem bp.m_uAddress = 0xCC
  · rw [Disable_trap_paused d bp hE hP hr hc]
    simp [hc, PtraceReq.isPoke]
  · rw [Disable_modified_paused d bp hE hP hr hc]
    simp [hc, Debugger.log, PtraceReq.isPoke]

theorem disable_restores_iff_trap_witness :
    exampleEnabled.1.m_bEnabled = true ∧
    exampleEnabled.2.m_uStatus = ProcessStatus.Paused ∧
    exampleEnabled.2.target.readable exampleEnabled.1.m_uAddress = true ∧
    (exampleEnabled.1.Disable exampleEnabled.2).1 = .ok () ∧
    (exampleEnabled.1.Disable exampleEnabled.2).2.1.m_bEnabled = false :=
  ⟨rfl, rfl, by decide,
    (disable_restores_iff_trap exampleEnabled.2 exampleEnabled.1 rfl rfl (by decide)).1,
    (disable_restores_iff_trap exampleEnabled.2 exampleEnabled.1 rfl rfl (by decide)).2.1⟩

/-- C3: `Breakpoint::Enable` on an already enabled breakpoint whose byte in
the paused target is still `0xCC` is a no-op: it returns normally, the
breakpoint (enabled flag and saved byte) is unchanged, the only request
issued is the read of the word at the address, no write is issued and the
target is unchanged. -/
theorem enable_enabled_noop (d : Debugger) (bp : Breakpoint)
    (hE : bp.m_bEnabled = true) (hP : d.m_uStatus = ProcessStatus.Paused)
    (hr : d.target.readable bp.m_uAddress = true)
    (hc : d.target.mem bp.m_uAddress = 0xCC) :
    bp.Enable d = (.ok (), bp, d.log (.PEEKDATA bp.m_uAddress)) ∧
    (bp.Enable d).2.2.target = d.target ∧
    (∀ r ∈ (bp.Enable d).2.2.trace.drop d.trace.length, r.isPoke = false) := by
  have h : bp.Enable d = (.ok (), bp, d.log (.PEEKDATA bp.m_uAddress)) := by
    simp [Breakpoint.Enable, ReadByte_paused d _ hP hr, hE, hc]
  rw [h]
  simp [Debugger.log, PtraceReq.isPoke]

theorem enable_enabled_noop_witness :
    exampleEnabled.1.m_bEnabled = true ∧
    exampleEnabled.2.m_uStatus = ProcessStatus.Paused ∧
    exampleEnabled.2.target.readable exampleEnabled.1.m_uAddress = true ∧
    exampleEnabled.2.target.mem exampleEnabled.1.m_uAddress = 0xCC ∧
    exampleEnabled.1.Enable exampleEnabled.2 =
      (.ok (), exampleEnabled.1, exampleEnabled.2.log (.PEEKDATA 16)) :=
  ⟨rfl, rfl, by decide, by decide,
    (enable_enabled_noop exampleEnabled.2 exampleEnabled.1 rfl rfl (by decide) (by decide)).1⟩

theorem ReadString_not_paused (d : Debugger) (a maxlen : Nat)
    (hP : d.m_uStatus ≠ ProcessStatus.Paused) (hm : 0 < maxlen) :
    d.ReadString a maxlen = (.throw .InvalidCallException, d) := by
  simp [Debugger.ReadString, ReadString.loop, hm, Read_not_paused d _ hP]

theorem ReadBytes_not_paused (d : Debugger) (a : Nat) (buffer : List Byte) (count : Nat)
    (hP : d.m_uStatus ≠ ProcessStatus.Paused) (hc : WORD_SIZE ≤ count) :
    d.ReadBytes a buffer count = (.throw .InvalidCallException, buffer, d) := by
  unfold WORD_SIZE at hc
  unfold Debugger.ReadBytes
  simp only []
  generalize hcount : (if count % WORD_SIZE ≠ 0 then count - count % WORD_SIZE else count) = c
  have hc8 : 8 ≤ c := by
    rw [← hcount]
    unfold WORD_SIZE
    split <;> omega
  obtain ⟨k, hk⟩ : ∃ k, c / WORD_SIZE = k + 1 := by
    refine ⟨c / 8 - 1, ?_⟩
    unfold WORD_SIZE
    omega
  rw [hk]
  have h0 : 0 < c := by omega
  simp [ReadBytes.loop, h0, Read_not_paused d _ hP]

theorem ReadString_zero (d : Debugger) (a : Nat) : d.ReadString a 0 = (.ok [], d) := by
  simp [Debugger.ReadString, ReadString.loop]

theorem ReadBytes_small (d : Debugger) (a : Nat) (buffer : List Byte) (count : Nat)
    (hc : count < WORD_SIZE) : d.ReadBytes a buffer count = (.ok 0, buffer, d) := by
  unfold WORD_SIZE at hc
  have h1 : count % 8 = count := Nat.mod_eq_of_lt hc
  by_cases h0 : count = 0
  · subst h0
    simp [Debugger.ReadBytes, ReadBytes.loop, WORD_SIZE]
  · simp [Debugger.ReadBytes, ReadBytes.loop, WORD_SIZE, h1, h0]

/-- C4, as stated, fails: on a controller whose target is running,
`ReadString` with `maxlen = 0` and `ReadBytes` with `count = 7` return
normally instead of failing with `InvalidCall`. -/
theorem pause_discipline_counterexample :
    exampleRunning.m_uStatus ≠ ProcessStatus.Paused ∧
    (exampleRunning.ReadString 32 0).1 = .ok [] ∧
    (exampleRunning.ReadBytes 32 [] 7).1 = .ok 0 := by
  refine ⟨by decide, ?_, ?_⟩
  · rw [ReadString_zero]
  · rw [ReadBytes_small _ _ _ _ (by decide)]

/-- C4 (amended): whenever the controller state is not `Paused`,
`GetRegister`, `SetRegister`, `Read`, `ReadByte`, `Write` and `WriteByte` fail
with `InvalidCall` for every argument, `ReadString` fails with `InvalidCall`
for every address and every `maxlen ≥ 1`, and `ReadBytes` fails with
`InvalidCall` for every address and every `count ≥ 8`; the controller is left
as it was.  `ReadString` with `maxlen = 0` and `ReadBytes` with `count < 8`
do not reach the state check: they return the empty string and 0. -/
theorem pause_discipline (d : Debugger) (hP : d.m_uStatus ≠ ProcessStatus.Paused) :
    (∀ reg, d.GetRegister reg = (.throw .InvalidCallException, d)) ∧
    (∀ reg val, d.SetRegister reg val = (.throw .InvalidCallException, d)) ∧
    (∀ address, d.Read address = (.throw .InvalidCallException, d)) ∧
    (∀ address, d.ReadByte address = (.throw .InvalidCallException, d)) ∧
    (∀ address maxlen, 0 < maxlen →
      d.ReadString address maxlen = (.throw .InvalidCallException, d)) ∧
    (∀ address buffer count, WORD_SIZE ≤ count →
      d.ReadBytes address buffer count = (.throw .InvalidCallException, buffer, d)) ∧
    (∀ address data, d.Write address data = (.throw .InvalidCallException, d)) ∧
    (∀ address data, d.WriteByte address data = (.throw .InvalidCallException, d)) ∧
    (∀ address, d.ReadString address 0 = (.ok [], d)) ∧
    (∀ address buffer count, count < WORD_SIZE →
      d.ReadBytes address buffer count = (.ok 0, buffer, d)) := by
  refine ⟨?_, ?_, ?_, ?_, ?_, ?_, ?_, ?_, ?_, ?_⟩
  · intro reg
    simp [Debugger.GetRegister, hP]
  · intro reg val
    simp [Debugger.SetRegister, hP]
  · intro a
    exact Read_not_paused d a hP
  · intro a
    simp [Debugger.ReadByte, Read_not_paused d a hP]
  · intro a maxlen hm
    exact ReadString_not_paused d a maxlen hP hm
  · intro a buffer count hc
    exact ReadBytes_not_paused d a buffer count hP hc
  · intro a data
    simp [Debugger.Write, hP]
  · intro a data
    simp [Debugger.WriteByte, Read_not_paused d a hP]
  · intro a
    exact ReadString_zero d a
  · intro a buffer count hc
    exact ReadBytes_small d a buffer count hc

theorem pause_discipline_witness :
    exampleRunning.m_uStatus ≠ ProcessStatus.Paused ∧
    exampleRunning.ReadByte 16 = (.throw .InvalidCallException, exampleRunning) ∧
    exampleRunning.ReadString 32 1024 = (.throw .InvalidCallException, exampleRunning) :=
  ⟨by decide, (pause_discipline exampleRunning (by decide)).2.2.2.1 16,
    (pause_discipline exampleRunning (by decide)).2.2.2.2.1 32 1024 (by decide)⟩

/-- C5 (register round-trip): for every register `reg` of the `Registers`
enum and every register bank of a paused target, `GetRegister(reg)` returns a
value `v`, `SetRegister(reg, v)` returns normally, and afterwards the register
bank (all 27 fields), and with it the whole target, is unchanged. -/
theorem register_roundtrip (d : Debugger) (reg : Registers)
    (hP : d.m_uStatus = ProcessStatus.Paused) :
    ∃ v, (d.GetRegister reg).1 = .ok v ∧
      ((d.GetRegister reg).2.SetRegister reg v).1 = .ok () ∧
      ((d.GetRegister reg).2.SetRegister reg v).2.target.regs = d.target.regs ∧
      ((d.GetRegister reg).2.SetRegister reg v).2.target = d.target := by
  obtain ⟨st, ⟨mem, mapped, regs⟩, tr⟩ := d
  simp only at hP
  subst hP
  cases reg <;>
    exact ⟨_, rfl, rfl, rfl, rfl⟩

theorem register_roundtrip_witness :
    examplePaused.m_uStatus = ProcessStatus.Paused ∧
    ∃ v, (examplePaused.GetRegister Registers.RIP).1 = .ok v ∧
      ((examplePaused.GetRegister Registers.RIP).2.SetRegister Registers.RIP v).1 = .ok () ∧
      ((examplePaused.GetRegister Registers.RIP).2.SetRegister Registers.RIP v).2.target.regs
        = exampleRegs ∧
      ((examplePaused.GetRegister Registers.RIP).2.SetRegister Registers.RIP v).2.target
        = examplePaused.target :=
  ⟨rfl, register_roundtrip examplePaused Registers.RIP rfl⟩

theorem IssuesOnly.refl (P : Nat → Prop) (tr : List PtraceReq) : IssuesOnly P tr tr :=
  ⟨[], by simp, by simp⟩

theorem IssuesOnly.trans {P : Nat → Prop} {t1 t2 t3 : List PtraceReq}
    (h12 : IssuesOnly P t1 t2) (h23 : IssuesOnly P t2 t3) : IssuesOnly P t1 t3 := by
  obtain ⟨n1, rfl, h1⟩ := h12
  obtain ⟨n2, rfl, h2⟩ := h23
  refine ⟨n1 ++ n2, by simp, ?_⟩
  intro r hr
  rcases List.mem_append.mp hr with h | h
  · exact h1 r h
  · exact h2 r h

theorem IssuesOnly.single {P : Nat → Prop} (tr : List PtraceReq) (r : PtraceReq) (a : Nat)
    (hr : r.memAddress = some a) (hP : P a) : IssuesOnly P tr (tr ++ [r]) :=
  ⟨[r], rfl, by
    intro r1 h1
    rw [List.mem_singleton] at h1
    subst h1
    exact ⟨a, hr, hP⟩⟩

theorem Read_issues (P : Nat → Prop) (d : Debugger) (a : Nat) (hP : P a) :
    IssuesOnly P d.trace (d.Read a).2.trace := by
  unfold Debugger.Read
  split
  · exact IssuesOnly.refl _ _
  · simp only []
    split <;> exact IssuesOnly.single _ _ a rfl hP

theorem Write_issues (P : Nat → Prop) (d : Debugger) (a data : Nat) (hP : P a) :
    IssuesOnly P d.trace (d.Write a data).2.trace := by
  unfold Debugger.Write
  split
  · exact IssuesOnly.refl _ _
  · simp only []
    split <;> exact IssuesOnly.single _ _ a rfl hP

theorem ReadByte_issues (P : Nat → Prop) (d : Debugger) (a : Nat) (hP : P a) :
    IssuesOnly P d.trace (d.ReadByte a).2.trace := by
  have h := Read_issues P d a hP
  unfold Debugger.ReadByte
  split <;> simp_all

theorem WriteByte_issues (P : Nat → Prop) (d : Debugger) (a : Nat) (b : Byte) (hP : P a) :
    IssuesOnly P d.trace (d.WriteByte a b).2.trace := by
  have h := Read_issues P d a hP
  unfold Debugger.WriteByte
  split
  · rename_i val d1 heq
    rw [heq] at h
    exact h.trans (Write_issues P d1 a _ hP)
  · simp_all
  · simp_all

theorem ReadString_loop_issues (address maxlen : Nat) (fuel : Nat) :
    ∀ (d : Debugger) (offset : Nat) (ret : List Byte), offset % WORD_SIZE = 0 →
      IssuesOnly (fun a => a % WORD_SIZE = address % WORD_SIZE) d.trace
        (ReadString.loop address maxlen fuel d offset ret).2.trace := by
  induction fuel with
  | zero =>
    intro d offset ret _
    unfold ReadString.loop
    split <;> exact IssuesOnly.refl _ _
  | succ fuel ih =>
    intro d offset ret ho
    have hR := Read_issues (fun a => a % WORD_SIZE = address % WORD_SIZE) d
      ((address + offset) % WORD_MOD) (by
        simp only [WORD_SIZE, WORD_MOD] at ho ⊢
        omega)
    unfold ReadString.loop
    split
    · split
      · rename_i val d1 heq
        rw [heq] at hR
        split
        · exact hR
        · refine hR.trans (ih d1 _ _ ?_)
          simp only [WORD_SIZE, WORD_MOD] at ho ⊢
          omega
      · rename_i e d1 heq
        rw [heq] at hR
        exact hR
      · rename_i d1 heq
        rw [heq] at hR
        exact hR
    · exact IssuesOnly.refl _ _

theorem ReadBytes_loop_issues (address count : Nat) (fuel : Nat) :
    ∀ (d : Debugger) (offset : Nat) (buffer : List Byte), offset % WORD_SIZE = 0 →
      IssuesOnly (fun a => a % WORD_SIZE = address % WORD_SIZE) d.trace
        (ReadBytes.loop address count fuel d offset buffer).2.2.trace := by
  induction fuel with
  | zero =>
    intro d offset ret _
    unfold ReadBytes.loop
    split <;> exact IssuesOnly.refl _ _
  | succ fuel ih =>
    intro d offset ret ho
    have hR := Read_issues (fun a => a % WORD_SIZE = address % WORD_SIZE) d
      ((address + offset) % WORD_MOD) (by
        simp only [WORD_SIZE, WORD_MOD] at ho ⊢
        omega)
    unfold ReadBytes.loop
    split
    · split
      · rename_i val d1 heq
        rw [heq] at hR
        refine hR.trans (ih d1 _ _ ?_)
        simp only [WORD_SIZE, WORD_MOD] at ho ⊢
        omega
      · rename_i e d1 heq
        rw [heq] at hR
        exact hR
      · rename_i d1 heq
        rw [heq] at hR
        exact hR
    · exact IssuesOnly.refl _ _

theorem ReadBytes_issues (d : Debugger) (address : Nat) (buffer : List Byte) (count : Nat) :
    IssuesOnly (fun a => a % WORD_SIZE = address % WORD_SIZE) d.trace
      (d.ReadBytes address buffer count).2.2.trace := by
  unfold Debugger.ReadBytes
  simp only []
  generalize (if count % WORD_SIZE ≠ 0 then count - count % WORD_SIZE else count) = c
  have h := ReadBytes_loop_issues address c (c / WORD_SIZE) d 0 buffer rfl
  split <;> simp_all

theorem Enable_issues (bp : Breakpoint) (d : Debugger) :
    IssuesOnly (fun a => a = bp.m_uAddress) d.trace (bp.Enable d).2.2.trace := by
  have h := ReadByte_issues (fun a => a = bp.m_uAddress) d bp.m_uAddress rfl
  unfold Breakpoint.Enable
  split
  · rename_i code d1 heq
    rw [heq] at h
    have hW := WriteByte_issues (fun a => a = bp.m_uAddress) d1 bp.m_uAddress 0xCC rfl
    split
    · exact h
    · split <;> simp_all <;> exact h.trans hW
  · simp_all
  · simp_all

theorem Disable_issues (bp : Breakpoint) (d : Debugger) :
    IssuesOnly (fun a => a = bp.m_uAddress) d.trace (bp.Disable d).2.2.trace := by
  have h := ReadByte_issues (fun a => a = bp.m_uAddress) d bp.m_uAddress rfl
  unfold Breakpoint.Disable
  split
  · exact IssuesOnly.refl _ _
  · split
    · rename_i code d1 heq
      rw [heq] at h
      have hW := WriteByte_issues (fun a => a = bp.m_uAddress) d1 bp.m_uAddress
        bp.m_uOriginalByte rfl
      split
      · exact h
      · split <;> simp_all <;> exact h.trans hW
    · simp_all
    · simp_all

theorem IssuesOnly.mono {P Q : Nat → Prop} {t1 t2 : List PtraceReq}
    (h : IssuesOnly P t1 t2) (hPQ : ∀ a, P a → Q a) : IssuesOnly Q t1 t2 := by
  obtain ⟨added, rfl, h1⟩ := h
  refine ⟨added, rfl, ?_⟩
  intro r hr
  obtain ⟨a, ha, hp⟩ := h1 r hr
  exact ⟨a, ha, hPQ a hp⟩

theorem IssuesOnly.aligned {address : Nat} {t1 t2 : List PtraceReq}
    (h : IssuesOnly (fun a => a % WORD_SIZE = address % WORD_SIZE) t1 t2)
    (hA : address % WORD_SIZE = 0) (h1 : AlignedTrace t1) : AlignedTrace t2 := by
  obtain ⟨added, rfl, h2⟩ := h
  intro r hr a ha
  rcases List.mem_append.mp hr with h | h
  · exact h1 r h a ha
  · obtain ⟨b, hb, hp⟩ := h2 r h
    rw [ha] at hb
    cases hb
    rw [hp, hA]

/-- C6, as stated, fails: enabling a breakpoint at address 17 of a paused
target issues two `PTRACE_PEEKDATA` and one `PTRACE_POKEDATA` at address 17,
which is not a multiple of 8. -/
theorem word_alignment_counterexample :
    examplePaused.m_uStatus = ProcessStatus.Paused ∧ AlignedTrace examplePaused.trace ∧
    ((Breakpoint.create 17).Enable examplePaused).2.2.trace =
      [.PEEKDATA 17, .PEEKDATA 17, .POKEDATA 17 10416984888683040972] ∧
    ¬ AlignedTrace ((Breakpoint.create 17).Enable examplePaused).2.2.trace := by
  have h : ((Breakpoint.create 17).Enable examplePaused).2.2.trace =
      [.PEEKDATA 17, .PEEKDATA 17, .POKEDATA 17 10416984888683040972] := by decide
  refine ⟨rfl, ?_, h, ?_⟩
  · intro r hr
    simp [examplePaused] at hr
  · rw [h]
    intro hA
    have := hA (.PEEKDATA 17) (by simp) 17 rfl
    simp [WORD_SIZE] at this

/-- C6 (amended): the controller does not round addresses.  Every
`PTRACE_PEEKDATA` / `PTRACE_POKEDATA` request issued by `Read`, `ReadByte`,
`Write`, `WriteByte` uses exactly the address given to the operation, and
`Breakpoint::Enable` / `Disable` use exactly the breakpoint address; the
requests issued by `ReadString` and `ReadBytes` use addresses congruent modulo
8 to the address given.  Hence, when the address given is a multiple of the
word size, every request these operations issue, and every request of
`Enable` / `Disable` of a breakpoint at that address, uses a word-aligned
address. -/
theorem word_alignment (d : Debugger) (address : Nat) :
    IssuesOnly (fun a => a = address) d.trace (d.Read address).2.trace ∧
    IssuesOnly (fun a => a = address) d.trace (d.ReadByte address).2.trace ∧
    (∀ data, IssuesOnly (fun a => a = address) d.trace (d.Write address data).2.trace) ∧
    (∀ data, IssuesOnly (fun a => a = address) d.trace (d.WriteByte address data).2.trace) ∧
    (∀ maxlen, IssuesOnly (fun a => a % WORD_SIZE = address % WORD_SIZE) d.trace
      (d.ReadString address maxlen).2.trace) ∧
    (∀ buffer count, IssuesOnly (fun a => a % WORD_SIZE = address % WORD_SIZE) d.trace
      (d.ReadBytes address buffer count).2.2.trace) ∧
    (∀ bp : Breakpoint,
      IssuesOnly (fun a => a = bp.m_uAddress) d.trace (bp.Enable d).2.2.trace ∧
      IssuesOnly (fun a => a = bp.m_uAddress) d.trace (bp.Disable d).2.2.trace) ∧
    (address % WORD_SIZE = 0 → AlignedTrace d.trace →
      AlignedTrace (d.Read address).2.trace ∧
      AlignedTrace (d.ReadByte address).2.trace ∧
      (∀ data, AlignedTrace (d.Write address data).2.trace) ∧
      (∀ data, AlignedTrace (d.WriteByte address data).2.trace) ∧
      (∀ maxlen, AlignedTrace (d.ReadString address maxlen).2.trace) ∧
      (∀ buffer count, AlignedTrace (d.ReadBytes address buffer count).2.2.trace) ∧
      AlignedTrace ((Breakpoint.create address).Enable d).2.2.trace ∧
      (∀ bp : Breakpoint, bp.m_uAddress = address →
        AlignedTrace (bp.Disable d).2.2.trace)) := by
  have hmod : ∀ a, a = address → a % WORD_SIZE = address % WORD_SIZE := by
    intro a h
    rw [h]
  refine ⟨Read_issues (fun a => a = address) d address rfl,
    ReadByte_issues (fun a => a = address) d address rfl,
    fun data => Write_issues (fun a => a = address) d address data rfl,
    fun data => WriteByte_issues (fun a => a = address) d address data rfl,
    fun maxlen => ReadString_loop_issues address maxlen _ d 0 [] rfl,
    fun buffer count => ReadBytes_issues d address buffer count,
    fun bp => ⟨Enable_issues bp d, Disable_issues bp d⟩, ?_⟩
  intro hA hT
  refine ⟨((Read_issues (fun a => a = address) d address rfl).mono hmod).aligned hA hT,
    ((ReadByte_issues (fun a => a = address) d address rfl).mono hmod).aligned hA hT,
    fun data =>
      ((Write_issues (fun a => a = address) d address data rfl).mono hmod).aligned hA hT,
    fun data =>
      ((WriteByte_issues (fun a => a = address) d address data rfl).mono hmod).aligned hA hT,
    fun maxlen => (ReadString_loop_issues address maxlen _ d 0 [] rfl).aligned hA hT,
    fun buffer count => (ReadBytes_issues d address buffer count).aligned hA hT,
    ((Enable_issues (Breakpoint.create address) d).mono hmod).aligned hA hT, ?_⟩
  intro bp hbp
  subst hbp
  exact ((Disable_issues bp d).mono hmod).aligned hA hT

theorem word_alignment_witness :
    16 % WORD_SIZE = 0 ∧ AlignedTrace examplePaused.trace ∧
    AlignedTrace ((Breakpoint.create 16).Enable examplePaused).2.2.trace ∧
    AlignedTrace (examplePaused.ReadString 16 1024).2.trace :=
  ⟨rfl, fun r hr => by simp [examplePaused] at hr,
    ((word_alignment examplePaused 16).2.2.2.2.2.2.2 rfl
      (fun r hr => by simp [examplePaused] at hr)).2.2.2.2.2.2.1,
    ((word_alignment examplePaused 16).2.2.2.2.2.2.2 rfl
      (fun r hr => by simp [examplePaused] at hr)).2.2.2.2.1 1024⟩

/-! ## The remote memory accessor -/


theorem land_mask (n : Nat) (h : n < 2 ^ 64) : n &&& (2 ^ 64 - 8) = n - n % 8 := by
  have h1 : (2 ^ 64 - 8 : Nat) = 2 ^ 3 * (2 ^ 61 - 1) := by norm_num
  have h2 : n - n % 8 = 2 ^ 3 * (n / 8) := by omega
  rw [h1, h2]
  apply Nat.eq_of_testBit_eq
  intro i
  rw [Nat.testBit_and, Nat.testBit_mul_pow_two, Nat.testBit_mul_pow_two,
    Nat.testBit_two_pow_sub_one]
  by_cases hi : 3 ≤ i
  · obtain ⟨j, rfl⟩ : ∃ j, i = j + 3 := ⟨i - 3, by omega⟩
    have h8 : n / 8 = n / 2 / 2 / 2 := by omega
    have hb : (n / 8).testBit j = n.testBit (j + 3) := by
      rw [h8, Nat.testBit_div_two, Nat.testBit_div_two, Nat.testBit_div_two]
    simp only [Nat.add_sub_cancel, hb, hi, decide_True, Bool.true_and]
    by_cases hj : j < 61
    · simp [hj]
    · have hlt : n < 2 ^ (j + 3) :=
        Nat.lt_of_lt_of_le h (Nat.pow_le_pow_right (by decide) (by omega))
      simp [hj, Nat.testBit_lt_two_pow hlt]
  · simp [hi]

theorem RoundDown_eq (n : Nat) (h : n < WORD_MOD) : RoundDown n = n - n % 8 := by
  have := land_mask n h
  simpa [RoundDown, not64, Align, WORD_MOD] using this

theorem RoundUp_eq (n : Nat) (h : n + 7 < WORD_MOD) : RoundUp n = n + 7 - (n + 7) % 8 := by
  have := land_mask (n + 7) h
  have hm : (n + 7) % WORD_MOD = n + 7 := Nat.mod_eq_of_lt h
  have hA : n + Align - 1 = n + 7 := by simp [Align]
  unfold RoundUp
  rw [hA, hm]
  simpa [not64, Align, WORD_MOD] using this


theorem bytes_append (t : Target) (a m n : Nat) :
    t.bytes a (m + n) = t.bytes a m ++ t.bytes (a + m) n := by
  simp only [Target.bytes, List.range_add, List.map_append, List.map_map]
  congr 1
  apply List.map_congr_left
  intro i _
  simp [Nat.add_assoc]

theorem bytesOfWord_word (t : Target) (a : Nat) : bytesOfWord (t.word a) = t.bytes a WORD_SIZE := by
  unfold bytesOfWord Target.bytes
  apply List.map_congr_left
  intro i hi
  exact byteOfWord_word t a i (List.mem_range.mp hi)

theorem bytes_length (t : Target) (a n : Nat) : (t.bytes a n).length = n := by
  simp [Target.bytes]

theorem ReadBytes_loop_paused (lo count : Nat) (hc : count % WORD_SIZE = 0)
    (hhi : lo + count < WORD_MOD) (fuel : Nat) :
    ∀ (d : Debugger) (offset : Nat) (buffer : List Byte),
      d.m_uStatus = ProcessStatus.Paused →
      (∀ o, o < count → o % WORD_SIZE = 0 → d.target.readable (lo + o) = true) →
      offset % WORD_SIZE = 0 → offset ≤ count → buffer.length = count →
      (count - offset) / WORD_SIZE ≤ fuel →
      ∃ d1, ReadBytes.loop lo count fuel d offset buffer =
          (.ok (), buffer.take offset ++ d.target.bytes (lo + offset) (count - offset), d1) ∧
        d1.target = d.target ∧ d1.m_uStatus = d.m_uStatus := by
  induction fuel with
  | zero =>
    intro d offset buffer _ _ ho hle hlen hf
    have heq : offset = count := by
      simp only [WORD_SIZE] at hc ho hf
      omega
    subst heq
    refine ⟨d, ?_, rfl, rfl⟩
    simp [ReadBytes.loop, Target.bytes, ← hlen]
  | succ fuel ih =>
    intro d offset buffer hP hr ho hle hlen hf
    by_cases hlt : offset < count
    · have hmod : (lo + offset) % WORD_MOD = lo + offset :=
        Nat.mod_eq_of_lt (by omega)
      have h8 : offset + WORD_SIZE ≤ count := by
        simp only [WORD_SIZE] at hc ho ⊢
        omega
      have hmod2 : (offset + WORD_SIZE) % WORD_MOD = offset + WORD_SIZE := by
        apply Nat.mod_eq_of_lt
        simp only [WORD_MOD, WORD_SIZE] at hhi h8 ⊢
        omega
      have hread := Read_paused d (lo + offset) hP (hr offset hlt ho)
      have hlen1 : (writeAt buffer offset (bytesOfWord (d.target.word (lo + offset)))).length
          = count := by
        simp only [writeAt, List.length_append, List.length_take, List.length_drop,
          bytesOfWord, List.length_map, List.length_range, hlen]
        omega
      obtain ⟨d1, h1, ht, hs⟩ := ih (d.log (.PEEKDATA (lo + offset))) (offset + WORD_SIZE)
        (writeAt buffer offset (bytesOfWord (d.target.word (lo + offset)))) hP hr
        (by simp only [WORD_SIZE] at ho ⊢; omega) h8 hlen1
        (by simp only [WORD_SIZE] at hf h8 ⊢; omega)
      refine ⟨d1, ?_, ht, hs⟩
      rw [ReadBytes.loop, if_pos hlt, hmod, hread]
      simp only [hmod2]
      rw [h1]
      have htake : (writeAt buffer offset (bytesOfWord (d.target.word (lo + offset)))).take
          (offset + WORD_SIZE) = buffer.take offset ++ d.target.bytes (lo + offset) WORD_SIZE := by
        rw [bytesOfWord_word]
        unfold writeAt
        have hl : (List.take offset buffer ++ d.target.bytes (lo + offset) WORD_SIZE).length
            = offset + WORD_SIZE := by
          simp only [List.length_append, List.length_take, bytes_length, hlen]
          omega
        rw [List.take_append_of_le_length (by omega), List.take_of_length_le (by omega)]
      have hsplit : d.target.bytes (lo + offset) (count - offset) =
          d.target.bytes (lo + offset) WORD_SIZE ++
            d.target.bytes (lo + offset + WORD_SIZE) (count - (offset + WORD_SIZE)) := by
        rw [← bytes_append]
        congr 1
        omega
      rw [htake, hsplit]
      simp [Debugger.log, Nat.add_assoc]
    · have heq : offset = count := by omega
      subst heq
      refine ⟨d, ?_, rfl, rfl⟩
      simp [ReadBytes.loop, Target.bytes, ← hlen]

theorem ReadBytes_paused (d : Debugger) (lo : Nat) (buffer : List Byte)
    (hP : d.m_uStatus = ProcessStatus.Paused)
    (hc : buffer.length % WORD_SIZE = 0) (hhi : lo + buffer.length < WORD_MOD)
    (hr : ∀ o, o < buffer.length → o % WORD_SIZE = 0 → d.target.readable (lo + o) = true) :
    ∃ d1, d.ReadBytes lo buffer buffer.length =
        (.ok buffer.length, d.target.bytes lo buffer.length, d1) ∧
      d1.target = d.target ∧ d1.m_uStatus = d.m_uStatus := by
  obtain ⟨d1, h1, ht, hs⟩ := ReadBytes_loop_paused lo buffer.length hc hhi
    (buffer.length / WORD_SIZE) d 0 buffer hP hr rfl (Nat.zero_le _) rfl (by simp)
  refine ⟨d1, ?_, ht, hs⟩
  unfold Debugger.ReadBytes
  simp only [hc, ne_eq, not_true_eq_false, if_false, h1]
  simp

theorem MemoryAccessor_Read_paused (d : Debugger) (lo : Nat) (buffer : List Byte)
    (hP : d.m_uStatus = ProcessStatus.Paused) (hlo : lo % WORD_SIZE = 0)
    (hc : buffer.length % WORD_SIZE = 0) (hhi : lo + buffer.length < WORD_MOD)
    (hr : ∀ o, o < buffer.length → o % WORD_SIZE = 0 → d.target.readable (lo + o) = true) :
    ∃ d1, MemoryAccessor.Read d lo buffer =
        (.ok (), d.target.bytes lo buffer.length, d1) ∧
      d1.target = d.target ∧ d1.m_uStatus = d.m_uStatus := by
  obtain ⟨d1, h1, ht, hs⟩ := ReadBytes_paused d lo buffer hP hc hhi hr
  refine ⟨d1, ?_, ht, hs⟩
  unfold MemoryAccessor.Read
  simp [hlo, hc, h1]

theorem resize_length (v : List Byte) (n : Nat) : (resize v n).length = n := by
  simp only [resize, List.length_append, List.length_take, List.length_replicate]
  omega

theorem bytes_drop_take (t : Target) (lo k size count : Nat) (h : k + size ≤ count) :
    ((t.bytes lo count).drop k).take size = t.bytes (lo + k) size := by
  obtain ⟨r, rfl⟩ : ∃ r, count = k + (size + r) := ⟨count - k - size, by omega⟩
  rw [bytes_append, bytes_append]
  rw [List.drop_append_of_le_length (by simp [bytes_length]),
    List.drop_of_length_le (by simp [bytes_length]), List.nil_append,
    List.take_append_of_le_length (by simp [bytes_length]),
    List.take_of_length_le (by simp [bytes_length])]

theorem readable_of_mapped (t : Target) (a : Nat) (h8 : a + WORD_SIZE ≤ WORD_MOD)
    (hm : ∀ i, i < WORD_SIZE → t.mapped (a + i) = true) : t.readable a = true := by
  unfold Target.readable
  simp only [Bool.and_eq_true, decide_eq_true_eq, List.all_eq_true, List.mem_range]
  exact ⟨h8, hm⟩

theorem Read_no_assert (d : Debugger) (a : Nat) :
    (d.Read a).1 ≠ .throw .AssertionFailed := by
  unfold Debugger.Read
  split
  · simp
  · simp only []
    split <;> simp

theorem ReadBytes_loop_no_assert (lo count : Nat) (fuel : Nat) :
    ∀ (d : Debugger) (offset : Nat) (buffer : List Byte),
      (ReadBytes.loop lo count fuel d offset buffer).1 ≠ .throw .AssertionFailed := by
  induction fuel with
  | zero =>
    intro d offset buffer
    unfold ReadBytes.loop
    split <;> simp
  | succ fuel ih =>
    intro d offset buffer
    have hR := Read_no_assert d ((lo + offset) % WORD_MOD)
    unfold ReadBytes.loop
    split
    · split
      · exact ih _ _ _
      · rename_i e d1 heq
        rw [heq] at hR
        simpa using hR
      · simp
    · simp

theorem MemoryAccessor_Read_no_assert (d : Debugger) (lo : Nat) (buffer : List Byte)
    (hlo : lo % WORD_SIZE = 0) (hc : buffer.length % WORD_SIZE = 0) :
    (MemoryAccessor.Read d lo buffer).1 ≠ .throw .AssertionFailed := by
  have hL := ReadBytes_loop_no_assert lo buffer.length (buffer.length / WORD_SIZE) d 0 buffer
  unfold MemoryAccessor.Read Debugger.ReadBytes
  simp only [hlo, hc, ne_eq, not_true_eq_false, if_false]
  split
  · rename_i sz out1 d1 heq
    split at heq
    · simp only [Prod.mk.injEq, Outcome.ok.injEq] at heq
      simp [heq.1]
    · simp at heq
    · simp at heq
  · rename_i e out1 d1 heq
    split at heq
    · simp at heq
    · rename_i e1 b1 d2 heq1
      rw [heq1] at hL
      simp only [Prod.mk.injEq, Outcome.throw.injEq] at heq
      rw [← heq.1]
      simpa using hL
    · simp at heq
  · simp

/-- C7 (typed struct read): for every address and every object size
`size ≥ 1` with `address + size + 7` not overflowing the machine word,
`MemoryAccessorBase::Read(out, address)` issues exactly one raw read, at
`RoundDown(address)`, a multiple of 8, of length
`RoundUp(address + size) - RoundDown(address)`, a multiple of 8; the window
contains `[address, address + size)`; none of the assertions fails (the three
of the typed read hold, and so do those of the raw read).  When the target is
paused and the bytes of the window are mapped, the call returns normally,
`out` receives exactly the `size` bytes of target memory at
`address .. address + size - 1`, and the target is unchanged. -/
theorem typed_read (m : MemoryAccessor) (size address : Nat)
    (hs : 1 ≤ size) (hov : address + size + 7 < WORD_MOD) :
    RoundDown address % WORD_SIZE = 0 ∧
    (RoundUp (address + size) - RoundDown address) % WORD_SIZE = 0 ∧
    RoundDown address ≤ address ∧
    address + size ≤ RoundUp (address + size) ∧
    size ≤ RoundUp (address + size) - RoundDown address ∧
    (m.ReadT size address).2.rawReads = m.rawReads ++
      [(RoundDown address, RoundUp (address + size) - RoundDown address)] ∧
    (m.ReadT size address).1 ≠ .throw .AssertionFailed ∧
    (m.m_pDebugger.m_uStatus = ProcessStatus.Paused →
      (∀ a, RoundDown address ≤ a → a < RoundUp (address + size) →
        m.m_pDebugger.target.mapped a = true) →
      (m.ReadT size address).1 = .ok (m.m_pDebugger.target.bytes address size) ∧
      (m.ReadT size address).2.m_pDebugger.target = m.m_pDebugger.target) := by
  have hM : WORD_MOD = 18446744073709551616 := by norm_num [WORD_MOD]
  have hlo : RoundDown address = address - address % 8 := RoundDown_eq address (by omega)
  have hhi : RoundUp (address + size) = address + size + 7 - (address + size + 7) % 8 :=
    RoundUp_eq (address + size) hov
  have hmodA : (address + size) % WORD_MOD = address + size := Nat.mod_eq_of_lt (by omega)
  have hW : WORD_SIZE = 8 := rfl
  generalize hlo' : RoundDown address = lo at *
  generalize hhi' : RoundUp (address + size) = hi at *
  have hsub : (hi + WORD_MOD - lo) % WORD_MOD = hi - lo := by
    have : hi + WORD_MOD - lo = hi - lo + WORD_MOD := by omega
    rw [this, Nat.add_mod_right]
    exact Nat.mod_eq_of_lt (by omega)
  have hlen := resize_length m.m_stBuffer (hi - lo)
  have hlo8 : lo % WORD_SIZE = 0 := by rw [hW]; omega
  have hlen8 : (resize m.m_stBuffer (hi - lo)).length % WORD_SIZE = 0 := by
    rw [hlen, hW]; omega
  have hstep : m.ReadT size address =
      match MemoryAccessor.Read m.m_pDebugger lo (resize m.m_stBuffer (hi - lo)) with
      | (.ok (), buffer1, d1) =>
        (.ok (writeAt (List.replicate size (0 : Byte)) 0
            ((buffer1.drop (address - lo)).take size)),
          { m_pDebugger := d1, m_stBuffer := buffer1,
            rawReads := m.rawReads ++ [(lo, hi - lo)] })
      | (.throw e, buffer1, d1) =>
        (.throw e, { m_pDebugger := d1, m_stBuffer := buffer1,
                     rawReads := m.rawReads ++ [(lo, hi - lo)] })
      | (.outOfFuel, buffer1, d1) =>
        (.outOfFuel, { m_pDebugger := d1, m_stBuffer := buffer1,
                       rawReads := m.rawReads ++ [(lo, hi - lo)] }) := by
    unfold MemoryAccessor.ReadT
    simp only [hlo', hmodA, hhi', hsub]
    rw [if_neg (by omega), if_neg (by omega), if_neg (by rw [hlen]; omega)]
    simp only [hlen]
  have hna := MemoryAccessor_Read_no_assert m.m_pDebugger lo
    (resize m.m_stBuffer (hi - lo)) hlo8 hlen8
  refine ⟨hlo8, by rw [hW]; omega, by omega, by omega, by omega, ?_, ?_, ?_⟩
  · rw [hstep]
    split <;> rfl
  · rw [hstep]
    split
    · simp
    · rename_i e b1 d1 heq
      rw [heq] at hna
      simpa using hna
    · simp
  · intro hP hmap
    have hr : ∀ o, o < (resize m.m_stBuffer (hi - lo)).length → o % WORD_SIZE = 0 →
        m.m_pDebugger.target.readable (lo + o) = true := by
      intro o ho ho8
      rw [hlen] at ho
      rw [hW] at ho8
      apply readable_of_mapped
      · rw [hW]; omega
      · intro i hi8
        rw [hW] at hi8
        exact hmap _ (by omega) (by omega)
    obtain ⟨d1, h1, ht, _⟩ := MemoryAccessor_Read_paused m.m_pDebugger lo
      (resize m.m_stBuffer (hi - lo)) hP hlo8 hlen8 (by rw [hlen]; omega) hr
    rw [hstep, h1]
    simp only [hlen]
    rw [bytes_drop_take _ _ _ _ _ (by omega)]
    have hadd : lo + (address - lo) = address := by omega
    rw [hadd]
    exact ⟨by simp [writeAt, bytes_length], ht⟩

theorem typed_read_witness :
    1 ≤ 5 ∧ 30 + 5 + 7 < WORD_MOD ∧
    exampleAccessor.m_pDebugger.m_uStatus = ProcessStatus.Paused ∧
    (exampleAccessor.ReadT 5 30).1 = .ok [0x90, 0x90, 0x61, 0x62, 0x63] ∧
    (exampleAccessor.ReadT 5 30).2.rawReads = [(24, 16)] :=
  have hmap : ∀ a, RoundDown 30 ≤ a → a < RoundUp (30 + 5) →
      exampleAccessor.m_pDebugger.target.mapped a = true := by
    intro a _ h2
    have h40 : RoundUp (30 + 5) = 40 := by decide
    rw [h40] at h2
    simp only [exampleAccessor, examplePaused, exampleTarget, decide_eq_true_eq]
    omega
  ⟨by decide, by decide, rfl,
    ((typed_read exampleAccessor 5 30 (by decide) (by decide)).2.2.2.2.2.2.2 rfl hmap).1,
    (typed_read exampleAccessor 5 30 (by decide) (by decide)).2.2.2.2.2.1⟩

/-! ## Reading a C string -/

/-- C8 fails on the code: with the C string `"abc"` at address 32 of a paused
target, `ReadString(32, 1)` returns the three characters `"abc"`, more than
`maxlen = 1`.  The terminator is met inside the first word and the function
returns before the final `resize`. -/
theorem ReadString_exceeds_maxlen :
    examplePaused.target.bytes 32 4 = [0x61, 0x62, 0x63, 0] ∧
    (examplePaused.ReadString 32 1).1 = .ok [0x61, 0x62, 0x63] ∧
    ¬ ([0x61, 0x62, 0x63] : List Byte).length ≤ 1 := by
  refine ⟨by decide, by decide, by decide⟩

/-! ## The short-source formatter -/


theorem cstring_append_NUL (s rest : List Char) (h : NUL ∉ s) :
    cstring (s ++ NUL :: rest) = s := by
  induction s with
  | nil => simp [cstring]
  | cons c s ih =>
    have hc : c ≠ NUL := fun e => h (by simp [e])
    have hs : NUL ∉ s := fun e => h (by simp [e])
    have := ih hs
    simp only [cstring, ne_eq, decide_not] at this
    simp [cstring, hc, this]

theorem cstring_c_str (s : List Char) (h : NUL ∉ s) : cstring (c_str s) = s :=
  cstring_append_NUL s [] h

theorem strlen_c_str (s : List Char) (h : NUL ∉ s) : strlen (c_str s) = s.length := by
  rw [strlen, cstring_c_str s h]

theorem writeAt_zero {α : Type} (buf src : List α) :
    writeAt buf 0 src = src ++ buf.drop src.length := by
  simp [writeAt]

theorem writeAt_append_left {α : Type} (p r src : List α) (n : Nat) (hn : n = p.length) :
    writeAt (p ++ r) n src = (p ++ src) ++ r.drop src.length := by
  subst hn
  simp [writeAt, List.drop_append]

theorem strlen_RETS : strlen RETS = 3 := by decide
theorem strlen_PRE : strlen PRE = 9 := by decide
theorem strlen_POS : strlen POS = 2 := by decide

/-- C9 (amended): for every source `@X` longer than 60 characters (a C
string: no NUL inside, its length fits a `size_t`), whatever `short_src` held
before, `luaO_chunkid` with `bufflen = 60` yields the string `"..."` followed
by the last 56 characters of `X`: it begins with `"..."`, ends with the last
56 characters of the path, and has 59 characters (the 57 bytes copied after
`"..."` include the terminator). -/
theorem chunkid_long_file (buf0 X : List Char) (hN : NUL ∉ X) (hlen : 60 ≤ X.length)
    (hsz : X.length + 1 < WORD_MOD) :
    short_src buf0 ('@' :: X) = ['.', '.', '.'] ++ X.drop (X.length - 56) ∧
    ['.', '.', '.'] <+: short_src buf0 ('@' :: X) ∧
    X.drop (X.length - 56) <:+ short_src buf0 ('@' :: X) ∧
    (short_src buf0 ('@' :: X)).length = 59 := by
  have hM : WORD_MOD = 18446744073709551616 := by norm_num [WORD_MOD]
  have hNs : NUL ∉ '@' :: X := by
    intro h
    rcases List.mem_cons.mp h with h | h
    · exact absurd h (by decide)
    · exact hN h
  have hl : strlen (c_str ('@' :: X)) = X.length + 1 := by
    rw [strlen_c_str _ hNs]; rfl
  have hmain : short_src buf0 ('@' :: X) = ['.', '.', '.'] ++ X.drop (X.length - 56) := by
    have h1 : (LUA_IDSIZE + WORD_MOD - 3) % WORD_MOD = 57 := by decide
    have h2 : (1 + (X.length + 1) + WORD_MOD - 57) % WORD_MOD = X.length - 55 := by
      have : 1 + (X.length + 1) + WORD_MOD - 57 = X.length - 55 + WORD_MOD := by omega
      rw [this, Nat.add_mod_right]
      exact Nat.mod_eq_of_lt (by omega)
    have hhead : (c_str ('@' :: X)).head? = some '@' := rfl
    have hne : ¬ (some '@' = some '=') := by decide
    have hnle : ¬ (X.length + 1 ≤ LUA_IDSIZE) := by
      simp only [LUA_IDSIZE]; omega
    have hdrop : (c_str ('@' :: X)).drop (X.length - 55) =
        X.drop (X.length - 56) ++ [NUL] := by
      obtain ⟨k, hk⟩ : ∃ k, X.length - 55 = k + 1 := ⟨X.length - 56, by omega⟩
      have hk2 : X.length - 56 = k := by omega
      rw [hk, hk2]
      simp only [c_str, List.cons_append, List.drop_succ_cons]
      rw [List.drop_append_of_le_length (by omega)]
    have htake : (X.drop (X.length - 56) ++ [NUL]).take 57 = X.drop (X.length - 56) ++ [NUL] := by
      apply List.take_of_length_le
      simp only [List.length_append, List.length_drop, List.length_singleton]
      omega
    unfold short_src luaO_chunkid
    simp only [hl, hhead, hne, if_false, if_true, hnle, strlen_RETS, h1, h2, hdrop,
      memcpyOut, addstr, htake]
    rw [writeAt_zero]
    have hr : RETS.take 3 = ['.', '.', '.'] := by decide
    rw [hr, writeAt_append_left _ _ _ _ (by rfl)]
    rw [← List.append_assoc, List.append_assoc _ [NUL], List.singleton_append]
    apply cstring_append_NUL
    intro h
    rcases List.mem_append.mp h with h | h
    · exact absurd h (by decide)
    · exact hN (List.mem_of_mem_drop h)
  rw [hmain]
  refine ⟨rfl, ⟨_, rfl⟩, ⟨_, rfl⟩, ?_⟩
  simp only [List.length_append, List.length_drop, List.length_cons, List.length_nil]
  omega

theorem chunkid_long_file_witness :
    NUL ∉ exampleLongPath ∧ 60 ≤ exampleLongPath.length ∧
    exampleLongPath.length + 1 < WORD_MOD ∧
    short_src exampleShortSrc exampleLongFile =
      "...my/game/server/lua/scripts/modules/battle/skill/file.lua".toList :=
  ⟨by decide, by decide, by decide,
    (chunkid_long_file exampleShortSrc exampleLongPath (by decide) (by decide)
      (by decide)).1⟩

/-- C9, as stated, fails: for the 80 character source `exampleLongFile`,
which starts with `@`, `short_src` begins with `"..."` but does not end with
the last 57 characters of the path; it ends with the last 56. -/
theorem chunkid_long_file_counterexample :
    exampleLongFile.head? = some '@' ∧ exampleLongFile.length = 80 ∧
    short_src exampleShortSrc exampleLongFile =
      "...my/game/server/lua/scripts/modules/battle/skill/file.lua".toList ∧
    exampleLongPath.drop (exampleLongPath.length - 57) =
      "/my/game/server/lua/scripts/modules/battle/skill/file.lua".toList ∧
    ¬ (exampleLongPath.drop (exampleLongPath.length - 57) <:+
        short_src exampleShortSrc exampleLongFile) := by
  refine ⟨by decide, by decide, by decide, by decide, by decide⟩

/-- C10, as stated, fails: the one-line source `exampleChunk` has 51 ≤ 60
characters and starts with neither `=` nor `@`, yet `short_src` is not
`[string "S"]`: the source is cut to 45 characters and `"..."` is appended. -/
theorem chunkid_short_counterexample :
    exampleChunk.length = 51 ∧
    short_src exampleShortSrc exampleChunk =
      "[string \"local p = require(\"profiler\"); p.start(10); p...\"]".toList ∧
    short_src exampleShortSrc exampleChunk ≠
      "[string \"".toList ++ exampleChunk ++ "\"]".toList := by
  refine ⟨by decide, by decide, by decide⟩

/-- C10 (amended): for every source of at most 60 characters (a C string: no
NUL inside), whatever `short_src` held before, `luaO_chunkid` with
`bufflen = 60` returns exactly `X` for `=X` and for `@X`; for a source `S`
that starts with neither `=` nor `@` it returns exactly `[string "S"]` when
`S` has fewer than 45 characters and contains no newline. -/
theorem chunkid_short (buf0 source : List Char) (hN : NUL ∉ source)
    (hlen : source.length ≤ 60) :
    (∀ X, source = '=' :: X → short_src buf0 source = X) ∧
    (∀ X, source = '@' :: X → short_src buf0 source = X) ∧
    (source.head? ≠ some '=' → source.head? ≠ some '@' → source.length < 45 →
      '\n' ∉ source →
      short_src buf0 source =
        ['[', 's', 't', 'r', 'i', 'n', 'g', ' ', '"'] ++ source ++ ['"', ']']) := by
  have hl : strlen (c_str source) = source.length := strlen_c_str _ hN
  refine ⟨?_, ?_, ?_⟩
  · intro X hX
    subst hX
    have hNX : NUL ∉ X := fun h => hN (List.mem_cons_of_mem _ h)
    have hhead : (c_str ('=' :: X)).head? = some '=' := rfl
    have hle : X.length + 1 ≤ LUA_IDSIZE := by simpa [LUA_IDSIZE] using hlen
    have hl2 : strlen (c_str ('=' :: X)) = X.length + 1 := by rw [hl]; rfl
    have hdrop : ((c_str ('=' :: X)).drop 1).take (X.length + 1) = X ++ [NUL] := by
      simp [c_str]
    unfold short_src luaO_chunkid
    simp only [hl2, hhead, if_true, hle, memcpyOut, hdrop]
    rw [writeAt_zero, List.append_assoc, List.singleton_append]
    exact cstring_append_NUL _ _ hNX
  · intro X hX
    subst hX
    have hNX : NUL ∉ X := fun h => hN (List.mem_cons_of_mem _ h)
    have hhead : (c_str ('@' :: X)).head? = some '@' := rfl
    have hne : ¬ (some '@' = some '=') := by decide
    have hle : X.length + 1 ≤ LUA_IDSIZE := by simpa [LUA_IDSIZE] using hlen
    have hl2 : strlen (c_str ('@' :: X)) = X.length + 1 := by rw [hl]; rfl
    have hdrop : ((c_str ('@' :: X)).drop 1).take (X.length + 1) = X ++ [NUL] := by
      simp [c_str]
    unfold short_src luaO_chunkid
    simp only [hl2, hhead, hne, if_false, if_true, hle, memcpyOut, hdrop]
    rw [writeAt_zero, List.append_assoc, List.singleton_append]
    exact cstring_append_NUL _ _ hNX
  · intro h1 h2 h45 hnl
    have hh1 : ¬ ((c_str source).head? = some '=') := by
      cases source with
      | nil => simp [c_str, NUL]
      | cons c s => simpa [c_str] using h1
    have hh2 : ¬ ((c_str source).head? = some '@') := by
      cases source with
      | nil => simp [c_str, NUL]
      | cons c s => simpa [c_str] using h2
    have hstrchr : strchr (c_str source) '\n' = none := by
      unfold strchr
      rw [hl, cstring_c_str _ hN, List.indexOf_eq_length.mpr hnl]
      simp
    have hb : (LUA_IDSIZE + WORD_MOD - (9 + 3 + 2 + 1)) % WORD_MOD = 45 := by decide
    have htake : (c_str source).take source.length = source := by
      simp [c_str]
    have hp : PRE.take 9 = ['[', 's', 't', 'r', 'i', 'n', 'g', ' ', '"'] := by decide
    have hq : POS.take (2 + 1) = ['"', ']', NUL] := by decide
    unfold short_src luaO_chunkid
    simp only [hl, hh1, hh2, if_false, hstrchr, strlen_PRE, strlen_RETS, strlen_POS, hb, h45,
      and_self, if_true, memcpyOut, addstr, htake, hp, hq]
    rw [writeAt_zero, writeAt_append_left _ _ _ _ (by rfl),
      writeAt_append_left _ _ _ _ (by simp; omega)]
    have : (['[', 's', 't', 'r', 'i', 'n', 'g', ' ', '"'] ++ source ++ ['"', ']', NUL]) =
        (['[', 's', 't', 'r', 'i', 'n', 'g', ' ', '"'] ++ source ++ ['"', ']']) ++ [NUL] := by
      simp
    rw [this, List.append_assoc _ [NUL], List.singleton_append]
    apply cstring_append_NUL
    intro h
    simp only [List.mem_append, List.mem_cons, List.mem_singleton, List.not_mem_nil,
      or_false] at h
    rcases h with (h | h) | h
    · revert h; decide
    · exact hN h
    · revert h; decide

theorem chunkid_short_witness :
    NUL ∉ "print('hello')".toList ∧ "print('hello')".toList.length ≤ 60 ∧
    short_src exampleShortSrc "=mysrc".toList = "mysrc".toList ∧
    short_src exampleShortSrc "print('hello')".toList =
      "[string \"print('hello')\"]".toList :=
  ⟨by decide, by decide,
    (chunkid_short exampleShortSrc "=mysrc".toList (by decide) (by decide)).1
      "mysrc".toList rfl,
    (chunkid_short exampleShortSrc "print('hello')".toList (by decide) (by decide)).2.2
      (by decide) (by decide) (by decide) (by decide)⟩

/-! ## The short-source formatter: bytes written -/


theorem take_indexOf_eq_takeWhile (c : Char) (l : List Char) :
    l.take (l.indexOf c) = l.takeWhile (fun x => x ≠ c) := by
  induction l with
  | nil => simp
  | cons a l ih =>
    by_cases h : a = c
    · subst h
      simp
    · have h2 : ¬ (a == c) = true := by simpa using h
      simp only [List.indexOf_cons, h2, cond_false, List.take_succ_cons, ih, ne_eq,
        decide_not, List.takeWhile_cons, h, decide_False, Bool.not_false, if_true]

theorem cstring_split (body tail : List Char) (hN : NUL ∉ body) :
    cstring (body ++ NUL :: tail) = body := cstring_append_NUL body tail hN

theorem strchr_none (body tail : List Char) (hN : NUL ∉ body) (c : Char) (hc : c ∉ body) :
    strchr (body ++ NUL :: tail) c = none := by
  unfold strchr strlen
  rw [cstring_split body tail hN, List.indexOf_eq_length.mpr hc]
  simp

theorem strchr_some (body tail : List Char) (hN : NUL ∉ body) (c : Char) (hc : c ∈ body) :
    strchr (body ++ NUL :: tail) c = some (body.indexOf c) := by
  unfold strchr strlen
  rw [cstring_split body tail hN]
  simp [List.indexOf_lt_length.mpr hc]

/-- The bytes written by `luaO_chunkid` for a source that starts with neither
`=` nor `@`. -/
theorem chunkid_else_written (buf0 body tail : List Char) (hN : NUL ∉ body)
    (h1 : (body ++ NUL :: tail).head? ≠ some '=')
    (h2 : (body ++ NUL :: tail).head? ≠ some '@') :
    (luaO_chunkid { buf := buf0, pos := 0 } (body ++ NUL :: tail) LUA_IDSIZE).buf =
      (if body.length < 45 ∧ '\n' ∉ body then
        ['[', 's', 't', 'r', 'i', 'n', 'g', ' ', '"'] ++ body ++ ['"', ']', NUL]
      else
        ['[', 's', 't', 'r', 'i', 'n', 'g', ' ', '"'] ++
          (body.takeWhile (fun x => x ≠ '\n')).take 45 ++ ['.', '.', '.'] ++ ['"', ']', NUL]) ++
      buf0.drop (if body.length < 45 ∧ '\n' ∉ body then 9 + body.length + 3
        else 9 + ((body.takeWhile (fun x => x ≠ '\n')).take 45).length + 3 + 3) := by
  have hl : strlen (body ++ NUL :: tail) = body.length := by
    rw [strlen, cstring_split body tail hN]
  have hb : (LUA_IDSIZE + WORD_MOD - (9 + 3 + 2 + 1)) % WORD_MOD = 45 := by decide
  have hp : PRE.take 9 = ['[', 's', 't', 'r', 'i', 'n', 'g', ' ', '"'] := by decide
  have hq : POS.take (2 + 1) = ['"', ']', NUL] := by decide
  have hr : RETS.take 3 = ['.', '.', '.'] := by decide
  have htk : ∀ n, n ≤ body.length → (body ++ NUL :: tail).take n = body.take n := by
    intro n hn
    rw [List.take_append_of_le_length hn]
  by_cases hnl : '\n' ∈ body
  · have hs := strchr_some body tail hN '\n' hnl
    have hidx : body.indexOf '\n' < body.length := List.indexOf_lt_length.mpr hnl
    have hcond : ¬ (body.length < 45 ∧ '\n' ∉ body) := fun h => h.2 hnl
    have hcond2 : ¬ (body.length < 45 ∧ (some (body.indexOf '\n') : Option Nat) = none) := by
      simp
    rw [if_neg hcond, if_neg hcond]
    unfold luaO_chunkid
    simp only [hl, h1, h2, if_false, hs, strlen_PRE, strlen_RETS, strlen_POS, hb, hcond2,
      memcpyOut, addstr, hp, hq, hr]
    have hmin : (body ++ NUL :: tail).take
        (if body.indexOf '\n' > 45 then 45 else body.indexOf '\n') =
        (body.takeWhile (fun x => x ≠ '\n')).take 45 := by
      rw [← take_indexOf_eq_takeWhile, List.take_take]
      split
      · rw [htk _ (by omega), Nat.min_eq_left (by omega)]
      · rw [htk _ (by omega), Nat.min_eq_right (by omega)]
    have hlen : ((body.takeWhile (fun x => x ≠ '\n')).take 45).length =
        (if body.indexOf '\n' > 45 then 45 else body.indexOf '\n') := by
      rw [← hmin, htk _ (by split <;> omega), List.length_take]
      split <;> omega
    rw [hmin, writeAt_zero, writeAt_append_left _ _ _ _ (by rfl),
      writeAt_append_left _ _ _ _ (by
        simp only [List.length_append, List.length_cons, List.length_nil, hlen]),
      writeAt_append_left _ _ _ _ (by
        simp only [List.length_append, List.length_cons, List.length_nil, hlen])]
    simp only [List.drop_drop, List.append_assoc, List.length_cons, List.length_nil, hlen]
  · have hs := strchr_none body tail hN '\n' hnl
    have htw : body.takeWhile (fun x => x ≠ '\n') = body := by
      rw [← take_indexOf_eq_takeWhile, List.indexOf_eq_length.mpr hnl, List.take_length]
    by_cases h45 : body.length < 45
    · have hcond : body.length < 45 ∧ '\n' ∉ body := ⟨h45, hnl⟩
      rw [if_pos hcond, if_pos hcond]
      unfold luaO_chunkid
      simp only [hl, h1, h2, if_false, hs, strlen_PRE, strlen_RETS, strlen_POS, hb, h45,
        and_self, if_true, memcpyOut, addstr, hp, hq]
      rw [htk _ (Nat.le_refl _), List.take_length, writeAt_zero,
        writeAt_append_left _ _ _ _ (by rfl),
        writeAt_append_left _ _ _ _ (by
          simp only [List.length_append, List.length_cons, List.length_nil])]
      simp only [List.drop_drop, List.append_assoc, List.length_cons, List.length_nil]
    · have hcond : ¬ (body.length < 45 ∧ '\n' ∉ body) := fun h => h45 h.1
      rw [if_neg hcond, if_neg hcond, htw]
      unfold luaO_chunkid
      simp only [hl, h1, h2, if_false, hs, strlen_PRE, strlen_RETS, strlen_POS, hb, h45,
        false_and, memcpyOut, addstr, hp, hq, hr]
      have hgt : (if body.length > 45 then 45 else body.length) = 45 := by
        split <;> omega
      rw [hgt, htk _ (by omega)]
      have hlen : (body.take 45).length = 45 := by
        rw [List.length_take]; omega
      rw [writeAt_zero, writeAt_append_left _ _ _ _ (by rfl),
        writeAt_append_left _ _ _ _ (by
          simp only [List.length_append, List.length_cons, List.length_nil, hlen]),
        writeAt_append_left _ _ _ _ (by
          simp only [List.length_append, List.length_cons, List.length_nil, hlen])]
      simp only [List.drop_drop, List.append_assoc, List.length_cons, List.length_nil, hlen]
  

theorem c_str_split (s : List Char) :
    ∃ body tail, c_str s = body ++ NUL :: tail ∧ NUL ∉ body ∧ body.length ≤ s.length ∧
      (NUL ∉ s → body = s ∧ tail = []) := by
  induction s with
  | nil => exact ⟨[], [], rfl, by simp, by simp, fun _ => ⟨rfl, rfl⟩⟩
  | cons c s ih =>
    obtain ⟨body, tail, h, hN, hlen, hs⟩ := ih
    by_cases hc : c = NUL
    · subst hc
      exact ⟨[], s ++ [NUL], by simp [c_str], by simp, by simp, fun h => absurd h (by simp)⟩
    · refine ⟨c :: body, tail, ?_, ?_, ?_, ?_⟩
      · simp only [c_str, List.cons_append] at h ⊢
        rw [h]
      · intro hm
        rcases List.mem_cons.mp hm with h1 | h1
        · exact hc h1.symm
        · exact hN h1
      · simpa using hlen
      · intro hm
        have hm2 : NUL ∉ s := fun h1 => hm (List.mem_cons_of_mem _ h1)
        obtain ⟨hb, ht⟩ := hs hm2
        exact ⟨by rw [hb], ht⟩

/-- The bytes written by `luaO_chunkid` for a source `=X`. -/
theorem chunkid_literal_written (buf0 X tail : List Char) (hN : NUL ∉ X) :
    (luaO_chunkid { buf := buf0, pos := 0 } ('=' :: X ++ NUL :: tail) LUA_IDSIZE).buf =
      (if X.length + 1 ≤ 60 then X else X.take 59) ++
        NUL :: buf0.drop ((if X.length + 1 ≤ 60 then X else X.take 59).length + 1) := by
  have hNb : NUL ∉ '=' :: X := by
    intro h
    rcases List.mem_cons.mp h with h | h
    · exact absurd h (by decide)
    · exact hN h
  have hl : strlen ('=' :: X ++ NUL :: tail) = X.length + 1 := by
    rw [strlen, cstring_split _ tail hNb]; rfl
  have hhead : ('=' :: X ++ NUL :: tail).head? = some '=' := rfl
  have hdrop : ('=' :: X ++ NUL :: tail).drop 1 = X ++ NUL :: tail := rfl
  by_cases hle : X.length + 1 ≤ 60
  · have hle2 : X.length + 1 ≤ LUA_IDSIZE := hle
    have htake : (X ++ NUL :: tail).take (X.length + 1) = X ++ [NUL] := by
      rw [List.take_append_eq_append_take]
      simp
    rw [if_pos hle]
    unfold luaO_chunkid
    simp only [hl, hhead, if_true, hle2, memcpyOut, hdrop, htake]
    rw [writeAt_zero]
    simp
  · have hle2 : ¬ X.length + 1 ≤ LUA_IDSIZE := hle
    have h59 : (LUA_IDSIZE + WORD_MOD - 1) % WORD_MOD = 59 := by decide
    have htake : (X ++ NUL :: tail).take 59 = X.take 59 := by
      rw [List.take_append_of_le_length (by omega)]
    have hlen : (X.take 59).length = 59 := by
      rw [List.length_take]; omega
    rw [if_neg hle]
    unfold luaO_chunkid
    simp only [hl, hhead, if_true, hle2, if_false, memcpyOut, addstr, hdrop, h59, htake]
    rw [writeAt_zero, writeAt_append_left _ _ _ _ (by rw [hlen])]
    simp [hlen]

/-- The bytes written by `luaO_chunkid` for a source `@X`. -/
theorem chunkid_file_written (buf0 X tail : List Char) (hN : NUL ∉ X)
    (hsz : X.length + 1 < WORD_MOD) :
    (luaO_chunkid { buf := buf0, pos := 0 } ('@' :: X ++ NUL :: tail) LUA_IDSIZE).buf =
      (if X.length + 1 ≤ 60 then X else ['.', '.', '.'] ++ X.drop (X.length - 56)) ++
        NUL :: buf0.drop
          ((if X.length + 1 ≤ 60 then X else ['.', '.', '.'] ++ X.drop (X.length - 56)).length
            + 1) := by
  have hM : WORD_MOD = 18446744073709551616 := by norm_num [WORD_MOD]
  have hNb : NUL ∉ '@' :: X := by
    intro h
    rcases List.mem_cons.mp h with h | h
    · exact absurd h (by decide)
    · exact hN h
  have hl : strlen ('@' :: X ++ NUL :: tail) = X.length + 1 := by
    rw [strlen, cstring_split _ tail hNb]; rfl
  have hhead : ('@' :: X ++ NUL :: tail).head? = some '@' := rfl
  have hne : ¬ (some '@' = some '=') := by decide
  by_cases hle : X.length + 1 ≤ 60
  · have hle2 : X.length + 1 ≤ LUA_IDSIZE := hle
    have hdrop : ('@' :: X ++ NUL :: tail).drop 1 = X ++ NUL :: tail := rfl
    have htake : (X ++ NUL :: tail).take (X.length + 1) = X ++ [NUL] := by
      rw [List.take_append_eq_append_take]
      simp
    rw [if_pos hle]
    unfold luaO_chunkid
    simp only [hl, hhead, hne, if_false, if_true, hle2, memcpyOut, hdrop, htake]
    rw [writeAt_zero]
    simp
  · have hle2 : ¬ X.length + 1 ≤ LUA_IDSIZE := hle
    have h1 : (LUA_IDSIZE + WORD_MOD - 3) % WORD_MOD = 57 := by decide
    have h2 : (1 + (X.length + 1) + WORD_MOD - 57) % WORD_MOD = X.length - 55 := by
      have : 1 + (X.length + 1) + WORD_MOD - 57 = X.length - 55 + WORD_MOD := by omega
      rw [this, Nat.add_mod_right]
      exact Nat.mod_eq_of_lt (by omega)
    have hdrop : ('@' :: X ++ NUL :: tail).drop (X.length - 55) =
        X.drop (X.length - 56) ++ NUL :: tail := by
      obtain ⟨k, hk⟩ : ∃ k, X.length - 55 = k + 1 := ⟨X.length - 56, by omega⟩
      have hk2 : X.length - 56 = k := by omega
      rw [hk, hk2]
      simp only [List.cons_append, List.drop_succ_cons]
      rw [List.drop_append_of_le_length (by omega)]
    have hlen : (X.drop (X.length - 56)).length = 56 := by
      rw [List.length_drop]; omega
    have htake : (X.drop (X.length - 56) ++ NUL :: tail).take 57 =
        X.drop (X.length - 56) ++ [NUL] := by
      rw [List.take_append_eq_append_take, hlen]
      simp [List.take_of_length_le, hlen]
    have hr : RETS.take 3 = ['.', '.', '.'] := by decide
    rw [if_neg hle]
    unfold luaO_chunkid
    simp only [hl, hhead, hne, if_false, hle2, strlen_RETS, h1, h2, hdrop, memcpyOut, addstr,
      htake, hr]
    rw [writeAt_zero, writeAt_append_left _ _ _ _ (by rfl)]
    simp [hlen]

theorem cstring_written (w rest : List Char) (hN : NUL ∉ w) :
    cstring (w ++ NUL :: rest) = w := cstring_append_NUL w rest hN

/-- What `luaO_chunkid` writes into a 60 byte buffer, for every source: a
string `w` of at most 59 characters and its terminator; the bytes after
them are untouched. -/
theorem chunkid_written (buf0 s : List Char) (hs : s.length < WORD_MOD) :
    ∃ w : List Char,
      (luaO_chunkid { buf := buf0, pos := 0 } (c_str s) LUA_IDSIZE).buf =
        w ++ NUL :: buf0.drop (w.length + 1) ∧
      NUL ∉ w ∧ w.length + 1 ≤ LUA_IDSIZE := by
  obtain ⟨body, tail, hcs, hN, hlen, _⟩ := c_str_split s
  rw [hcs]
  have hmemtake : ∀ (l : List Char) (n : Nat), NUL ∉ l → NUL ∉ l.take n :=
    fun l n h hm => h (List.mem_of_mem_take hm)
  have hmemdrop : ∀ (l : List Char) (n : Nat), NUL ∉ l → NUL ∉ l.drop n :=
    fun l n h hm => h (List.mem_of_mem_drop hm)
  by_cases h1 : (body ++ NUL :: tail).head? = some '='
  · obtain ⟨X, rfl⟩ : ∃ X, body = '=' :: X := by
      cases body with
      | nil => simp [NUL] at h1
      | cons c X =>
        simp only [List.cons_append, List.head?_cons, Option.some.injEq] at h1
        exact ⟨X, by rw [h1]⟩
    have hNX : NUL ∉ X := fun h => hN (List.mem_cons_of_mem _ h)
    refine ⟨_, chunkid_literal_written buf0 X tail hNX, ?_, ?_⟩
    · split
      · exact hNX
      · exact hmemtake _ _ hNX
    · simp only [LUA_IDSIZE]
      split
      · omega
      · rw [List.length_take]; omega
  · by_cases h2 : (body ++ NUL :: tail).head? = some '@'
    · obtain ⟨X, rfl⟩ : ∃ X, body = '@' :: X := by
        cases body with
        | nil => simp [NUL] at h2
        | cons c X =>
          simp only [List.cons_append, List.head?_cons, Option.some.injEq] at h2
          exact ⟨X, by rw [h2]⟩
      have hNX : NUL ∉ X := fun h => hN (List.mem_cons_of_mem _ h)
      have hsz : X.length + 1 < WORD_MOD := by
        simp only [List.length_cons] at hlen
        omega
      refine ⟨_, chunkid_file_written buf0 X tail hNX hsz, ?_, ?_⟩
      · split
        · exact hNX
        · intro hm
          rcases List.mem_append.mp hm with h | h
          · exact absurd h (by decide)
          · exact hmemdrop _ _ hNX h
      · simp only [LUA_IDSIZE]
        split
        · omega
        · simp only [List.length_append, List.length_cons, List.length_nil, List.length_drop]
          omega
    · have hw := chunkid_else_written buf0 body tail hN h1 h2
      by_cases hc : body.length < 45 ∧ '\n' ∉ body
      · rw [if_pos hc, if_pos hc] at hw
        refine ⟨['[', 's', 't', 'r', 'i', 'n', 'g', ' ', '"'] ++ body ++ ['"', ']'], ?_, ?_, ?_⟩
        · rw [hw]
          simp only [List.append_assoc, List.length_append, List.length_cons, List.length_nil,
            List.cons_append, List.nil_append]
          repeat (first | rfl | omega | congr 1)
        · intro hm
          simp only [List.mem_append, List.mem_cons, List.mem_singleton, List.not_mem_nil,
            or_false] at hm
          rcases hm with (h | h) | h
          · revert h; decide
          · exact hN h
          · revert h; decide
        · simp only [LUA_IDSIZE, List.length_append, List.length_cons, List.length_nil]
          omega
      · rw [if_neg hc, if_neg hc] at hw
        refine ⟨['[', 's', 't', 'r', 'i', 'n', 'g', ' ', '"'] ++
          (body.takeWhile (fun x => x ≠ '\n')).take 45 ++ ['.', '.', '.'] ++ ['"', ']'],
          ?_, ?_, ?_⟩
        · rw [hw]
          simp only [List.append_assoc, List.length_append, List.length_cons, List.length_nil,
            List.cons_append, List.nil_append]
          repeat (first | rfl | omega | congr 1)
        · intro hm
          simp only [List.mem_append, List.mem_cons, List.mem_singleton, List.not_mem_nil,
            or_false] at hm
          rcases hm with ((h | h) | h) | h
          · revert h; decide
          · exact hN ((List.takeWhile_prefix _).subset (List.mem_of_mem_take h))
          · revert h; decide
          · revert h; decide
        · have h45 : ((body.takeWhile (fun x => x ≠ '\n')).take 45).length ≤ 45 := by
            rw [List.length_take]; omega
          simp only [LUA_IDSIZE, List.length_append, List.length_cons, List.length_nil]
          omega

/-- C11 (buffer bound): for every source string (any first character, any
length that fits a `size_t`, with or without newlines or embedded NUL),
`luaO_chunkid` with `bufflen = LUA_IDSIZE = 60` on a 60 byte `short_src`
writes a string `w` without NUL followed by one terminating NUL, at most 60
bytes in all, at the start of the array and leaves the other bytes as they
were; the array keeps its 60 bytes (nothing is written past its end), and
the resulting `short_src` is `w`, of at most 59 characters. -/
theorem chunkid_buffer_bound (buf0 s : List Char) (hb : buf0.length = LUA_IDSIZE)
    (hs : s.length < WORD_MOD) :
    ∃ w : List Char,
      (luaO_chunkid { buf := buf0, pos := 0 } (c_str s) LUA_IDSIZE).buf =
        w ++ NUL :: buf0.drop (w.length + 1) ∧
      NUL ∉ w ∧ w.length + 1 ≤ LUA_IDSIZE ∧
      (luaO_chunkid { buf := buf0, pos := 0 } (c_str s) LUA_IDSIZE).buf.length = LUA_IDSIZE ∧
      short_src buf0 s = w ∧ (short_src buf0 s).length ≤ 59 := by
  obtain ⟨w, hw, hN, hlen⟩ := chunkid_written buf0 s hs
  have hsrc : short_src buf0 s = w := by
    unfold short_src
    rw [hw]
    exact cstring_written w _ hN
  refine ⟨w, hw, hN, hlen, ?_, hsrc, ?_⟩
  · rw [hw]
    simp only [List.length_append, List.length_cons, List.length_drop, hb]
    omega
  · rw [hsrc]
    simp only [LUA_IDSIZE] at hlen
    omega

theorem chunkid_buffer_bound_witness :
    exampleShortSrc.length = LUA_IDSIZE ∧ exampleLongFile.length < WORD_MOD ∧
    ∃ w : List Char,
      (luaO_chunkid { buf := exampleShortSrc, pos := 0 } (c_str exampleLongFile)
        LUA_IDSIZE).buf = w ++ NUL :: exampleShortSrc.drop (w.length + 1) ∧
      NUL ∉ w ∧ w.length + 1 ≤ LUA_IDSIZE ∧
      (luaO_chunkid { buf := exampleShortSrc, pos := 0 } (c_str exampleLongFile)
        LUA_IDSIZE).buf.length = LUA_IDSIZE ∧
      short_src exampleShortSrc exampleLongFile = w ∧
      (short_src exampleShortSrc exampleLongFile).length ≤ 59 :=
  ⟨by decide, by decide,
    chunkid_buffer_bound exampleShortSrc exampleLongFile (by decide) (by decide)⟩

/-- C12: for every source `S` (a C string: no NUL inside) that starts with
neither `=` nor `@`, whatever `short_src` held before, `luaO_chunkid` with
`bufflen = 60` yields `[string "S"]` when `S` has no newline and fewer than
45 characters, and otherwise `[string "P..."]` where `P` is `S` up to but
excluding its first newline, cut to at most 45 characters. -/
theorem chunkid_string (buf0 S : List Char) (hN : NUL ∉ S)
    (h1 : S.head? ≠ some '=') (h2 : S.head? ≠ some '@') :
    ('\n' ∉ S ∧ S.length < 45 →
      short_src buf0 S = ['[', 's', 't', 'r', 'i', 'n', 'g', ' ', '"'] ++ S ++ ['"', ']']) ∧
    (¬ ('\n' ∉ S ∧ S.length < 45) →
      short_src buf0 S =
        ['[', 's', 't', 'r', 'i', 'n', 'g', ' ', '"'] ++
          (S.takeWhile (fun x => x ≠ '\n')).take 45 ++ ['.', '.', '.'] ++ ['"', ']']) := by
  have hh1 : (S ++ NUL :: []).head? ≠ some '=' := by
    cases S with
    | nil => simp [NUL]
    | cons c s => simpa using h1
  have hh2 : (S ++ NUL :: []).head? ≠ some '@' := by
    cases S with
    | nil => simp [NUL]
    | cons c s => simpa using h2
  have hw := chunkid_else_written buf0 S [] hN hh1 hh2
  have hq : ∀ (w r : List Char), NUL ∉ w → cstring ((w ++ ['"', ']', NUL]) ++ r) =
      w ++ ['"', ']'] := by
    intro w r hw
    have : (w ++ ['"', ']', NUL]) ++ r = (w ++ ['"', ']']) ++ NUL :: r := by simp
    rw [this]
    apply cstring_append_NUL
    intro hm
    rcases List.mem_append.mp hm with h | h
    · exact hw h
    · revert h; decide
  constructor
  · intro hc
    have hc2 : S.length < 45 ∧ '\n' ∉ S := ⟨hc.2, hc.1⟩
    rw [if_pos hc2, if_pos hc2] at hw
    unfold short_src c_str
    rw [hw]
    apply hq
    intro hm
    rcases List.mem_append.mp hm with h | h
    · revert h; decide
    · exact hN h
  · intro hc
    have hc2 : ¬ (S.length < 45 ∧ '\n' ∉ S) := fun h => hc ⟨h.2, h.1⟩
    rw [if_neg hc2, if_neg hc2] at hw
    unfold short_src c_str
    rw [hw]
    apply hq
    intro hm
    simp only [List.mem_append, List.mem_cons, List.mem_singleton, List.not_mem_nil,
      or_false] at hm
    rcases hm with (h | h) | h
    · revert h; decide
    · exact hN ((List.takeWhile_prefix _).subset (List.mem_of_mem_take h))
    · revert h; decide

theorem chunkid_string_witness :
    NUL ∉ "print('hello')".toList ∧ "print('hello')".toList.head? ≠ some '=' ∧
    "print('hello')".toList.head? ≠ some '@' ∧
    short_src exampleShortSrc "print('hello')".toList =
      "[string \"print('hello')\"]".toList ∧
    short_src exampleShortSrc "local x = 1\nreturn x".toList =
      "[string \"local x = 1...\"]".toList :=
  ⟨by decide, by decide, by decide,
    (chunkid_string exampleShortSrc "print('hello')".toList (by decide) (by decide)
      (by decide)).1 (by decide),
    (chunkid_string exampleShortSrc "local x = 1\nreturn x".toList (by decide) (by decide)
      (by decide)).2 (by decide)⟩

/-! ## Outcomes in sequence -/

@[simp] theorem Outcome.bind_ok {α β : Type} (v : α) (f : α → Outcome β) :
    (Outcome.ok v).bind f = f v := rfl

@[simp] theorem Outcome.bind_throw {α β : Type} (e : Exn) (f : α → Outcome β) :
    (Outcome.throw e : Outcome α).bind f = .throw e := rfl

@[simp] theorem Outcome.bind_outOfFuel {α β : Type} (f : α → Outcome β) :
    (Outcome.outOfFuel : Outcome α).bind f = .outOfFuel := rfl

@[simp] theorem Outcome.bind_eq {α β : Type} (x : Outcome α) (f : α → Outcome β) :
    (x >>= f) = x.bind f := rfl

@[simp] theorem Outcome.pure_eq {α : Type} (v : α) : (pure v : Outcome α) = .ok v := rfl

/-! ## The `S` option -/

theorem chunkid_C (buf0 : List Char) :
    cstring (luaO_chunkid { buf := buf0, pos := 0 } (c_str ['=', '[', 'C', ']']) LUA_IDSIZE).buf =
      ['[', 'C', ']'] := by
  have h := chunkid_literal_written buf0 ['[', 'C', ']'] [] (by decide)
  have e : c_str ['=', '[', 'C', ']'] = '=' :: ['[', 'C', ']'] ++ NUL :: [] := rfl
  rw [e, h]
  exact cstring_written _ _ (by decide)

theorem auxgetinfo_single (R : Remote) (L : lua_State) (c : Char) (ar : lua_Debug)
    (f : Option Closure) (ci : Option CallInfo) :
    auxgetinfo R L [c] ar f ci = auxgetinfo.option R L c ar f ci := by
  unfold auxgetinfo
  rcases h : auxgetinfo.option R L c ar f ci with ⟨r, log⟩
  cases r <;> simp [auxgetinfo]

theorem funcinfo_C (R : Remote) (ar : lua_Debug) (f : Option Closure)
    (h : noLuaClosure f = true) :
    funcinfo R ar f = .ok { ar with
      source := ['=', '[', 'C', ']'], linedefined := -1, lastlinedefined := -1,
      what := some ['C'],
      short_src := (luaO_chunkid { buf := ar.short_src, pos := 0 }
        (c_str ['=', '[', 'C', ']']) LUA_IDSIZE).buf } := by
  simp [funcinfo, h]

theorem funcinfo_Lua (R : Remote) (ar : lua_Debug) (cl : Closure) (proto : Proto)
    (src : List Char) (h : cl.tt ≠ LUA_TCCL) (hp : deref R.Proto_at cl.p = .ok proto)
    (hs : (if proto.source ≠ 0 then getstr R proto.source else Outcome.ok ['=', '?']) = .ok src) :
    funcinfo R ar (some cl) = .ok { ar with
      source := src, linedefined := proto.linedefined,
      lastlinedefined := proto.lastlinedefined,
      what := some (if proto.linedefined = 0 then ['m', 'a', 'i', 'n'] else ['L', 'u', 'a']),
      short_src := (luaO_chunkid { buf := ar.short_src, pos := 0 } (c_str src) LUA_IDSIZE).buf } := by
  simp only [funcinfo, noLuaClosure, h, hp, Outcome.bind_eq, Outcome.pure_eq, Outcome.bind_ok,
    decide_False, if_false, Bool.false_eq_true]
  by_cases h0 : proto.source = 0
  · simp only [h0, ne_eq, not_true_eq_false, if_false] at hs ⊢
    cases hs
    rfl
  · simp only [h0, ne_eq, not_false_eq_true, if_true] at hs ⊢
    rw [hs]
    rfl

/-- C16: the `S` option of `auxgetinfo` (`funcinfo`).  Without a closure
(a light C function) and for a C closure (`tt = LUA_TCCL`) it returns with
`source = "=[C]"`, the short source `[C]`, `linedefined = lastlinedefined =
-1` and `what = "C"`.  For any other closure (a Lua closure) whose prototype
is read, it returns with the lines of the prototype, with `source` the string
read at the source pointer, or `=?` when that pointer is null, and with
`what = "main"` exactly when `linedefined = 0`, else `"Lua"`. -/
theorem funcinfo_source (R : Remote) (L : lua_State) (ar : lua_Debug) (ci : Option CallInfo) :
    (∀ f : Option Closure, (f = none ∨ ∃ cl, f = some cl ∧ cl.tt = LUA_TCCL) →
      ∃ ar1, (auxgetinfo R L ['S'] ar f ci).1 = .ok ar1 ∧
        ar1.source = "=[C]".toList ∧ cstring ar1.short_src = "[C]".toList ∧
        ar1.linedefined = -1 ∧ ar1.lastlinedefined = -1 ∧ ar1.what = some "C".toList) ∧
    (∀ (cl : Closure) (proto : Proto) (src : List Char), cl.tt ≠ LUA_TCCL →
      deref R.Proto_at cl.p = .ok proto →
      (proto.source = 0 ∧ src = "=?".toList ∨
        proto.source ≠ 0 ∧ getstr R proto.source = .ok src) →
      ∃ ar1, (auxgetinfo R L ['S'] ar (some cl) ci).1 = .ok ar1 ∧
        ar1.source = src ∧ cstring ar1.short_src = short_src ar.short_src src ∧
        ar1.linedefined = proto.linedefined ∧ ar1.lastlinedefined = proto.lastlinedefined ∧
        ar1.what = some (if proto.linedefined = 0 then "main".toList else "Lua".toList) ∧
        (ar1.what = some "main".toList ↔ proto.linedefined = 0)) := by
  refine ⟨?_, ?_⟩
  · intro f hf
    have hno : noLuaClosure f = true := by
      rcases hf with rfl | ⟨cl, rfl, hcl⟩
      · rfl
      · simp [noLuaClosure, hcl]
    rw [auxgetinfo_single]
    rcases hf with rfl | ⟨cl, rfl, hcl⟩
    · simp only [auxgetinfo.option, funcinfo_C R ar none hno, if_true, Outcome.bind_eq,
        Outcome.pure_eq, Outcome.bind_ok]
      exact ⟨_, rfl, rfl, chunkid_C _, rfl, rfl, rfl⟩
    · simp only [auxgetinfo.option, funcinfo_C R ar (some cl) hno, if_true, Outcome.bind_eq,
        Outcome.pure_eq, Outcome.bind_ok, hcl]
      exact ⟨_, rfl, rfl, chunkid_C _, rfl, rfl, rfl⟩
  · intro cl proto src hcl hp hsrc
    have hs : (if proto.source ≠ 0 then getstr R proto.source else Outcome.ok ['=', '?']) =
        .ok src := by
      rcases hsrc with ⟨h0, rfl⟩ | ⟨h0, h1⟩
      · simp [h0]
      · simp [h0, h1]
    rw [auxgetinfo_single]
    simp only [auxgetinfo.option, funcinfo_Lua R ar cl proto src hcl hp hs, if_true,
      Outcome.bind_eq, Outcome.pure_eq, Outcome.bind_ok, hcl, if_false]
    refine ⟨_, rfl, rfl, rfl, rfl, rfl, rfl, ?_⟩
    by_cases h : proto.linedefined = 0
    · simp [h]
    · simp [h]

theorem funcinfo_source_witness :
    (∃ ar1, (auxgetinfo exampleRemote exampleLuaState ['S'] lua_Debug.zero none
        (some examplePrintFrame)).1 = .ok ar1 ∧
      ar1.source = "=[C]".toList ∧ cstring ar1.short_src = "[C]".toList ∧
      ar1.linedefined = -1 ∧ ar1.lastlinedefined = -1 ∧ ar1.what = some "C".toList) ∧
    (∃ ar1, (auxgetinfo exampleRemote exampleLuaState ['S'] lua_Debug.zero
        (some { tt := LUA_TLCL, nupvalues := 1, p := 0x7000 }) (some exampleMainFrame)).1 =
          .ok ar1 ∧
      ar1.source = "@fixture.lua".toList ∧
      cstring ar1.short_src = short_src lua_Debug.zero.short_src "@fixture.lua".toList ∧
      ar1.linedefined = 0 ∧ ar1.lastlinedefined = 0 ∧
      ar1.what = some (if exampleProto.linedefined = 0 then "main".toList else "Lua".toList) ∧
      (ar1.what = some "main".toList ↔ exampleProto.linedefined = 0)) :=
  ⟨(funcinfo_source exampleRemote exampleLuaState lua_Debug.zero (some examplePrintFrame)).1
      none (Or.inl rfl),
    (funcinfo_source exampleRemote exampleLuaState lua_Debug.zero (some exampleMainFrame)).2
      { tt := LUA_TLCL, nupvalues := 1, p := 0x7000 } exampleProto "@fixture.lua".toList
      (by decide) (by decide) (Or.inr ⟨by decide, by decide⟩)⟩
/-! ## The `n` option -/

theorem getfuncname_none (R : Remote) (L : lua_State) (ci previous : CallInfo)
    (name : List Char) (hfin : ci.callstatus &&& CIST_FIN = 0)
    (hprev : deref R.CallInfo_at ci.previous = .ok previous)
    (h : ci.callstatus &&& CIST_TAIL ≠ 0 ∨ previous.callstatus &&& CIST_LUA = 0) :
    getfuncname R L (some ci) name = (.ok (none, name), [(.getfuncname, ci.previous)]) := by
  have h1 : ci.IsFinalizer = false := by simp [CallInfo.IsFinalizer, hfin]
  have h2 : ¬ (¬ ci.IsTailCall = true ∧ previous.IsLua = true) := by
    rcases h with h | h
    · simp [CallInfo.IsTailCall, h]
    · simp [CallInfo.IsLua, h]
  simp only [getfuncname, h1, hprev, Bool.false_eq_true, if_false]
  rw [if_neg h2]

/-- C15: for a frame `ci` with `CIST_FIN` clear whose previous `CallInfo` is
read, if `CIST_TAIL` is set in `ci` or `CIST_LUA` is clear in the previous
frame, the `n` option returns with `name` empty and `namewhat` the empty
string: for `auxgetinfo` on the option string `n`, and for `GetInfo("n")` on
a record whose `i_ci` points at `ci`, once the function value of the frame
(and its closure, if it is one) is read.  The memory `R`, and with it the
bytecode of the caller, is arbitrary. -/
theorem no_name_tail_or_nonlua (R : Remote) (L : lua_State) (ar : lua_Debug)
    (ci previous : CallInfo)
    (hfin : ci.callstatus &&& CIST_FIN = 0)
    (hprev : deref R.CallInfo_at ci.previous = .ok previous)
    (h : ci.callstatus &&& CIST_TAIL ≠ 0 ∨ previous.callstatus &&& CIST_LUA = 0) :
    (∀ f : Option Closure,
      (auxgetinfo R L ['n'] ar f (some ci)).1 = .ok { ar with namewhat := some [], name := [] }) ∧
    (∀ func : TValue, deref R.CallInfo_at ar.i_ci = .ok ci →
      deref R.TValue_at ci.func = .ok func → func.IsFunction = true →
      (func.IsClosure = true → ∃ cl, deref R.Closure_at func.value_ = .ok cl) →
      ∃ ar1, (GetInfo R L ['n'] ar).1 = .ok ar1 ∧ ar1.name = [] ∧ ar1.namewhat = some []) := by
  have key : ∀ (ar0 : lua_Debug) (f : Option Closure),
      (auxgetinfo R L ['n'] ar0 f (some ci)).1 =
        .ok { ar0 with namewhat := some [], name := [] } := by
    intro ar0 f
    rw [auxgetinfo_single]
    simp [auxgetinfo.option, getfuncname_none R L ci previous ar0.name hfin hprev h]
  refine ⟨key ar, ?_⟩
  intro func hci hfunc hisf hcl
  have hhead : (['n'] : List Char).head? ≠ some '>' := by decide
  simp only [GetInfo, hhead, if_false, hci, hfunc, hisf, not_true_eq_false, GetInfo.finish]
  by_cases hc : func.IsClosure = true
  · obtain ⟨cl, hcl⟩ := hcl hc
    simp only [hc, if_true, hcl]
    exact ⟨_, key ar (some cl), rfl, rfl⟩
  · simp only [hc, if_false, Bool.false_eq_true]
    by_cases hl : func.IsLightCFunction = true
    · simp only [hl, if_true]
      exact ⟨_, key _ none, rfl, rfl⟩
    · simp only [hl, if_false, Bool.false_eq_true]
      exact ⟨_, key _ none, rfl, rfl⟩

theorem no_name_tail_or_nonlua_witness :
    (∀ f : Option Closure,
      (auxgetinfo exampleRemote exampleLuaState ['n'] lua_Debug.zero f (some exampleMainFrame)).1 =
        .ok { lua_Debug.zero with namewhat := some [], name := [] }) ∧
    ∃ ar1, (GetInfo exampleRemote exampleLuaState ['n']
        { lua_Debug.zero with i_ci := 0x2100 }).1 = .ok ar1 ∧
      ar1.name = [] ∧ ar1.namewhat = some [] :=
  ⟨(no_name_tail_or_nonlua exampleRemote exampleLuaState lua_Debug.zero exampleMainFrame
      { func := 0x4FF0, previous := 0, savedpc := 0, callstatus := 0 }
      (by decide) (by decide) (Or.inr (by decide))).1,
    (no_name_tail_or_nonlua exampleRemote exampleLuaState { lua_Debug.zero with i_ci := 0x2100 }
      exampleMainFrame { func := 0x4FF0, previous := 0, savedpc := 0, callstatus := 0 }
      (by decide) (by decide) (Or.inr (by decide))).2
      { value_ := 0x6000, tt_ := 70 } (by decide) (by decide) (by decide)
      (fun _ => ⟨{ tt := LUA_TLCL, nupvalues := 1, p := 0x7000 }, by decide⟩)⟩
/-! ## The `l` option -/

theorem pcRel_index (p : Proto) (n : Nat) (hn : n < 2 ^ 31) :
    pcRel (p.code + 4 * n) p = (n : Int) - 1 := by
  simp only [pcRel, toInt32, toInt64, sizeof_Instruction]
  push_cast
  norm_num at hn ⊢
  omega

theorem currentline_Lua (R : Remote) (ci : CallInfo) (val : TValue) (cl : Closure)
    (proto : Proto) (hlua : ci.callstatus &&& CIST_LUA ≠ 0)
    (hval : deref R.TValue_at ci.func = .ok val)
    (hcl : deref R.Closure_at val.value_ = .ok cl)
    (hp : deref R.Proto_at cl.p = .ok proto) :
    currentline R ci =
      if proto.lineinfo = 0 then .ok (-1)
      else deref R.int_at (ptrAdd proto.lineinfo (sizeof_int * pcRel ci.savedpc proto)) := by
  have h : ci.IsLua = true := by simp [CallInfo.IsLua, hlua]
  simp [currentline, h, hval, hcl, hp]

/-- C17, as stated, fails: the frame `exampleAddFrame` is a Lua frame whose
`pcRel(savedpc, code)` is 3; the `l` option sets `currentline` to 2, which is
`lineinfo[3]`, whereas `lineinfo[pcRel - 1] = lineinfo[2]` is 1. -/
theorem currentline_option_counterexample :
    exampleAddFrame.callstatus &&& CIST_LUA ≠ 0 ∧
    pcRel exampleAddFrame.savedpc exampleProto = 3 ∧
    (auxgetinfo exampleRemote exampleLuaState ['l'] lua_Debug.zero none
      (some exampleAddFrame)).1 = .ok { lua_Debug.zero with currentline := 2 } ∧
    deref exampleRemote.int_at (ptrAdd exampleProto.lineinfo
      (sizeof_int * (pcRel exampleAddFrame.savedpc exampleProto - 1))) = .ok 1 ∧
    deref exampleRemote.int_at (ptrAdd exampleProto.lineinfo
      (sizeof_int * pcRel exampleAddFrame.savedpc exampleProto)) = .ok 2 := by
  refine ⟨by decide, by decide, by decide, by decide, by decide⟩

/-- C17 (amended): the `l` option of `auxgetinfo`.  For a Lua frame
(`CIST_LUA` set) whose function value, closure and prototype are read, it
sets `currentline` to the `int` read at `lineinfo + pcRel(savedpc, code)`,
that is `lineinfo[pcRel(savedpc, code)]`, when the prototype has line info,
and to -1 when `lineinfo` is null; for a frame that is not a Lua frame, and
without a frame, it sets `currentline` to -1.  `pcRel(savedpc, code)` is
`n - 1` when `savedpc` is `n` instructions after `code`. -/
theorem currentline_option (R : Remote) (L : lua_State) (ar : lua_Debug)
    (f : Option Closure) :
    (∀ (ci : CallInfo) (val : TValue) (cl : Closure) (proto : Proto),
      ci.callstatus &&& CIST_LUA ≠ 0 →
      deref R.TValue_at ci.func = .ok val → deref R.Closure_at val.value_ = .ok cl →
      deref R.Proto_at cl.p = .ok proto →
      (∀ line : Int, proto.lineinfo ≠ 0 →
        deref R.int_at (ptrAdd proto.lineinfo (sizeof_int * pcRel ci.savedpc proto)) = .ok line →
        (auxgetinfo R L ['l'] ar f (some ci)).1 = .ok { ar with currentline := line }) ∧
      (proto.lineinfo = 0 →
        (auxgetinfo R L ['l'] ar f (some ci)).1 = .ok { ar with currentline := -1 })) ∧
    (∀ ci : CallInfo, ci.callstatus &&& CIST_LUA = 0 →
      (auxgetinfo R L ['l'] ar f (some ci)).1 = .ok { ar with currentline := -1 }) ∧
    (auxgetinfo R L ['l'] ar f none).1 = .ok { ar with currentline := -1 } ∧
    (∀ (p : Proto) (n : Nat), n < 2 ^ 31 → pcRel (p.code + 4 * n) p = (n : Int) - 1) := by
  refine ⟨?_, ?_, ?_, pcRel_index⟩
  · intro ci val cl proto hlua hval hcl hp
    have h : ci.IsLua = true := by simp [CallInfo.IsLua, hlua]
    have hc := currentline_Lua R ci val cl proto hlua hval hcl hp
    refine ⟨?_, ?_⟩
    · intro line h0 hline
      rw [auxgetinfo_single]
      simp [auxgetinfo.option, h, hc, h0, hline]
    · intro h0
      rw [auxgetinfo_single]
      simp [auxgetinfo.option, h, hc, h0]
  · intro ci hlua
    have h : ci.IsLua = false := by simp [CallInfo.IsLua, hlua]
    rw [auxgetinfo_single]
    simp [auxgetinfo.option, h]
  · rw [auxgetinfo_single]
    simp [auxgetinfo.option]

theorem currentline_option_witness :
    (auxgetinfo exampleRemote exampleLuaState ['l'] lua_Debug.zero none
      (some exampleMainFrame)).1 = .ok { lua_Debug.zero with currentline := 1 } ∧
    (auxgetinfo exampleRemote exampleLuaState ['l'] lua_Debug.zero none
      (some examplePrintFrame)).1 = .ok { lua_Debug.zero with currentline := -1 } :=
  ⟨((currentline_option exampleRemote exampleLuaState lua_Debug.zero none).1 exampleMainFrame
      { value_ := 0x6000, tt_ := 70 } { tt := LUA_TLCL, nupvalues := 1, p := 0x7000 }
      exampleProto (by decide) (by decide) (by decide) (by decide)).1 1 (by decide) (by decide),
    (currentline_option exampleRemote exampleLuaState lua_Debug.zero none).2.1
      examplePrintFrame (by decide)⟩

/-! ## Metamethod names -/

/-- C14: `funcnamefromcode` on a calling frame that is not hooked, whose
function value, closure, prototype and current instruction are read.  For
every pair of an opcode and a tag method in the list (the twelve opcodes
`OP_ADD .. OP_SHR` with the tag method of the same name, which is
`op - OP_ADD + TM_ADD`; `TM_INDEX` for `OP_SELF`, `OP_GETTABUP`,
`OP_GETTABLE`; `TM_NEWINDEX` for `OP_SETTABUP`, `OP_SETTABLE`; `TM_UNM`,
`TM_BNOT`, `TM_LEN`, `TM_CONCAT`, `TM_EQ`, `TM_LT`, `TM_LE` for their
opcodes), when the current instruction has that opcode the function returns
`"metamethod"` with `name` the string read at `global_State.tmname[TM]`. -/
theorem funcnamefromcode_metamethod (R : Remote) (L : lua_State) (ci : CallInfo)
    (name : List Char) (val : TValue) (cl : Closure) (p : Proto) (i : Int) (G : global_State)
    (op tm : Int)
    (hval : deref R.TValue_at ci.func = .ok val) (hf : val.IsFunction = true)
    (hcl : deref R.Closure_at val.value_ = .ok cl) (hp : deref R.Proto_at cl.p = .ok p)
    (hi : readInstruction R p (pcRel ci.savedpc p) = .ok i)
    (hh : ci.callstatus &&& CIST_HOOKED = 0)
    (hG : deref R.global_State_at L.l_G = .ok G)
    (hop : GET_OPCODE i = op)
    (hmem : (op, tm) ∈
      [(OP_ADD, TM_ADD), (OP_SUB, TM_SUB), (OP_MUL, TM_MUL), (OP_MOD, TM_MOD),
       (OP_POW, TM_POW), (OP_DIV, TM_DIV), (OP_IDIV, TM_IDIV), (OP_BAND, TM_BAND),
       (OP_BOR, TM_BOR), (OP_BXOR, TM_BXOR), (OP_SHL, TM_SHL), (OP_SHR, TM_SHR),
       (OP_SELF, TM_INDEX), (OP_GETTABUP, TM_INDEX), (OP_GETTABLE, TM_INDEX),
       (OP_SETTABUP, TM_NEWINDEX), (OP_SETTABLE, TM_NEWINDEX),
       (OP_UNM, TM_UNM), (OP_BNOT, TM_BNOT), (OP_LEN, TM_LEN), (OP_CONCAT, TM_CONCAT),
       (OP_EQ, TM_EQ), (OP_LT, TM_LT), (OP_LE, TM_LE)]) :
    (OP_ADD ≤ op ∧ op ≤ OP_SHR → tm = op - OP_ADD + TM_ADD) ∧
    0 ≤ tm ∧ tm < TM_N ∧
    ∀ nm : List Char, getstr R (G.tmname tm.toNat) = .ok nm →
      funcnamefromcode R L ci name = .ok (some "metamethod".toList, nm) := by
  have hk : ci.IsHooked = false := by simp [CallInfo.IsHooked, hh]
  have hbody : ∀ nm : List Char, getstr R (G.tmname tm.toNat) = .ok nm →
      funcnamefromcode R L ci name =
        (if op = OP_CALL ∨ op = OP_TAILCALL then
          getobjname R p ((pcRel ci.savedpc p).toNat + 1) (pcRel ci.savedpc p) (GETARG_A i)
        else if op = OP_TFORCALL then
          .ok (some "for iterator".toList, "for iterator".toList)
        else
          match (if op = OP_SELF ∨ op = OP_GETTABUP ∨ op = OP_GETTABLE then some TM_INDEX
            else if op = OP_SETTABUP ∨ op = OP_SETTABLE then some TM_NEWINDEX
            else if op = OP_ADD ∨ op = OP_SUB ∨ op = OP_MUL ∨ op = OP_MOD ∨
                op = OP_POW ∨ op = OP_DIV ∨ op = OP_IDIV ∨ op = OP_BAND ∨
                op = OP_BOR ∨ op = OP_BXOR ∨ op = OP_SHL ∨ op = OP_SHR then
              some (op - OP_ADD + TM_ADD)
            else if op = OP_UNM then some TM_UNM
            else if op = OP_BNOT then some TM_BNOT
            else if op = OP_LEN then some TM_LEN
            else if op = OP_CONCAT then some TM_CONCAT
            else if op = OP_EQ then some TM_EQ
            else if op = OP_LT then some TM_LT
            else if op = OP_LE then some TM_LE
            else none : Option Int) with
          | none => .ok (none, name)
          | some t => (getstr R (G.tmname t.toNat)).bind
              fun nm => .ok (some "metamethod".toList, nm)) := by
    intro nm _
    simp only [funcnamefromcode, hval, hf, hcl, hp, hi, hk, hop, hG, Outcome.bind_eq,
      Outcome.pure_eq, Outcome.bind_ok, not_true_eq_false, if_false, Bool.false_eq_true]
  have all : ∀ x ∈
      [(OP_ADD, TM_ADD), (OP_SUB, TM_SUB), (OP_MUL, TM_MUL), (OP_MOD, TM_MOD),
       (OP_POW, TM_POW), (OP_DIV, TM_DIV), (OP_IDIV, TM_IDIV), (OP_BAND, TM_BAND),
       (OP_BOR, TM_BOR), (OP_BXOR, TM_BXOR), (OP_SHL, TM_SHL), (OP_SHR, TM_SHR),
       (OP_SELF, TM_INDEX), (OP_GETTABUP, TM_INDEX), (OP_GETTABLE, TM_INDEX),
       (OP_SETTABUP, TM_NEWINDEX), (OP_SETTABLE, TM_NEWINDEX),
       (OP_UNM, TM_UNM), (OP_BNOT, TM_BNOT), (OP_LEN, TM_LEN), (OP_CONCAT, TM_CONCAT),
       (OP_EQ, TM_EQ), (OP_LT, TM_LT), (OP_LE, TM_LE)],
      ¬ (x.1 = OP_CALL ∨ x.1 = OP_TAILCALL) ∧ ¬ x.1 = OP_TFORCALL ∧
      (if x.1 = OP_SELF ∨ x.1 = OP_GETTABUP ∨ x.1 = OP_GETTABLE then some TM_INDEX
        else if x.1 = OP_SETTABUP ∨ x.1 = OP_SETTABLE then some TM_NEWINDEX
        else if x.1 = OP_ADD ∨ x.1 = OP_SUB ∨ x.1 = OP_MUL ∨ x.1 = OP_MOD ∨
            x.1 = OP_POW ∨ x.1 = OP_DIV ∨ x.1 = OP_IDIV ∨ x.1 = OP_BAND ∨
            x.1 = OP_BOR ∨ x.1 = OP_BXOR ∨ x.1 = OP_SHL ∨ x.1 = OP_SHR then
          some (x.1 - OP_ADD + TM_ADD)
        else if x.1 = OP_UNM then some TM_UNM
        else if x.1 = OP_BNOT then some TM_BNOT
        else if x.1 = OP_LEN then some TM_LEN
        else if x.1 = OP_CONCAT then some TM_CONCAT
        else if x.1 = OP_EQ then some TM_EQ
        else if x.1 = OP_LT then some TM_LT
        else if x.1 = OP_LE then some TM_LE
        else none : Option Int) = some x.2 ∧
      (OP_ADD ≤ x.1 ∧ x.1 ≤ OP_SHR → x.2 = x.1 - OP_ADD + TM_ADD) ∧ 0 ≤ x.2 ∧ x.2 < TM_N := by
    decide
  have facts := all (op, tm) hmem
  simp only at facts
  obtain ⟨hc1, hc2, hsel, h4, h5, h6⟩ := facts
  refine ⟨h4, h5, h6, ?_⟩
  intro nm hnm
  rw [hbody nm hnm, if_neg hc1, if_neg hc2, hsel]
  simp only [hnm, Outcome.bind_ok]

theorem funcnamefromcode_metamethod_witness :
    funcnamefromcode exampleRemote exampleLuaState exampleAddFrame [] =
      .ok (some "metamethod".toList, "__add".toList) :=
  (funcnamefromcode_metamethod exampleRemote exampleLuaState exampleAddFrame []
    { value_ := 0x6000, tt_ := 70 } { tt := LUA_TLCL, nupvalues := 1, p := 0x7000 }
    exampleProto 16826445 { tmname := fun i => 0x10000 + 32 * i } OP_ADD TM_ADD
    (by decide) (by decide) (by decide) (by decide) (by decide) (by decide) rfl
    (by decide) (by decide)).2.2.2 "__add".toList (by decide)

/-! ## The stack walk: which frames are read -/

theorem getfuncname_sites (R : Remote) (L : lua_State) (ci : Option CallInfo) (name : List Char) :
    ∀ e ∈ (getfuncname R L ci name).2, e.1 = DerefSite.getfuncname := by
  intro e he
  cases ci with
  | none => simp [getfuncname] at he
  | some ci =>
    simp only [getfuncname] at he
    split at he
    · simp at he
    · split at he
      · split at he <;> simp at he <;> simp [he]
      · split at he
        · simp at he
        · simp at he
          simp [he]
      · simp at he

theorem option_sites (R : Remote) (L : lua_State) (c : Char) (ar : lua_Debug)
    (f : Option Closure) (ci : Option CallInfo) :
    ∀ e ∈ (auxgetinfo.option R L c ar f ci).2, e.1 = DerefSite.getfuncname := by
  intro e he
  simp only [auxgetinfo.option] at he
  split at he
  · simp at he
  · split at he
    · simp at he
    · split at he
      · simp at he
      · split at he
        · simp at he
        · split at he
          · have hs := getfuncname_sites R L ci ar.name e
            split at he <;> rename_i hg <;> rw [hg] at hs <;> exact hs he
          · simp at he

theorem auxgetinfo_sites (R : Remote) (L : lua_State) (what : List Char) (ar : lua_Debug)
    (f : Option Closure) (ci : Option CallInfo) :
    ∀ e ∈ (auxgetinfo R L what ar f ci).2, e.1 = DerefSite.getfuncname := by
  induction what generalizing ar with
  | nil => intro e he; simp [auxgetinfo] at he
  | cons c what ih =>
    intro e he
    have ho := option_sites R L c ar f ci e
    simp only [auxgetinfo] at he
    split at he <;> rename_i hg <;> rw [hg] at ho
    · rcases List.mem_append.mp he with h | h
      · exact ho h
      · exact ih _ e h
    · exact ho he
    · exact ho he

theorem finish_sites (R : Remote) (L : lua_State) (what : List Char) (ar : lua_Debug)
    (func : TValue) (ci : Option CallInfo) :
    ∀ e ∈ (GetInfo.finish R L what ar func ci).2, e.1 = DerefSite.getfuncname := by
  intro e he
  simp only [GetInfo.finish] at he
  split at he
  · split at he
    · exact auxgetinfo_sites _ _ _ _ _ _ e he
    · simp at he
    · simp at he
  · split at he <;> exact auxgetinfo_sites _ _ _ _ _ _ e he

theorem GetInfo_sites (R : Remote) (L : lua_State) (what : List Char) (ar : lua_Debug)
    (hw : what.head? ≠ some '>') :
    ∀ e ∈ (GetInfo R L what ar).2, e = (DerefSite.GetInfo, ar.i_ci) ∨ e.1 = DerefSite.getfuncname := by
  intro e he
  simp only [GetInfo, hw, if_false] at he
  split at he
  · split at he
    · split at he
      · simp at he; exact Or.inl he
      · rcases List.mem_cons.mp he with h | h
        · exact Or.inl h
        · exact Or.inr (finish_sites _ _ _ _ _ _ e h)
    · simp at he; exact Or.inl he
    · simp at he; exact Or.inl he
  · split at he
    · simp at he
    · simp at he; exact Or.inl he
  · simp at he

theorem loop_sites (R : Remote) (sym : Nat → List Char) (address : Nat) (L : lua_State)
    (fuel : Nat) (callInfoPtr : Nat) (ret : List LuaStackFrame) :
    ∀ e ∈ (DumpStack.loop R sym address L fuel callInfoPtr ret).2,
      e.2 = baseCallInfo address → e.1 = DerefSite.getfuncname := by
  induction fuel generalizing callInfoPtr ret with
  | zero =>
    intro e he
    simp only [DumpStack.loop] at he
    split at he <;> simp at he
  | succ fuel ih =>
    intro e he hb
    simp only [DumpStack.loop] at he
    split at he
    · rename_i hc
      have hG : ∀ e ∈ (GetInfo R L ['n', 'S', 'l', 't']
          { lua_Debug.zero with i_ci := callInfoPtr }).2,
          e.2 = baseCallInfo address → e.1 = DerefSite.getfuncname := by
        intro e he hb
        rcases GetInfo_sites R L ['n', 'S', 'l', 't'] { lua_Debug.zero with i_ci := callInfoPtr }
          (by decide) e he with h | h
        · rw [h] at hb
          exact absurd hb hc.2
        · exact h
      split at he <;> rename_i hg <;> rw [hg] at hG
      · split at he
        · split at he
          · rcases List.mem_append.mp he with h | h
            · exact hG e h hb
            · rcases List.mem_cons.mp h with h | h
              · rw [h] at hb
                exact absurd hb hc.2
              · exact ih _ _ e h hb
          · rcases List.mem_append.mp he with h | h
            · exact hG e h hb
            · simp at h
              rw [h] at hb
              exact absurd hb hc.2
          · exact hG e he hb
        · exact hG e he hb
        · exact hG e he hb
      · exact hG e he hb
      · exact hG e he hb
    · simp at he

/-- C18, as stated, fails: in `exampleRemote`, a `lua_State` at `0x1000`
with two frames, `DumpStack(0x1000)` returns the two frames, and the
`CallInfo` at `0x1000 + offsetof(lua_State, base_ci) = 0x1060` is read
through the accessor: `getfuncname`, naming the outermost frame at `0x2100`,
reads `*ci->previous`. -/
theorem sentinel_deref_counterexample :
    deref exampleRemote.lua_State_at 0x1000 = .ok exampleLuaState ∧
    baseCallInfo 0x1000 = 0x1060 ∧
    exampleMainFrame.previous = 0x1060 ∧
    (DumpStack exampleRemote exampleSymbols 0x1000 10).1 =
      .ok [{ FrameType := .Native, Address := 0x401230, Source := "[C]".toList,
             Name := "luaB_print".toList, Line := 0 },
           { FrameType := .Lua, Address := 0, Source := "fixture.lua".toList,
             Name := [], Line := 0 }] ∧
    (DerefSite.getfuncname, baseCallInfo 0x1000) ∈
      (DumpStack exampleRemote exampleSymbols 0x1000 10).2 := by
  refine ⟨by decide, by decide, by decide, by decide, by decide⟩

/-- C18 (amended): during `DumpStack(S)`, every read of a `CallInfo` at the
address `S + offsetof(lua_State, base_ci)` is made by `getfuncname` (which
reads `*ci->previous` of the frame it names): neither `GetInfo`, for the
frame to describe, nor the loop of `DumpStack`, for `previous`, reads a
`CallInfo` at that address. -/
theorem sentinel_deref (R : Remote) (sym : Nat → List Char) (address fuel : Nat)
    (e : DerefSite × Nat) (he : e ∈ (DumpStack R sym address fuel).2)
    (hb : e.2 = baseCallInfo address) : e.1 = DerefSite.getfuncname := by
  simp only [DumpStack] at he
  split at he
  · exact loop_sites _ _ _ _ _ _ _ e he hb
  · simp at he
  · simp at he

theorem sentinel_deref_witness :
    (DerefSite.getfuncname, 0x1060) ∈ (DumpStack exampleRemote exampleSymbols 0x1000 10).2 ∧
    (DerefSite.getfuncname, 0x1060).2 = baseCallInfo 0x1000 ∧
    (DerefSite.getfuncname, 0x1060).1 = DerefSite.getfuncname :=
  ⟨by decide, by decide,
    sentinel_deref exampleRemote exampleSymbols 0x1000 10 (DerefSite.getfuncname, 0x1060)
      (by decide) (by decide)⟩
/-! ## The stack walk: the frames returned -/

theorem auxgetinfo_cons_ok (R : Remote) (L : lua_State) (c : Char) (what : List Char)
    (ar debug : lua_Debug) (f : Option Closure) (ci : Option CallInfo)
    (h : (auxgetinfo R L (c :: what) ar f ci).1 = .ok debug) :
    ∃ ar1, (auxgetinfo.option R L c ar f ci).1 = .ok ar1 ∧
      (auxgetinfo R L what ar1 f ci).1 = .ok debug := by
  simp only [auxgetinfo] at h
  split at h <;> rename_i hg
  · exact ⟨_, by rw [hg], h⟩
  · simp at h
  · simp at h

theorem funcinfo_what (R : Remote) (ar ar1 : lua_Debug) (f : Option Closure)
    (h : funcinfo R ar f = .ok ar1) : ∃ w, ar1.what = some w := by
  by_cases hn : noLuaClosure f = true
  · rw [funcinfo_C R ar f hn] at h
    cases h
    exact ⟨_, rfl⟩
  · cases f with
    | none => simp [noLuaClosure] at hn
    | some cl =>
      have hcl : cl.tt ≠ LUA_TCCL := by simpa [noLuaClosure] using hn
      cases hp : deref R.Proto_at cl.p with
      | ok proto =>
        cases hs : (if proto.source ≠ 0 then getstr R proto.source else Outcome.ok ['=', '?']) with
        | ok src =>
          rw [funcinfo_Lua R ar cl proto src hcl hp hs] at h
          cases h
          exact ⟨_, rfl⟩
        | throw e =>
          simp only [funcinfo, noLuaClosure, hcl, hp, Outcome.bind_eq, Outcome.pure_eq,
            Outcome.bind_ok, decide_False, if_false, Bool.false_eq_true] at h
          by_cases h0 : proto.source = 0
          · simp [h0] at hs
          · simp [h0] at hs h
            simp [hs] at h
        | outOfFuel =>
          simp only [funcinfo, noLuaClosure, hcl, hp, Outcome.bind_eq, Outcome.pure_eq,
            Outcome.bind_ok, decide_False, if_false, Bool.false_eq_true] at h
          by_cases h0 : proto.source = 0
          · simp [h0] at hs
          · simp [h0] at hs h
            simp [hs] at h
      | throw e => simp [funcinfo, noLuaClosure, hcl, hp] at h
      | outOfFuel => simp [funcinfo, noLuaClosure, hcl, hp] at h

theorem option_S_what (R : Remote) (L : lua_State) (ar ar1 : lua_Debug) (f : Option Closure)
    (ci : Option CallInfo) (h : (auxgetinfo.option R L 'S' ar f ci).1 = .ok ar1) :
    ∃ w, ar1.what = some w := by
  simp only [auxgetinfo.option, if_true, Outcome.bind_eq, Outcome.pure_eq] at h
  cases hf : funcinfo R ar f with
  | ok ar2 =>
    obtain ⟨w, hw⟩ := funcinfo_what R ar ar2 f hf
    rw [hf] at h
    cases f with
    | none => simp at h; rw [← h]; exact ⟨w, hw⟩
    | some cl =>
      simp only [Outcome.bind_ok] at h
      split at h <;> simp at h <;> rw [← h] <;> exact ⟨w, hw⟩
  | throw e => rw [hf] at h; simp at h
  | outOfFuel => rw [hf] at h; simp at h

theorem option_l_what (R : Remote) (L : lua_State) (ar ar1 : lua_Debug) (f : Option Closure)
    (ci : Option CallInfo) (h : (auxgetinfo.option R L 'l' ar f ci).1 = .ok ar1) :
    ar1.what = ar.what := by
  have e1 : ¬ 'l' = 'S' := by decide
  simp only [auxgetinfo.option, e1, if_false, if_true, Outcome.bind_eq, Outcome.pure_eq] at h
  cases ci with
  | none =>
    simp only [Outcome.bind_ok] at h
    cases h
    rfl
  | some ci =>
    simp only at h
    split at h
    · cases hl : currentline R ci with
      | ok line => rw [hl] at h; simp only [Outcome.bind_ok] at h; cases h; rfl
      | throw e => rw [hl] at h; simp at h
      | outOfFuel => rw [hl] at h; simp at h
    · simp only [Outcome.bind_ok] at h
      cases h
      rfl

theorem option_t_what (R : Remote) (L : lua_State) (ar ar1 : lua_Debug) (f : Option Closure)
    (ci : Option CallInfo) (h : (auxgetinfo.option R L 't' ar f ci).1 = .ok ar1) :
    ar1.what = ar.what := by
  have e1 : ¬ 't' = 'S' := by decide
  have e2 : ¬ 't' = 'l' := by decide
  have e3 : ¬ 't' = 'u' := by decide
  simp only [auxgetinfo.option, e1, e2, e3, if_false, if_true] at h
  cases h
  rfl

theorem GetInfo_what (R : Remote) (L : lua_State) (ar debug : lua_Debug)
    (h : (GetInfo R L ['n', 'S', 'l', 't'] ar).1 = .ok debug) : ∃ w, debug.what = some w := by
  have key : ∀ (ar0 : lua_Debug) (f : Option Closure) (ci : Option CallInfo),
      (auxgetinfo R L ['n', 'S', 'l', 't'] ar0 f ci).1 = .ok debug → ∃ w, debug.what = some w := by
    intro ar0 f ci h
    obtain ⟨ar1, _, h⟩ := auxgetinfo_cons_ok _ _ _ _ _ _ _ _ h
    obtain ⟨ar2, h2, h⟩ := auxgetinfo_cons_ok _ _ _ _ _ _ _ _ h
    obtain ⟨ar3, h3, h⟩ := auxgetinfo_cons_ok _ _ _ _ _ _ _ _ h
    obtain ⟨ar4, h4, h⟩ := auxgetinfo_cons_ok _ _ _ _ _ _ _ _ h
    simp only [auxgetinfo] at h
    cases h
    obtain ⟨w, hw⟩ := option_S_what _ _ _ _ _ _ h2
    exact ⟨w, by rw [option_t_what _ _ _ _ _ _ h4, option_l_what _ _ _ _ _ _ h3, hw]⟩
  have hw : (['n', 'S', 'l', 't'] : List Char).head? ≠ some '>' := by decide
  simp only [GetInfo, hw, if_false] at h
  split at h
  · split at h
    · split at h
      · simp at h
      · simp only [GetInfo.finish] at h
        split at h
        · split at h
          · exact key _ _ _ h
          · simp at h
          · simp at h
        · split at h <;> exact key _ _ _ h
    · simp at h
    · simp at h
  · simp at h
  · simp at h

theorem makeFrame_ok (sym : Nat → List Char) (debug : lua_Debug) (w : List Char)
    (h : debug.what = some w) : ∃ frame, makeFrame sym debug = .ok frame := by
  simp only [makeFrame, h]
  split <;> exact ⟨_, rfl⟩

theorem loop_walk (R : Remote) (sym : Nat → List Char) (address : Nat) (L : lua_State)
    (chain : List Nat) :
    ∀ (fuel callInfoPtr : Nat) (ret : List LuaStackFrame),
      WalkReaches R (baseCallInfo address) callInfoPtr chain →
      (∀ c ∈ chain, ∃ debug,
        (GetInfo R L ['n', 'S', 'l', 't'] { lua_Debug.zero with i_ci := c }).1 = .ok debug) →
      chain.length ≤ fuel →
      ∃ frames, (DumpStack.loop R sym address L fuel callInfoPtr ret).1 = .ok (ret ++ frames) ∧
        List.Forall₂ (fun c frame => ∃ debug,
          (GetInfo R L ['n', 'S', 'l', 't'] { lua_Debug.zero with i_ci := c }).1 = .ok debug ∧
          makeFrame sym debug = .ok frame) chain frames := by
  induction chain with
  | nil =>
    intro fuel callInfoPtr ret hwalk _ _
    have hb : callInfoPtr = baseCallInfo address := hwalk
    refine ⟨[], ?_, List.Forall₂.nil⟩
    cases fuel <;> simp [DumpStack.loop, hb]
  | cons c chain ih =>
    intro fuel callInfoPtr ret hwalk hinfo hfuel
    obtain ⟨rfl, h0, hb, callInfo, hci, hrest⟩ := hwalk
    obtain ⟨debug, hdebug⟩ := hinfo callInfoPtr (List.mem_cons_self _ _)
    obtain ⟨w, hw⟩ := GetInfo_what R L _ debug hdebug
    obtain ⟨frame, hframe⟩ := makeFrame_ok sym debug w hw
    cases fuel with
    | zero => simp at hfuel
    | succ fuel =>
      have hd : deref R.CallInfo_at callInfoPtr = .ok callInfo := by simp [deref, h0, hci]
      obtain ⟨frames, hloop, hall⟩ := ih fuel callInfo.previous (ret ++ [frame])
        hrest (fun d hd => hinfo d (List.mem_cons_of_mem _ hd))
        (by simpa using hfuel)
      refine ⟨frame :: frames, ?_, List.Forall₂.cons ⟨debug, hdebug, hframe⟩ hall⟩
      rcases hg : GetInfo R L ['n', 'S', 'l', 't'] { lua_Debug.zero with i_ci := callInfoPtr }
        with ⟨r, log⟩
      rw [hg] at hdebug
      simp only at hdebug
      subst hdebug
      simp only [DumpStack.loop, h0, hb, ne_eq, not_false_eq_true, and_self, if_true, hg,
        hframe, hd, hloop]
      simp

/-- C19, as stated, fails: in `exampleNullClosure` the chain from the `ci` of
the `lua_State` at `0x1000` reaches `0x1000 + offsetof(lua_State, base_ci)`
after one step, through a frame whose `func` is a function value (a Lua
closure by its tag), but the pointer to the closure is null: `GetInfo` throws
and `DumpStack(0x1000)` returns no frame. -/
theorem stack_walk_counterexample :
    deref exampleNullClosure.lua_State_at 0x1000 = .ok exampleLuaState ∧
    exampleLuaState.ci = 0x2000 ∧
    deref exampleNullClosure.CallInfo_at 0x2000 =
      .ok { func := 0x5000, previous := 0x1060, savedpc := 0, callstatus := 0 } ∧
    baseCallInfo 0x1000 = 0x1060 ∧
    deref exampleNullClosure.TValue_at 0x5000 = .ok { value_ := 0, tt_ := 70 } ∧
    TValue.IsFunction { value_ := 0, tt_ := 70 } = true ∧
    (DumpStack exampleNullClosure exampleSymbols 0x1000 1).1 = .throw .InvalidCallException ∧
    (DumpStack exampleNullClosure exampleSymbols 0x1000 10).1 = .throw .InvalidCallException := by
  refine ⟨by decide, by decide, by decide, by decide, by decide, by decide, by decide, by decide⟩

/-- C19 (amended): if the `lua_State` at `S` is read and the chain `ci,
ci.previous, ...` reaches `S + offsetof(lua_State, base_ci)` after `n` steps
through the frames at `chain` (`n` is its length), and `GetInfo("nSlt")`
returns normally on each of these frames, then `DumpStack(S)` returns (every
fuel from `n` on is enough) exactly `n` frames, the `k`-th of them built from
the record `GetInfo` fills for the `k`-th frame of the chain. -/
theorem stack_walk (R : Remote) (sym : Nat → List Char) (address fuel : Nat) (L : lua_State)
    (chain : List Nat)
    (hL : deref R.lua_State_at address = .ok L)
    (hwalk : WalkReaches R (baseCallInfo address) L.ci chain)
    (hinfo : ∀ c ∈ chain, ∃ debug,
      (GetInfo R L ['n', 'S', 'l', 't'] { lua_Debug.zero with i_ci := c }).1 = .ok debug)
    (hfuel : chain.length ≤ fuel) :
    ∃ frames, (DumpStack R sym address fuel).1 = .ok frames ∧
      frames.length = chain.length ∧
      List.Forall₂ (fun c frame => ∃ debug,
        (GetInfo R L ['n', 'S', 'l', 't'] { lua_Debug.zero with i_ci := c }).1 = .ok debug ∧
        makeFrame sym debug = .ok frame) chain frames := by
  obtain ⟨frames, h, hall⟩ := loop_walk R sym address L chain fuel L.ci [] hwalk hinfo hfuel
  refine ⟨frames, ?_, hall.length_eq.symm, hall⟩
  simp only [DumpStack, hL]
  simpa using h

theorem stack_walk_witness :
    ∃ frames, (DumpStack exampleRemote exampleSymbols 0x1000 2).1 = .ok frames ∧
      frames.length = [0x2000, 0x2100].length ∧
      List.Forall₂ (fun c frame => ∃ debug,
        (GetInfo exampleRemote exampleLuaState ['n', 'S', 'l', 't']
          { lua_Debug.zero with i_ci := c }).1 = .ok debug ∧
        makeFrame exampleSymbols debug = .ok frame) [0x2000, 0x2100] frames :=
  stack_walk exampleRemote exampleSymbols 0x1000 2 exampleLuaState [0x2000, 0x2100]
    (by decide)
    ⟨rfl, by decide, by decide, examplePrintFrame, rfl,
      rfl, by decide, by decide, exampleMainFrame, rfl,
      (show exampleMainFrame.previous = baseCallInfo 0x1000 by decide)⟩
    (by
      intro c hc
      simp only [List.mem_cons, List.mem_singleton, List.not_mem_nil, or_false] at hc
      rcases hc with rfl | rfl
      · exact ⟨_, rfl⟩
      · exact ⟨_, rfl⟩)
    (by decide)

/-! ## Instruction decoding -/

theorem ldiff_mask (k m : Nat) : Nat.ldiff (2 ^ k - 1) m = 2 ^ k - 1 - m % 2 ^ k := by
  apply Nat.eq_of_testBit_eq
  intro i
  have hlt : m % 2 ^ k < 2 ^ k := Nat.mod_lt _ (by positivity)
  have e : 2 ^ k - 1 - m % 2 ^ k = 2 ^ k - (m % 2 ^ k + 1) := by omega
  rw [e, Nat.testBit_two_pow_sub_succ hlt, Nat.testBit_ldiff, Nat.testBit_two_pow_sub_one,
    Nat.testBit_mod_two_pow]
  by_cases h : i < k <;> simp [h]

theorem land_mask_int (x : Int) (k : Nat) :
    Int.land x ((2 ^ k - 1 : Nat) : Int) = x % 2 ^ k := by
  cases x with
  | ofNat m =>
    show ((m &&& (2 ^ k - 1) : Nat) : Int) = (m : Int) % 2 ^ k
    rw [Nat.and_pow_two_sub_one_eq_mod]
    push_cast
    rfl
  | negSucc m =>
    show ((Nat.ldiff (2 ^ k - 1) m : Nat) : Int) = Int.negSucc m % 2 ^ k
    rw [ldiff_mask]
    have hlt : m % 2 ^ k < 2 ^ k := Nat.mod_lt _ (by positivity)
    have hpos : 0 < 2 ^ k := by positivity
    rw [Int.negSucc_eq]
    have h1 : ((2 ^ k - 1 - m % 2 ^ k : Nat) : Int) = (2 : Int) ^ k - 1 - (m : Int) % 2 ^ k := by
      rw [Nat.cast_sub (by omega), Nat.cast_sub (by omega)]
      push_cast
      rfl
    rw [h1]
    have h2 : (-((m : Int) + 1)) = ((2 : Int) ^ k - 1 - (m : Int) % 2 ^ k) + 2 ^ k * (-((m : Int) / 2 ^ k) - 1) := by
      have := Int.emod_add_ediv (m : Int) (2 ^ k)
      linarith
    rw [h2, Int.add_mul_emod_self_left]
    symm
    apply Int.emod_eq_of_lt
    · have : (m : Int) % 2 ^ k < 2 ^ k := Int.emod_lt_of_pos _ (by positivity)
      omega
    · have : 0 ≤ (m : Int) % 2 ^ k := Int.emod_nonneg _ (by positivity)
      omega

theorem getarg_eq (i : Int) (pos size : Nat)
    (hm : MASK1 size 0 = ((2 ^ size - 1 : Nat) : Int)) :
    getarg i pos size = i / 2 ^ pos % 2 ^ size := by
  unfold getarg
  rw [hm, land_mask_int, Int.shiftRight_eq_div_pow, Nat.cast_pow, Nat.cast_ofNat]

theorem MASK1_sizes :
    MASK1 SIZE_OP 0 = ((2 ^ 6 - 1 : Nat) : Int) ∧ MASK1 SIZE_A 0 = ((2 ^ 8 - 1 : Nat) : Int) ∧
    MASK1 SIZE_B 0 = ((2 ^ 9 - 1 : Nat) : Int) ∧ MASK1 SIZE_C 0 = ((2 ^ 9 - 1 : Nat) : Int) ∧
    MASK1 SIZE_Bx 0 = ((2 ^ 18 - 1 : Nat) : Int) ∧ MASK1 SIZE_Ax 0 = ((2 ^ 26 - 1 : Nat) : Int) := by
  decide
/-- The fields of an instruction passed as `int`, by division. -/
theorem decode_int (i : Int) :
    GET_OPCODE i = i % 64 ∧ GETARG_A i = i / 64 % 256 ∧ GETARG_C i = i / 16384 % 512 ∧
    GETARG_B i = i / 8388608 % 512 ∧ GETARG_Bx i = i / 16384 % 262144 ∧
    GETARG_Ax i = i / 64 % 67108864 := by
  obtain ⟨h1, h2, h3, h4, h5, h6⟩ := MASK1_sizes
  have p1 : (2 : Int) ^ POS_OP = 1 := by decide
  have p2 : (2 : Int) ^ POS_A = 64 := by decide
  have p3 : (2 : Int) ^ POS_C = 16384 := by decide
  have p4 : (2 : Int) ^ POS_B = 8388608 := by decide
  have s1 : (2 : Int) ^ SIZE_OP = 64 := by decide
  have s2 : (2 : Int) ^ SIZE_A = 256 := by decide
  have s3 : (2 : Int) ^ SIZE_B = 512 := by decide
  have s4 : (2 : Int) ^ SIZE_C = 512 := by decide
  have s5 : (2 : Int) ^ SIZE_Bx = 262144 := by decide
  have s6 : (2 : Int) ^ SIZE_Ax = 67108864 := by decide
  refine ⟨?_, ?_, ?_, ?_, ?_, ?_⟩
  · have h := getarg_eq i POS_OP SIZE_OP h1
    rw [p1, s1, Int.ediv_one] at h
    exact h
  · rw [GETARG_A, getarg_eq i POS_A SIZE_A h2, p2, s2]
  · rw [GETARG_C, getarg_eq i POS_C SIZE_C h4, p3, s4]
  · rw [GETARG_B, getarg_eq i POS_B SIZE_B h3, p4, s3]
  · rw [GETARG_Bx, getarg_eq i POS_Bx SIZE_Bx h5, s5]
    exact congrArg (fun x => i / x % 262144) p3
  · rw [GETARG_Ax, getarg_eq i POS_Ax SIZE_Ax h6, s6]
    exact congrArg (fun x => i / x % 67108864) p2
theorem toInt32_word (w : Nat) (hw : w < 4294967296) :
    toInt32 (w : Int) = if w < 2147483648 then (w : Int) else (w : Int) - 4294967296 := by
  have e1 : (2 : Int) ^ 31 = 2147483648 := by norm_num
  have e2 : (2 : Int) ^ 32 = 4294967296 := by norm_num
  rw [toInt32, e1, e2]
  split <;> omega

theorem decode_nat (w : Nat) (hw : w < 4294967296) :
    GET_OPCODE (toInt32 w) = (w % 64 : Nat) ∧
    GETARG_A (toInt32 w) = (w / 64 % 256 : Nat) ∧
    GETARG_C (toInt32 w) = (w / 16384 % 512 : Nat) ∧
    GETARG_B (toInt32 w) = (w / 8388608 % 512 : Nat) ∧
    GETARG_Bx (toInt32 w) = (w / 16384 % 262144 : Nat) ∧
    GETARG_Ax (toInt32 w) = (w / 64 % 67108864 : Nat) := by
  obtain ⟨h1, h2, h3, h4, h5, h6⟩ := decode_int (toInt32 w)
  have e := toInt32_word w hw
  rw [h1, h2, h3, h4, h5, h6, e]
  by_cases h : w < 2147483648
  · rw [if_pos h]
    refine ⟨?_, ?_, ?_, ?_, ?_, ?_⟩ <;> omega
  · rw [if_neg h]
    refine ⟨?_, ?_, ?_, ?_, ?_, ?_⟩ <;> omega
theorem GETARG_sBx_eq (w : Nat) (hw : w < 4294967296) :
    GETARG_sBx (toInt32 w) = GETARG_Bx (toInt32 w) - 131071 := by
  have h5 := (decode_nat w hw).2.2.2.2.1
  have m : (MAXARG_sBx : Int) = 131071 := by decide
  have e1 : (2 : Int) ^ 31 = 2147483648 := by norm_num
  have e2 : (2 : Int) ^ 32 = 4294967296 := by norm_num
  rw [GETARG_sBx, h5, m, toInt32, e1, e2]
  omega
theorem pack_fields (w op a b c : Nat) (hop : op < 64) (ha : a < 256) (hb : b < 512)
    (hc : c < 512) (hpack : w = op + a * 64 + c * 16384 + b * 8388608) :
    w % 64 = op ∧ w / 64 % 256 = a ∧ w / 8388608 % 512 = b ∧ w / 16384 % 512 = c := by
  refine ⟨?_, ?_, ?_, ?_⟩ <;> omega

/-- C23: for every 32-bit instruction word `w`, passed as `int` (negative
when bit 31 is set), `GET_OPCODE` is bits 0..5, `GETARG_A` bits 6..13,
`GETARG_C` bits 14..22, `GETARG_B` bits 23..31, `GETARG_Bx` bits 14..31 and
`GETARG_Ax` bits 6..31 of `w`, each a natural number, and `GETARG_sBx` is
`GETARG_Bx - 131071`; the word packed from `op < 64`, `a < 256`, `b < 512`,
`c < 512` decodes to `op`, `a`, `b`, `c`. -/
theorem decode_word (w : Nat) (hw : w < 2 ^ 32) :
    GET_OPCODE (toInt32 w) = (w % 2 ^ 6 : Nat) ∧
    GETARG_A (toInt32 w) = (w / 2 ^ 6 % 2 ^ 8 : Nat) ∧
    GETARG_C (toInt32 w) = (w / 2 ^ 14 % 2 ^ 9 : Nat) ∧
    GETARG_B (toInt32 w) = (w / 2 ^ 23 % 2 ^ 9 : Nat) ∧
    GETARG_Bx (toInt32 w) = (w / 2 ^ 14 % 2 ^ 18 : Nat) ∧
    GETARG_Ax (toInt32 w) = (w / 2 ^ 6 % 2 ^ 26 : Nat) ∧
    GETARG_sBx (toInt32 w) = GETARG_Bx (toInt32 w) - 131071 ∧
    ∀ op a b c : Nat, op < 64 → a < 256 → b < 512 → c < 512 →
      w = op + a * 2 ^ 6 + c * 2 ^ 14 + b * 2 ^ 23 →
      GET_OPCODE (toInt32 w) = op ∧ GETARG_A (toInt32 w) = a ∧
      GETARG_B (toInt32 w) = b ∧ GETARG_C (toInt32 w) = c := by
  simp only [Nat.reducePow] at hw ⊢
  obtain ⟨g1, g2, g3, g4, g5, g6⟩ := decode_nat w hw
  refine ⟨g1, g2, g3, g4, g5, g6, GETARG_sBx_eq w hw, ?_⟩
  intro op a b c hop ha hb hc hpack
  obtain ⟨k1, k2, k3, k4⟩ := pack_fields w op a b c hop ha hb hc hpack
  rw [g1, g2, g4, g3, k1, k2, k3, k4]
  exact ⟨rfl, rfl, rfl, rfl⟩
theorem decode_word_witness :
    GET_OPCODE (toInt32 (2147483678 : Nat)) = (30 : Nat) ∧
    GETARG_A (toInt32 (2147483678 : Nat)) = (0 : Nat) ∧
    GETARG_B (toInt32 (2147483678 : Nat)) = (256 : Nat) ∧
    GETARG_C (toInt32 (2147483678 : Nat)) = (0 : Nat) :=
  (decode_word 2147483678 (by norm_num)).2.2.2.2.2.2.2 30 0 256 0
    (by norm_num) (by norm_num) (by norm_num) (by norm_num) (by norm_num)

/-! ## Type predicates -/

theorem GetTypeTag_lt (v : TValue) : toUInt32 v.GetTypeTag < 64 := by
  have h : v.GetTypeTag = v.tt_ % 2 ^ 6 := land_mask_int v.tt_ 6
  rw [h, toUInt32]
  omega

/-- C24, on the code: the seven predicates compare `tt_ & 0x3F`, which is
below 64, with a tag that has bit 6 (64) set, so each of them is false for
every `TValue`; in particular `IsLClosure` is false for the tag
`LUA_TLCL | 0x40` of a Lua closure, and likewise for the other six. -/
theorem collectable_predicates_false :
    (∀ v : TValue, v.IsLClosure = false ∧ v.IsCClosure = false ∧ v.IsTable = false ∧
      v.IsShrString = false ∧ v.IsLngString = false ∧ v.IsFullUserData = false ∧
      v.IsThread = false) ∧
    TValue.IsLClosure { value_ := 0x6000, tt_ := ((LUA_TLCL ||| 0x40 : Nat) : Int) } = false ∧
    TValue.IsCClosure { value_ := 0x6000, tt_ := ((LUA_TCCL ||| 0x40 : Nat) : Int) } = false ∧
    TValue.IsTable { value_ := 0x6000, tt_ := ((LUA_TTABLE ||| 0x40 : Nat) : Int) } = false ∧
    TValue.IsShrString { value_ := 0x6000, tt_ := ((LUA_TSHRSTR ||| 0x40 : Nat) : Int) } = false ∧
    TValue.IsLngString { value_ := 0x6000, tt_ := ((LUA_TLNGSTR ||| 0x40 : Nat) : Int) } = false ∧
    TValue.IsFullUserData
      { value_ := 0x6000, tt_ := ((LUA_TUSERDATA ||| 0x40 : Nat) : Int) } = false ∧
    TValue.IsThread { value_ := 0x6000, tt_ := ((LUA_TTHREAD ||| 0x40 : Nat) : Int) } = false := by
  have hall : ∀ v : TValue, v.IsLClosure = false ∧ v.IsCClosure = false ∧ v.IsTable = false ∧
      v.IsShrString = false ∧ v.IsLngString = false ∧ v.IsFullUserData = false ∧
      v.IsThread = false := by
    intro v
    have h := GetTypeTag_lt v
    have c1 : MarkAsCollectableType LUA_TLCL = 70 := by decide
    have c2 : MarkAsCollectableType LUA_TCCL = 102 := by decide
    have c3 : MarkAsCollectableType LUA_TTABLE = 69 := by decide
    have c4 : MarkAsCollectableType LUA_TSHRSTR = 68 := by decide
    have c5 : MarkAsCollectableType LUA_TLNGSTR = 84 := by decide
    have c6 : MarkAsCollectableType LUA_TUSERDATA = 71 := by decide
    have c7 : MarkAsCollectableType LUA_TTHREAD = 72 := by decide
    simp only [TValue.IsLClosure, TValue.IsCClosure, TValue.IsTable, TValue.IsShrString,
      TValue.IsLngString, TValue.IsFullUserData, TValue.IsThread, c1, c2, c3, c4, c5, c6, c7,
      decide_eq_false_iff_not]
    refine ⟨?_, ?_, ?_, ?_, ?_, ?_, ?_⟩ <;> omega
  exact ⟨hall, (hall _).1, (hall _).2.1, (hall _).2.2.1, (hall _).2.2.2.1, (hall _).2.2.2.2.1,
    (hall _).2.2.2.2.2.1, (hall _).2.2.2.2.2.2⟩

/-! ## The opcode mode table -/

theorem testAMode_table :
    ∀ n ∈ List.range 47,
      (testAMode (n : Int) = .ok 0 ↔
        (n : Int) ∈ [OP_SETTABUP, OP_SETUPVAL, OP_SETTABLE, OP_JMP, OP_EQ, OP_LT, OP_LE, OP_TEST,
          OP_RETURN, OP_TFORCALL, OP_SETLIST, OP_EXTRAARG]) ∧
      (testAMode (n : Int) = .ok 0 ∨ testAMode (n : Int) = .ok 64) := by
  decide

/-- C22: `luaP_opmodes` has 47 entries, one for each opcode from `OP_MOVE`
(0) to `OP_EXTRAARG` (46); each entry is `(T<<7)|(A<<6)|(B<<4)|(C<<2)|mode`
for the values of the table of Lua 5.3; and for an opcode of the enum
`testAMode` is zero exactly for `OP_SETTABUP`, `OP_SETUPVAL`, `OP_SETTABLE`,
`OP_JMP`, `OP_EQ`, `OP_LT`, `OP_LE`, `OP_TEST`, `OP_RETURN`, `OP_TFORCALL`,
`OP_SETLIST` and `OP_EXTRAARG`, and is bit 6 (64) for the 35 others. -/
theorem opmodes_table :
    luaP_opmodes.length = 47 ∧ OP_MOVE = 0 ∧ OP_EXTRAARG = 46 ∧
    luaP_opmodes = lua53_opmodes.map (fun e =>
      (e.1 <<< 7) ||| (e.2.1 <<< 6) ||| (e.2.2.1 <<< 4) ||| (e.2.2.2.1 <<< 2) ||| e.2.2.2.2) ∧
    (∀ op : Int, OP_MOVE ≤ op → op ≤ OP_EXTRAARG →
      (testAMode op = .ok 0 ↔
        op ∈ [OP_SETTABUP, OP_SETUPVAL, OP_SETTABLE, OP_JMP, OP_EQ, OP_LT, OP_LE, OP_TEST,
          OP_RETURN, OP_TFORCALL, OP_SETLIST, OP_EXTRAARG]) ∧
      (testAMode op = .ok 0 ∨ testAMode op = .ok 64)) ∧
    ((List.range 47).filter (fun n => testAMode (n : Int) = .ok 64)).length = 35 := by
  refine ⟨by decide, by decide, by decide, by decide, ?_, by decide⟩
  intro op h0 h1
  have h0' : 0 ≤ op := h0
  have h1' : op ≤ 46 := h1
  obtain ⟨n, hn⟩ := Int.eq_ofNat_of_zero_le h0'
  have hlt : n < 47 := by omega
  have h := testAMode_table n (List.mem_range.mpr hlt)
  rw [hn]
  exact h

/-! ## The search for the instruction that sets a register -/

theorem GET_OPCODE_range (i : Int) : 0 ≤ GET_OPCODE i ∧ GET_OPCODE i ≤ 63 := by
  rw [(decode_int i).1]
  omega

theorem testAMode_valid (op : Int) (h0 : 0 ≤ op) (h1 : op ≤ 46) :
    testAMode op = .ok 0 ∨ testAMode op = .ok 64 := by
  obtain ⟨n, hn⟩ := Int.eq_ofNat_of_zero_le h0
  have hlt : n < 47 := by omega
  have h := (testAMode_table n (List.mem_range.mpr hlt)).2
  rw [hn]
  exact h

theorem ite_ok_pair (c : Prop) [Decidable c] (a b j : Int) :
    (if c then (Outcome.ok (a, j) : Outcome (Int × Int)) else .ok (b, j)) =
      .ok (if c then a else b, j) := by
  split <;> rfl

theorem writesReg_LOADNIL (i reg : Int) (h : GET_OPCODE i = OP_LOADNIL) :
    writesReg i reg = decide (GETARG_A i ≤ reg ∧ reg ≤ GETARG_A i + GETARG_B i) := by
  have c1 : ¬ OP_LOADNIL = OP_TFORCALL := by decide
  have c2 : ¬ OP_LOADNIL = OP_CALL := by decide
  have c3 : ¬ OP_LOADNIL = OP_TAILCALL := by decide
  simp [writesReg, h, c1, c2, c3]

theorem writesReg_TFORCALL (i reg : Int) (h : GET_OPCODE i = OP_TFORCALL) :
    writesReg i reg = decide (reg ≥ GETARG_A i + 2) := by
  have c1 : ¬ OP_TFORCALL = OP_LOADNIL := by decide
  have c2 : ¬ OP_TFORCALL = OP_CALL := by decide
  have c3 : ¬ OP_TFORCALL = OP_TAILCALL := by decide
  simp [writesReg, h, c1, c2, c3]

theorem writesReg_CALL (i reg : Int) (h : GET_OPCODE i = OP_CALL ∨ GET_OPCODE i = OP_TAILCALL) :
    writesReg i reg = decide (reg ≥ GETARG_A i) := by
  have c1 : ¬ OP_CALL = OP_LOADNIL := by decide
  have c2 : ¬ OP_CALL = OP_TFORCALL := by decide
  have c3 : ¬ OP_TAILCALL = OP_LOADNIL := by decide
  have c4 : ¬ OP_TAILCALL = OP_TFORCALL := by decide
  rcases h with h | h
  · simp [writesReg, h, c1, c2]
  · simp [writesReg, h, c3, c4]

theorem writesReg_other (i reg : Int) (h1 : GET_OPCODE i ≠ OP_LOADNIL)
    (h2 : GET_OPCODE i ≠ OP_TFORCALL) (h3 : GET_OPCODE i ≠ OP_CALL)
    (h4 : GET_OPCODE i ≠ OP_TAILCALL) (h5 : GET_OPCODE i ≠ OP_JMP) :
    writesReg i reg = decide (testAMode (GET_OPCODE i) = .ok 64 ∧ reg = GETARG_A i) := by
  simp [writesReg, h1, h2, h3, h4, h5]

theorem writesReg_JMP (i reg : Int) (h : GET_OPCODE i = OP_JMP) : writesReg i reg = false := by
  have c1 : ¬ OP_JMP = OP_LOADNIL := by decide
  have c2 : ¬ OP_JMP = OP_TFORCALL := by decide
  have c3 : ¬ OP_JMP = OP_CALL := by decide
  have c4 : ¬ OP_JMP = OP_TAILCALL := by decide
  simp [writesReg, h, c1, c2, c3, c4]

/-- One step of the loop on an instruction with a valid opcode other than
`OP_JMP`: the tracked value becomes `filterpc pc jmptarget` when the
instruction sets `reg`, and is kept otherwise. -/
theorem step_no_jump (lastpc reg pc i setreg jmptarget : Int)
    (hv : GET_OPCODE i ≤ 46) (hj : GET_OPCODE i ≠ OP_JMP) :
    findsetreg.step lastpc reg pc i setreg jmptarget =
      .ok (if writesReg i reg then filterpc pc jmptarget else setreg, jmptarget) := by
  have h0 := (GET_OPCODE_range i).1
  have c1 : ¬ OP_TFORCALL = OP_LOADNIL := by decide
  unfold findsetreg.step
  by_cases h1 : GET_OPCODE i = OP_LOADNIL
  · simp only [h1, if_true, ite_ok_pair]
    rw [writesReg_LOADNIL i reg h1]
    simp only [decide_eq_true_eq]
  · by_cases h2 : GET_OPCODE i = OP_TFORCALL
    · simp only [h2, c1, if_true, if_false, ite_ok_pair]
      rw [writesReg_TFORCALL i reg h2]
      simp only [decide_eq_true_eq]
    · by_cases h3 : GET_OPCODE i = OP_CALL ∨ GET_OPCODE i = OP_TAILCALL
      · simp only [h1, h2, h3, if_true, if_false, ite_ok_pair]
        rw [writesReg_CALL i reg h3]
        simp only [decide_eq_true_eq]
      · have h3a : GET_OPCODE i ≠ OP_CALL := fun h => h3 (Or.inl h)
        have h3b : GET_OPCODE i ≠ OP_TAILCALL := fun h => h3 (Or.inr h)
        simp only [h1, h2, h3, hj, if_false]
        rw [writesReg_other i reg h1 h2 h3a h3b hj]
        rcases testAMode_valid (GET_OPCODE i) h0 hv with ht | ht
        · simp [ht]
        · simp only [ht, Outcome.bind_eq, Outcome.bind_ok, Outcome.pure_eq, true_and,
            decide_eq_true_eq]
          by_cases hr : reg = GETARG_A i
          · simp [hr]
          · simp [hr]

/-- One step of the loop on `OP_JMP`: the tracked value is kept. -/
theorem step_jump (lastpc reg pc i setreg jmptarget : Int) (hj : GET_OPCODE i = OP_JMP) :
    ∃ jt, findsetreg.step lastpc reg pc i setreg jmptarget = .ok (setreg, jt) ∧
      jmptarget ≤ jt := by
  have c1 : ¬ OP_JMP = OP_LOADNIL := by decide
  have c2 : ¬ OP_JMP = OP_TFORCALL := by decide
  have c3 : ¬ (OP_JMP = OP_CALL ∨ OP_JMP = OP_TAILCALL) := by decide
  simp only [findsetreg.step, hj, c1, c2, c3, if_false, if_true]
  split
  · split
    · exact ⟨_, rfl, by omega⟩
    · exact ⟨_, rfl, le_refl _⟩
  · exact ⟨_, rfl, le_refl _⟩

theorem loop_succ (R : Remote) (p : Proto) (lastpc reg : Int) (n : Nat)
    (pc setreg jmptarget i s j : Int) (hi : readInstruction R p pc = .ok i)
    (hs : findsetreg.step lastpc reg pc i setreg jmptarget = .ok (s, j)) :
    findsetreg.loop R p lastpc reg (n + 1) pc setreg jmptarget =
      findsetreg.loop R p lastpc reg n (pc + 1) s j := by
  simp only [findsetreg.loop, hi, hs, Outcome.bind_eq, Outcome.bind_ok]

theorem loop_succ_inv (R : Remote) (p : Proto) (lastpc reg : Int) (n : Nat)
    (pc setreg jmptarget r : Int)
    (h : findsetreg.loop R p lastpc reg (n + 1) pc setreg jmptarget = .ok r) :
    ∃ i s j, readInstruction R p pc = .ok i ∧
      findsetreg.step lastpc reg pc i setreg jmptarget = .ok (s, j) ∧
      findsetreg.loop R p lastpc reg n (pc + 1) s j = .ok r := by
  simp only [findsetreg.loop, Outcome.bind_eq] at h
  cases hi : readInstruction R p pc with
  | ok i =>
    rw [hi] at h
    simp only [Outcome.bind_ok] at h
    cases hs : findsetreg.step lastpc reg pc i setreg jmptarget with
    | ok sj =>
      rw [hs] at h
      exact ⟨i, sj.1, sj.2, rfl, hs, h⟩
    | throw e => rw [hs] at h; simp at h
    | outOfFuel => rw [hs] at h; simp at h
  | throw e => rw [hi] at h; simp at h
  | outOfFuel => rw [hi] at h; simp at h

/-- Over instructions none of which sets `reg`, the loop keeps the tracked
value. -/
theorem loop_no_write (R : Remote) (p : Proto) (code : Int → Int) (lastpc reg : Int) (n : Nat) :
    ∀ (pc setreg jmptarget : Int), CodeRead R p code pc (pc + n) →
      (∀ q, pc ≤ q → q < pc + n → GET_OPCODE (code q) ≤ 46) →
      (∀ q, pc ≤ q → q < pc + n → writesReg (code q) reg = false) →
      findsetreg.loop R p lastpc reg n pc setreg jmptarget = .ok setreg := by
  induction n with
  | zero => intro pc setreg jmptarget _ _ _; rfl
  | succ n ih =>
    intro pc setreg jmptarget hcode hvalid hno
    have hi := hcode pc (le_refl _) (by push_cast; omega)
    have hv := hvalid pc (le_refl _) (by push_cast; omega)
    have hw := hno pc (le_refl _) (by push_cast; omega)
    have hrest : ∀ (s j : Int),
        findsetreg.step lastpc reg pc (code pc) setreg jmptarget = .ok (s, j) → s = setreg →
        findsetreg.loop R p lastpc reg (n + 1) pc setreg jmptarget = .ok setreg := by
      intro s j hs he
      rw [loop_succ R p lastpc reg n pc setreg jmptarget (code pc) s j hi hs, he]
      apply ih
      · intro q h1 h2
        exact hcode q (by omega) (by push_cast; omega)
      · intro q h1 h2
        exact hvalid q (by omega) (by push_cast; omega)
      · intro q h1 h2
        exact hno q (by omega) (by push_cast; omega)
    by_cases hj : GET_OPCODE (code pc) = OP_JMP
    · obtain ⟨jt, hs, _⟩ := step_jump lastpc reg pc (code pc) setreg jmptarget hj
      exact hrest setreg jt hs rfl
    · have hs := step_no_jump lastpc reg pc (code pc) setreg jmptarget hv hj
      rw [hw] at hs
      exact hrest setreg jmptarget hs rfl

theorem filterpc_zero (pc : Int) (h : 0 ≤ pc) : filterpc pc 0 = pc := by
  simp [filterpc, h]

/-- The loop on code without `OP_JMP`, from a non-negative `pc` with no jump
target: the result is the last instruction that sets `reg`, or the value
tracked at entry when there is none. -/
theorem loop_jump_free (R : Remote) (p : Proto) (code : Int → Int) (lastpc reg : Int) (n : Nat) :
    ∀ (pc setreg : Int), 0 ≤ pc → CodeRead R p code pc (pc + n) →
      (∀ q, pc ≤ q → q < pc + n → GET_OPCODE (code q) ≤ 46) →
      (∀ q, pc ≤ q → q < pc + n → GET_OPCODE (code q) ≠ OP_JMP) →
      ∃ r, findsetreg.loop R p lastpc reg n pc setreg 0 = .ok r ∧
        ((r = setreg ∧ ∀ q, pc ≤ q → q < pc + n → writesReg (code q) reg = false) ∨
         (pc ≤ r ∧ r < pc + n ∧ writesReg (code r) reg = true ∧
           ∀ q, r < q → q < pc + n → writesReg (code q) reg = false)) := by
  induction n with
  | zero =>
    intro pc setreg _ _ _ _
    exact ⟨setreg, rfl, Or.inl ⟨rfl, fun q h1 h2 => by simp at h2; omega⟩⟩
  | succ n ih =>
    intro pc setreg hpc hcode hvalid hnj
    have hi := hcode pc (le_refl _) (by push_cast; omega)
    have hv := hvalid pc (le_refl _) (by push_cast; omega)
    have hj := hnj pc (le_refl _) (by push_cast; omega)
    have hs := step_no_jump lastpc reg pc (code pc) setreg 0 hv hj
    rw [filterpc_zero pc hpc] at hs
    rw [loop_succ R p lastpc reg n pc setreg 0 (code pc) _ 0 hi hs]
    obtain ⟨r, hr, hcases⟩ := ih (pc + 1)
      (if writesReg (code pc) reg = true then pc else setreg) (by omega)
      (fun q h1 h2 => hcode q (by omega) (by push_cast; omega))
      (fun q h1 h2 => hvalid q (by omega) (by push_cast; omega))
      (fun q h1 h2 => hnj q (by omega) (by push_cast; omega))
    refine ⟨r, hr, ?_⟩
    rcases hcases with ⟨he, hno⟩ | ⟨h1, h2, h3, h4⟩
    · by_cases hw : writesReg (code pc) reg = true
      · rw [if_pos hw] at he
        refine Or.inr ⟨by omega, by push_cast; omega, by rw [he]; exact hw, ?_⟩
        intro q hq1 hq2
        exact hno q (by omega) (by push_cast at hq2 ⊢; omega)
      · rw [if_neg hw] at he
        refine Or.inl ⟨he, ?_⟩
        intro q hq1 hq2
        by_cases hq : q = pc
        · rw [hq]
          simpa using hw
        · exact hno q (by omega) (by push_cast at hq2 ⊢; omega)
    · refine Or.inr ⟨by omega, by push_cast; omega, h3, ?_⟩
      intro q hq1 hq2
      exact h4 q hq1 (by push_cast at hq2 ⊢; omega)

/-- One step of the loop on `OP_JMP`, in full. -/
theorem step_JMP_eq (lastpc reg pc i setreg jmptarget : Int) (hj : GET_OPCODE i = OP_JMP) :
    findsetreg.step lastpc reg pc i setreg jmptarget =
      .ok (setreg,
        if pc < pc + 1 + GETARG_sBx i ∧ pc + 1 + GETARG_sBx i ≤ lastpc then
          (if pc + 1 + GETARG_sBx i > jmptarget then pc + 1 + GETARG_sBx i else jmptarget)
        else jmptarget) := by
  have c1 : ¬ OP_JMP = OP_LOADNIL := by decide
  have c2 : ¬ OP_JMP = OP_TFORCALL := by decide
  have c3 : ¬ (OP_JMP = OP_CALL ∨ OP_JMP = OP_TAILCALL) := by decide
  simp only [findsetreg.step, hj, c1, c2, c3, if_false, if_true]
  split
  · split <;> rfl
  · rfl

theorem jmp_word :
    GET_OPCODE (toInt32 2147483678) = OP_JMP ∧ GETARG_sBx (toInt32 2147483678) = 1 := by
  have h := decode_nat 2147483678 (by norm_num)
  have hs := GETARG_sBx_eq 2147483678 (by norm_num)
  have e : ((2147483678 : Nat) : Int) = 2147483678 := by norm_num
  rw [e] at h hs
  refine ⟨?_, ?_⟩
  · rw [h.1]
    decide
  · rw [hs, h.2.2.2.2.1]
    norm_num

theorem findsetreg_jump_example (R : Remote)
    (h0 : readInstruction R exampleProto 0 = .ok (toInt32 1))
    (h1 : readInstruction R exampleProto 1 = .ok (toInt32 2147483678))
    (w : Int) (h2 : readInstruction R exampleProto 2 = .ok w)
    (hw : GET_OPCODE w ≤ 46) (hj : GET_OPCODE w ≠ OP_JMP) :
    findsetreg R exampleProto 3 0 = .ok (if writesReg w 0 then -1 else 0) := by
  have s0 : findsetreg.step 3 0 0 (toInt32 1) (-1) 0 = .ok (0, 0) := by decide
  have s1 : findsetreg.step 3 0 1 (toInt32 2147483678) 0 0 = .ok (0, 3) := by
    rw [step_JMP_eq 3 0 1 _ 0 0 jmp_word.1, jmp_word.2]
    decide
  have s2 := step_no_jump 3 0 2 w 0 3 hw hj
  have f : filterpc 2 3 = -1 := by decide
  rw [f] at s2
  show findsetreg.loop R exampleProto 3 0 3 0 (-1) 0 = _
  rw [loop_succ R exampleProto 3 0 2 0 (-1) 0 _ _ _ h0 s0]
  show findsetreg.loop R exampleProto 3 0 2 1 0 0 = _
  rw [loop_succ R exampleProto 3 0 1 1 0 0 _ _ _ h1 s1]
  show findsetreg.loop R exampleProto 3 0 1 2 0 3 = _
  rw [loop_succ R exampleProto 3 0 0 2 0 3 _ _ _ h2 s2]
  rfl

/-- C25, as stated, fails: in `exampleJumpRemote` register 0 is written at
pc 0 unconditionally and again at pc 2, below the jump target 3 of the
`OP_JMP` at pc 1.  `findsetreg(p, 3, 0)` returns -1, whereas with an
instruction at pc 2 that does not write register 0 (`exampleJumpOtherRemote`)
it returns 0, the earlier write: the conditional write is not ignored. -/
theorem conditional_write_counterexample :
    readInstruction exampleJumpRemote exampleProto 1 = .ok (toInt32 2147483678) ∧
    GET_OPCODE (toInt32 2147483678) = OP_JMP ∧ 1 + 1 + GETARG_sBx (toInt32 2147483678) = 3 ∧
    readInstruction exampleJumpRemote exampleProto 2 = .ok (toInt32 16385) ∧
    writesReg (toInt32 16385) 0 = true ∧
    findsetreg exampleJumpRemote exampleProto 3 0 = .ok (-1) ∧
    readInstruction exampleJumpOtherRemote exampleProto 2 = .ok (toInt32 16449) ∧
    writesReg (toInt32 16449) 0 = false ∧
    findsetreg exampleJumpOtherRemote exampleProto 3 0 = .ok 0 := by
  have e1 := findsetreg_jump_example exampleJumpRemote (by decide) (by decide) (toInt32 16385)
    (by decide) (by decide) (by decide)
  have e2 := findsetreg_jump_example exampleJumpOtherRemote (by decide) (by decide)
    (toInt32 16449) (by decide) (by decide) (by decide)
  have w1 : writesReg (toInt32 16385) 0 = true := by decide
  have w2 : writesReg (toInt32 16449) 0 = false := by decide
  rw [w1] at e1
  rw [w2] at e2
  refine ⟨by decide, jmp_word.1, ?_, by decide, w1, e1, by decide, w2, e2⟩
  rw [jmp_word.2]
  rfl

/-- C25 (amended): when the loop of `findsetreg` is at an instruction at `pc`
that sets `reg` while `pc` is below the current jump target, the tracked
value becomes -1 whatever it was; if none of the `n` instructions after it
sets `reg`, the loop, and with it `findsetreg`, returns -1.  The
instructions are read from the code and have valid opcodes. -/
theorem conditional_write (R : Remote) (p : Proto) (code : Int → Int) (lastpc reg : Int)
    (n : Nat) (pc setreg jmptarget : Int)
    (hcode : CodeRead R p code pc (pc + n + 1))
    (hvalid : ∀ q, pc ≤ q → q < pc + n + 1 → GET_OPCODE (code q) ≤ 46)
    (hw : writesReg (code pc) reg = true) (hc : pc < jmptarget)
    (hno : ∀ q, pc < q → q < pc + n + 1 → writesReg (code q) reg = false) :
    findsetreg.step lastpc reg pc (code pc) setreg jmptarget = .ok (-1, jmptarget) ∧
    findsetreg.loop R p lastpc reg (n + 1) pc setreg jmptarget = .ok (-1) := by
  have hi := hcode pc (le_refl _) (by omega)
  have hv := hvalid pc (le_refl _) (by omega)
  have hj : GET_OPCODE (code pc) ≠ OP_JMP := by
    intro h
    rw [writesReg_JMP _ _ h] at hw
    exact absurd hw (by decide)
  have hs := step_no_jump lastpc reg pc (code pc) setreg jmptarget hv hj
  have hf : filterpc pc jmptarget = -1 := by simp [filterpc, hc]
  rw [hw, if_pos rfl, hf] at hs
  refine ⟨hs, ?_⟩
  rw [loop_succ R p lastpc reg n pc setreg jmptarget (code pc) (-1) jmptarget hi hs]
  apply loop_no_write R p code lastpc reg n (pc + 1) (-1) jmptarget
  · intro q h1 h2
    exact hcode q (by omega) (by omega)
  · intro q h1 h2
    exact hvalid q (by omega) (by omega)
  · intro q h1 h2
    exact hno q (by omega) (by omega)

theorem conditional_write_witness :
    findsetreg.step 3 0 2 (toInt32 16385) 0 3 = .ok (-1, 3) ∧
    findsetreg.loop exampleJumpRemote exampleProto 3 0 1 2 0 3 = .ok (-1) :=
  conditional_write exampleJumpRemote exampleProto (fun _ => toInt32 16385) 3 0 0 2 0 3
    (by
      intro q h1 h2
      have e : q = 2 := by omega
      rw [e]
      decide)
    (by
      intro q _ _
      show GET_OPCODE (toInt32 16385) ≤ 46
      decide)
    (by decide) (by decide)
    (by
      intro q h1 h2
      omega)

/-- C26: on code whose instructions in `[0, lastpc)` are read, have valid
opcodes and are not `OP_JMP`, `findsetreg` returns the greatest `pc <
lastpc` whose instruction sets `reg` (as `writesReg` says), and -1 when
there is none, in particular when `lastpc ≤ 0`. -/
theorem findsetreg_jump_free (R : Remote) (p : Proto) (code : Int → Int) (lastpc reg : Int)
    (hcode : CodeRead R p code 0 lastpc)
    (hvalid : ∀ q, 0 ≤ q → q < lastpc → GET_OPCODE (code q) ≤ 46)
    (hnj : ∀ q, 0 ≤ q → q < lastpc → GET_OPCODE (code q) ≠ OP_JMP) :
    (lastpc ≤ 0 → findsetreg R p lastpc reg = .ok (-1)) ∧
    ∃ r, findsetreg R p lastpc reg = .ok r ∧
      ((r = -1 ∧ ∀ q, 0 ≤ q → q < lastpc → writesReg (code q) reg = false) ∨
       (0 ≤ r ∧ r < lastpc ∧ writesReg (code r) reg = true ∧
         ∀ q, r < q → q < lastpc → writesReg (code q) reg = false)) := by
  have hn : ∀ q : Int, 0 ≤ q → q < 0 + (lastpc.toNat : Int) → q < lastpc := by
    intro q h0 h
    omega
  have hn2 : ∀ q : Int, 0 ≤ q → q < lastpc → q < 0 + (lastpc.toNat : Int) := by
    intro q h0 h
    omega
  refine ⟨?_, ?_⟩
  · intro h
    have e : lastpc.toNat = 0 := by omega
    simp only [findsetreg, e]
    rfl
  · obtain ⟨r, hr, hcases⟩ := loop_jump_free R p code lastpc reg lastpc.toNat 0 (-1) (le_refl _)
      (fun q h1 h2 => hcode q h1 (hn q h1 h2))
      (fun q h1 h2 => hvalid q h1 (hn q h1 h2))
      (fun q h1 h2 => hnj q h1 (hn q h1 h2))
    refine ⟨r, hr, ?_⟩
    rcases hcases with ⟨he, hno⟩ | ⟨h1, h2, h3, h4⟩
    · exact Or.inl ⟨he, fun q h0 h => hno q h0 (hn2 q h0 h)⟩
    · exact Or.inr ⟨h1, hn r h1 h2, h3, fun q hq h => h4 q hq (hn2 q (by omega) h)⟩

theorem findsetreg_jump_free_witness :
    (2 ≤ (0 : Int) → findsetreg exampleRemote exampleProto 2 0 = .ok (-1)) ∧
    ∃ r, findsetreg exampleRemote exampleProto 2 0 = .ok r ∧
      ((r = -1 ∧ ∀ q : Int, 0 ≤ q → q < 2 → writesReg (exampleCode q) 0 = false) ∨
       (0 ≤ r ∧ r < 2 ∧ writesReg (exampleCode r) 0 = true ∧
         ∀ q : Int, r < q → q < 2 → writesReg (exampleCode q) 0 = false)) :=
  findsetreg_jump_free exampleRemote exampleProto exampleCode 2 0
    (by
      intro q h1 h2
      have e : q = 0 ∨ q = 1 := by omega
      rcases e with e | e <;> rw [e] <;> decide)
    (by
      intro q h1 h2
      have e : q = 0 ∨ q = 1 := by omega
      rcases e with e | e <;> rw [e] <;> decide)
    (by
      intro q h1 h2
      have e : q = 0 ∨ q = 1 := by omega
      rcases e with e | e <;> rw [e] <;> decide)

/-! ## The index into the opcode table -/

/-- C28, as stated, fails: the word 47 is read from the code of
`exampleBadOpcode`; its opcode field is 47, the table has 47 entries
(indices 0..46), and `findsetreg` passes 47 to `testAMode`, which indexes
past the end of the table. -/
theorem opcode_index_counterexample :
    readInstruction exampleBadOpcode exampleProto 0 = .ok (toInt32 47) ∧
    GET_OPCODE (toInt32 47) = 47 ∧ luaP_opmodes.length = 47 ∧
    testAMode (GET_OPCODE (toInt32 47)) = .throw .UndefinedBehavior ∧
    findsetreg exampleBadOpcode exampleProto 1 0 = .throw .UndefinedBehavior := by
  refine ⟨by decide, by decide, by decide, by decide, by decide⟩

/-- C28 (amended): for every 32-bit instruction word `w`, the opcode that
`GET_OPCODE` returns is the field `w mod 64`, between 0 and 63; `testAMode`
indexes inside `luaP_opmodes` exactly when that field is at most 46, and
then a step of `findsetreg` on `w` returns normally; for a field from 47 to
63 the index is outside the table. -/
theorem opcode_index (w : Nat) (hw : w < 2 ^ 32) :
    GET_OPCODE (toInt32 w) = (w % 64 : Nat) ∧
    0 ≤ GET_OPCODE (toInt32 w) ∧ GET_OPCODE (toInt32 w) ≤ 63 ∧
    ((∃ v, testAMode (GET_OPCODE (toInt32 w)) = .ok v) ↔ w % 64 ≤ 46) ∧
    (46 < w % 64 → testAMode (GET_OPCODE (toInt32 w)) = .throw .UndefinedBehavior) ∧
    (w % 64 ≤ 46 → ∀ lastpc reg pc setreg jmptarget : Int, ∃ s j,
      findsetreg.step lastpc reg pc (toInt32 w) setreg jmptarget = .ok (s, j)) := by
  have hw' : w < 4294967296 := by
    have e : (2 : Nat) ^ 32 = 4294967296 := by norm_num
    rw [e] at hw
    exact hw
  have g := (decode_nat w hw').1
  have hr := GET_OPCODE_range (toInt32 w)
  have hlen : luaP_opmodes.length = 47 := by decide
  have hbad : 46 < w % 64 → testAMode (GET_OPCODE (toInt32 w)) = .throw .UndefinedBehavior := by
    intro h
    rw [g]
    simp only [testAMode, hlen]
    rw [if_neg]
    push_cast
    omega
  refine ⟨g, hr.1, hr.2, ⟨?_, ?_⟩, hbad, ?_⟩
  · rintro ⟨v, hv⟩
    by_contra hc
    rw [hbad (by omega)] at hv
    exact absurd hv (by simp)
  · intro h
    have h1 : GET_OPCODE (toInt32 w) ≤ 46 := by rw [g]; omega
    rcases testAMode_valid _ hr.1 h1 with ht | ht
    · exact ⟨_, ht⟩
    · exact ⟨_, ht⟩
  · intro h lastpc reg pc setreg jmptarget
    have h1 : GET_OPCODE (toInt32 w) ≤ 46 := by rw [g]; omega
    by_cases hj : GET_OPCODE (toInt32 w) = OP_JMP
    · obtain ⟨jt, hs, _⟩ := step_jump lastpc reg pc (toInt32 w) setreg jmptarget hj
      exact ⟨_, _, hs⟩
    · exact ⟨_, _, step_no_jump lastpc reg pc (toInt32 w) setreg jmptarget h1 hj⟩

theorem opcode_index_witness :
    GET_OPCODE (toInt32 (2147483678 : Nat)) = ((2147483678 % 64 : Nat) : Int) ∧
    ∃ s j, findsetreg.step 3 0 1 (toInt32 (2147483678 : Nat)) 0 0 = .ok (s, j) :=
  ⟨(opcode_index 2147483678 (by norm_num)).1,
    (opcode_index 2147483678 (by norm_num)).2.2.2.2.2 (by norm_num) 3 0 1 0 0⟩

/-! ## Termination of the name recovery -/

theorem bind_ne_outOfFuel {α β : Type} (x : Outcome α) (f : α → Outcome β)
    (hx : x ≠ .outOfFuel) (hf : ∀ v, x = .ok v → f v ≠ .outOfFuel) :
    x.bind f ≠ .outOfFuel := by
  cases x with
  | ok v => exact hf v rfl
  | throw e => simp [Outcome.bind]
  | outOfFuel => exact absurd rfl hx

theorem deref_ne_outOfFuel {α : Type} (read : Nat → Option α) (pointer : Nat) :
    deref read pointer ≠ .outOfFuel := by
  unfold deref
  split
  · simp
  · split <;> simp

theorem readInstruction_ne_outOfFuel (R : Remote) (p : Proto) (pc : Int) :
    readInstruction R p pc ≠ .outOfFuel := by
  simp only [readInstruction, Outcome.bind_eq, Outcome.pure_eq]
  exact bind_ne_outOfFuel _ _ (deref_ne_outOfFuel _ _) (fun _ _ => by simp)

theorem getlocalname_loop_ne_outOfFuel (R : Remote)
    (hR : ∀ a n, R.ReadString a n ≠ .outOfFuel) (f : Proto) (pc : Int) (n : Nat) :
    ∀ i local_number : Int, luaF_getlocalname.loop R f pc n i local_number ≠ .outOfFuel := by
  induction n with
  | zero => intro i l; simp [luaF_getlocalname.loop]
  | succ n ih =>
    intro i l
    simp only [luaF_getlocalname.loop, Outcome.bind_eq]
    apply bind_ne_outOfFuel _ _ (deref_ne_outOfFuel _ _)
    intro loc _
    split
    · split
      · split
        · exact hR _ _
        · exact ih _ _
      · exact ih _ _
    · simp

theorem getlocalname_ne_outOfFuel (R : Remote)
    (hR : ∀ a n, R.ReadString a n ≠ .outOfFuel) (f : Proto) (local_number pc : Int) :
    luaF_getlocalname R f local_number pc ≠ .outOfFuel :=
  getlocalname_loop_ne_outOfFuel R hR f pc _ _ _

theorem upvalname_ne_outOfFuel (R : Remote)
    (hR : ∀ a n, R.ReadString a n ≠ .outOfFuel) (p : Proto) (uv : Int) :
    upvalname R p uv ≠ .outOfFuel := by
  simp only [upvalname, Outcome.bind_eq, Outcome.pure_eq]
  split
  · simp
  · apply bind_ne_outOfFuel _ _ (deref_ne_outOfFuel _ _)
    intro desc _
    split
    · simp
    · exact hR _ _

theorem step_ne_outOfFuel (lastpc reg pc i setreg jmptarget : Int) :
    findsetreg.step lastpc reg pc i setreg jmptarget ≠ .outOfFuel := by
  by_cases hj : GET_OPCODE i = OP_JMP
  · obtain ⟨jt, hs, _⟩ := step_jump lastpc reg pc i setreg jmptarget hj
    rw [hs]
    simp
  · by_cases hv : GET_OPCODE i ≤ 46
    · rw [step_no_jump lastpc reg pc i setreg jmptarget hv hj]
      simp
    · have hlen : luaP_opmodes.length = 47 := by decide
      have ht : testAMode (GET_OPCODE i) = .throw .UndefinedBehavior := by
        simp only [testAMode, hlen]
        rw [if_neg]
        push_cast
        omega
      have c1 : GET_OPCODE i ≠ OP_LOADNIL := by
        intro h; rw [h] at hv; exact hv (by decide)
      have c2 : GET_OPCODE i ≠ OP_TFORCALL := by
        intro h; rw [h] at hv; exact hv (by decide)
      have c3 : ¬ (GET_OPCODE i = OP_CALL ∨ GET_OPCODE i = OP_TAILCALL) := by
        rintro (h | h) <;> rw [h] at hv <;> exact hv (by decide)
      simp [findsetreg.step, c1, c2, c3, hj, ht]

/-- What `findsetreg` can return: -1, or a `pc` with `0 ≤ pc < lastpc`. -/
theorem step_result (lastpc reg pc i setreg jmptarget s j : Int)
    (h : findsetreg.step lastpc reg pc i setreg jmptarget = .ok (s, j)) :
    s = setreg ∨ s = -1 ∨ s = pc := by
  by_cases hj : GET_OPCODE i = OP_JMP
  · obtain ⟨jt, hs, _⟩ := step_jump lastpc reg pc i setreg jmptarget hj
    rw [hs] at h
    simp only [Outcome.ok.injEq, Prod.mk.injEq] at h
    exact Or.inl h.1.symm
  · by_cases hv : GET_OPCODE i ≤ 46
    · rw [step_no_jump lastpc reg pc i setreg jmptarget hv hj] at h
      simp only [Outcome.ok.injEq, Prod.mk.injEq] at h
      obtain ⟨h, _⟩ := h
      split at h
      · simp only [filterpc] at h
        split at h
        · exact Or.inr (Or.inl h.symm)
        · exact Or.inr (Or.inr h.symm)
      · exact Or.inl h.symm
    · have hlen : luaP_opmodes.length = 47 := by decide
      have ht : testAMode (GET_OPCODE i) = .throw .UndefinedBehavior := by
        simp only [testAMode, hlen]
        rw [if_neg]
        push_cast
        omega
      have c1 : GET_OPCODE i ≠ OP_LOADNIL := by
        intro h; rw [h] at hv; exact hv (by decide)
      have c2 : GET_OPCODE i ≠ OP_TFORCALL := by
        intro h; rw [h] at hv; exact hv (by decide)
      have c3 : ¬ (GET_OPCODE i = OP_CALL ∨ GET_OPCODE i = OP_TAILCALL) := by
        rintro (h | h) <;> rw [h] at hv <;> exact hv (by decide)
      simp [findsetreg.step, c1, c2, c3, hj, ht] at h

theorem loop_result (R : Remote) (p : Proto) (lastpc reg : Int) (n : Nat) :
    ∀ (pc setreg jmptarget r : Int),
      findsetreg.loop R p lastpc reg n pc setreg jmptarget = .ok r →
      r = setreg ∨ r = -1 ∨ (pc ≤ r ∧ r < pc + n) := by
  induction n with
  | zero =>
    intro pc setreg jmptarget r h
    simp only [findsetreg.loop, Outcome.ok.injEq] at h
    exact Or.inl h.symm
  | succ n ih =>
    intro pc setreg jmptarget r h
    obtain ⟨i, s, j, _, hs, hl⟩ := loop_succ_inv R p lastpc reg n pc setreg jmptarget r h
    have h1 := step_result lastpc reg pc i setreg jmptarget s j hs
    have h2 := ih (pc + 1) s j r hl
    push_cast
    omega

theorem loop_ne_outOfFuel (R : Remote) (p : Proto) (lastpc reg : Int) (n : Nat) :
    ∀ (pc setreg jmptarget : Int),
      findsetreg.loop R p lastpc reg n pc setreg jmptarget ≠ .outOfFuel := by
  induction n with
  | zero => intro pc setreg jmptarget; simp [findsetreg.loop]
  | succ n ih =>
    intro pc setreg jmptarget
    simp only [findsetreg.loop, Outcome.bind_eq]
    apply bind_ne_outOfFuel _ _ (readInstruction_ne_outOfFuel _ _ _)
    intro i _
    apply bind_ne_outOfFuel _ _ (step_ne_outOfFuel _ _ _ _ _ _)
    intro sj _
    exact ih _ _ _

theorem findsetreg_result (R : Remote) (p : Proto) (lastpc reg r : Int)
    (h : findsetreg R p lastpc reg = .ok r) : r = -1 ∨ (0 ≤ r ∧ r < lastpc) := by
  have h1 := loop_result R p lastpc reg lastpc.toNat 0 (-1) 0 r h
  omega

theorem findsetreg_ne_outOfFuel (R : Remote) (p : Proto) (lastpc reg : Int) :
    findsetreg R p lastpc reg ≠ .outOfFuel :=
  loop_ne_outOfFuel R p lastpc reg _ _ _ _

theorem knameWith_ne_outOfFuel (R : Remote) (hR : ∀ a n, R.ReadString a n ≠ .outOfFuel)
    (g : Int → Int → Outcome (Option (List Char) × List Char)) (p : Proto) (pc c : Int)
    (hg : g pc c ≠ .outOfFuel) : knameWith g R p pc c ≠ .outOfFuel := by
  simp only [knameWith, Outcome.bind_eq, Outcome.pure_eq]
  split
  · apply bind_ne_outOfFuel _ _ (deref_ne_outOfFuel _ _)
    intro kvalue _
    split
    · exact hR _ _
    · simp
  · apply bind_ne_outOfFuel _ _ hg
    intro wn _
    split
    · split <;> simp
    · simp

theorem getobjname_ne_outOfFuel (R : Remote) (hR : ∀ a n, R.ReadString a n ≠ .outOfFuel)
    (p : Proto) (fuel : Nat) :
    ∀ lastpc reg : Int, lastpc.toNat + 1 ≤ fuel →
      getobjname R p fuel lastpc reg ≠ .outOfFuel := by
  induction fuel with
  | zero => intro lastpc reg h; omega
  | succ fuel ih =>
    intro lastpc reg hfuel
    simp only [getobjname, Outcome.bind_eq, Outcome.pure_eq]
    apply bind_ne_outOfFuel _ _ (getlocalname_ne_outOfFuel R hR _ _ _)
    intro name _
    split
    · simp
    · apply bind_ne_outOfFuel _ _ (findsetreg_ne_outOfFuel _ _ _ _)
      intro pc hpc
      have hb := findsetreg_result R p lastpc reg pc hpc
      split
      · rename_i hne
        have hrec : ∀ r : Int, getobjname R p fuel pc r ≠ .outOfFuel := by
          intro r
          apply ih
          omega
        apply bind_ne_outOfFuel _ _ (readInstruction_ne_outOfFuel _ _ _)
        intro i _
        split
        · split
          · exact hrec _
          · simp
        · split
          · split
            · apply bind_ne_outOfFuel _ _ (getlocalname_ne_outOfFuel R hR _ _ _)
              intro vn _
              apply bind_ne_outOfFuel _ _
                (knameWith_ne_outOfFuel R hR _ p pc _ (hrec _))
              intro nm _
              simp
            · apply bind_ne_outOfFuel _ _ (upvalname_ne_outOfFuel R hR _ _)
              intro vn _
              apply bind_ne_outOfFuel _ _
                (knameWith_ne_outOfFuel R hR _ p pc _ (hrec _))
              intro nm _
              simp
          · split
            · apply bind_ne_outOfFuel _ _ (upvalname_ne_outOfFuel R hR _ _)
              intro nm _
              simp
            · split
              · split
                · apply bind_ne_outOfFuel _ _ (deref_ne_outOfFuel _ _)
                  intro kvalue _
                  split
                  · apply bind_ne_outOfFuel _ _ (hR _ _)
                    intro nm _
                    simp
                  · simp
                · apply bind_ne_outOfFuel _ _ (readInstruction_ne_outOfFuel _ _ _)
                  intro i2 _
                  apply bind_ne_outOfFuel _ _ (deref_ne_outOfFuel _ _)
                  intro kvalue _
                  split
                  · apply bind_ne_outOfFuel _ _ (hR _ _)
                    intro nm _
                    simp
                  · simp
              · split
                · apply bind_ne_outOfFuel _ _
                    (knameWith_ne_outOfFuel R hR _ p pc _ (hrec _))
                  intro nm _
                  simp
                · simp
      · simp

theorem bind_congr_ok {α β : Type} (x : Outcome α) (f g : α → Outcome β)
    (h : ∀ v, x = .ok v → f v = g v) : x.bind f = x.bind g := by
  cases x with
  | ok v => exact h v rfl
  | throw e => rfl
  | outOfFuel => rfl

theorem getobjname_fuel (R : Remote) (p : Proto) (fuel1 : Nat) :
    ∀ (fuel2 : Nat) (lastpc reg : Int), lastpc.toNat + 1 ≤ fuel1 → lastpc.toNat + 1 ≤ fuel2 →
      getobjname R p fuel1 lastpc reg = getobjname R p fuel2 lastpc reg := by
  induction fuel1 with
  | zero => intro fuel2 lastpc reg h; omega
  | succ fuel1 ih =>
    intro fuel2 lastpc reg h1 h2
    cases fuel2 with
    | zero => omega
    | succ fuel2 =>
      simp only [getobjname, Outcome.bind_eq, Outcome.pure_eq]
      apply bind_congr_ok
      intro name _
      by_cases hn : name ≠ []
      · rw [if_pos hn, if_pos hn]
      · rw [if_neg hn, if_neg hn]
        apply bind_congr_ok
        intro pc hpc
        have hb := findsetreg_result R p lastpc reg pc hpc
        by_cases hne : pc ≠ -1
        · have hrec : ∀ r : Int, getobjname R p fuel1 pc r = getobjname R p fuel2 pc r := by
            intro r
            apply ih <;> omega
          rw [if_pos hne, if_pos hne]
          simp only [knameWith, hrec]
        · rw [if_neg hne, if_neg hne]

/-- C29: the recursion of `getobjname` and `kname` terminates.  `findsetreg`
returns -1 or a `pc` with `0 ≤ pc < lastpc`; with a string reader that
returns, `getobjname` on `lastpc` does not run out of fuel when given
`lastpc + 1` (1 for a negative `lastpc`) or more, nor does `kname` on `pc`
with `pc + 1` or more, and the result of `getobjname` is the same for every
such fuel. -/
theorem name_recovery_terminates (R : Remote) (p : Proto)
    (hR : ∀ a n, R.ReadString a n ≠ .outOfFuel) :
    (∀ lastpc reg r : Int, findsetreg R p lastpc reg = .ok r → r = -1 ∨ (0 ≤ r ∧ r < lastpc)) ∧
    (∀ (fuel : Nat) (lastpc reg : Int), lastpc.toNat + 1 ≤ fuel →
      getobjname R p fuel lastpc reg ≠ .outOfFuel) ∧
    (∀ (fuel : Nat) (pc c : Int), pc.toNat + 1 ≤ fuel → kname R p fuel pc c ≠ .outOfFuel) ∧
    (∀ (fuel1 fuel2 : Nat) (lastpc reg : Int), lastpc.toNat + 1 ≤ fuel1 →
      lastpc.toNat + 1 ≤ fuel2 →
      getobjname R p fuel1 lastpc reg = getobjname R p fuel2 lastpc reg) :=
  ⟨findsetreg_result R p, getobjname_ne_outOfFuel R hR p,
    fun fuel pc c h => knameWith_ne_outOfFuel R hR _ p pc c
      (getobjname_ne_outOfFuel R hR p fuel pc c h),
    getobjname_fuel R p⟩

theorem name_recovery_terminates_witness :
    getobjname exampleRemote exampleProto 3 2 0 ≠ .outOfFuel ∧
    getobjname exampleRemote exampleProto 3 2 0 = getobjname exampleRemote exampleProto 7 2 0 :=
  ⟨(name_recovery_terminates exampleRemote exampleProto (by
      intro a n
      simp only [exampleRemote]
      repeat' split
      all_goals simp)).2.1 3 2 0 (by decide),
    (name_recovery_terminates exampleRemote exampleProto (by
      intro a n
      simp only [exampleRemote]
      repeat' split
      all_goals simp)).2.2.2 3 7 2 0 (by decide) (by decide)⟩


/-! ## Global and field names -/

theorem isENV_iff (vn : List Char) (hvn : NUL ∉ vn) :
    (vn ≠ [] ∧ cstring (c_str vn) = ['_', 'E', 'N', 'V']) ↔ vn = ['_', 'E', 'N', 'V'] := by
  rw [cstring_c_str vn hvn]
  constructor
  · exact fun h => h.2
  · intro h
    exact ⟨by rw [h]; decide, h⟩

theorem activeLocals_cons (l : LocVar) (rest : List LocVar) (pc : Int) :
    activeLocals (l :: rest) pc =
      if l.startpc ≤ pc then
        (if pc < l.endpc then l :: activeLocals rest pc else activeLocals rest pc)
      else [] := by
  unfold activeLocals
  by_cases h1 : l.startpc ≤ pc
  · by_cases h2 : pc < l.endpc
    · simp [List.takeWhile_cons, h1, h2]
    · simp [List.takeWhile_cons, h1, h2]
  · simp [List.takeWhile_cons, h1]

/-- The loop of `luaF_getlocalname` over the entries `rest` of `locvars` from
index `i` on returns the name of the active local variable number
`local_number`, counted from 1, and the empty string when there are fewer. -/
theorem getlocalname_loop_eq (R : Remote) (f : Proto) (pc : Int) (rest : List LocVar) :
    ∀ (i : Nat) (local_number : Int),
    (∀ (j : Nat) (hj : j < rest.length),
      deref R.LocVar_at (ptrAdd f.locvars (sizeof_LocVar * ((i + j : Nat) : Int))) =
        .ok (rest.get ⟨j, hj⟩)) →
    1 ≤ local_number →
    luaF_getlocalname.loop R f pc rest.length (i : Int) local_number =
      localName R ((activeLocals rest pc)[(local_number - 1).toNat]?) := by
  induction rest with
  | nil =>
    intro i ln _ _
    simp [luaF_getlocalname.loop, activeLocals, localName]
  | cons l rest ih =>
    intro i ln hread hln
    have h0 := hread 0 (by simp)
    simp only [Nat.add_zero, List.get_eq_getElem, List.getElem_cons_zero] at h0
    have hrest : ∀ (j : Nat) (hj : j < rest.length),
        deref R.LocVar_at (ptrAdd f.locvars (sizeof_LocVar * ((i + 1 + j : Nat) : Int))) =
          .ok (rest.get ⟨j, hj⟩) := by
      intro j hj
      have h := hread (j + 1) (by simp; omega)
      simp only [List.get_eq_getElem, List.getElem_cons_succ] at h
      rw [show i + 1 + j = i + (j + 1) by omega]
      exact h
    simp only [List.length_cons, luaF_getlocalname.loop, h0, Outcome.bind_eq, Outcome.bind_ok]
    rw [activeLocals_cons]
    by_cases h1 : l.startpc ≤ pc
    · rw [if_pos h1, if_pos h1]
      by_cases h2 : pc < l.endpc
      · rw [if_pos h2, if_pos h2]
        by_cases h3 : ln - 1 = 0
        · rw [if_pos h3, h3]
          simp [localName]
        · rw [if_neg h3]
          have e := ih (i + 1) (ln - 1) hrest (by omega)
          rw [show ((i : Int) + 1) = ((i + 1 : Nat) : Int) by push_cast; rfl, e]
          obtain ⟨k, hk⟩ : ∃ k : Nat, ln - 1 = (k : Int) + 1 := ⟨(ln - 2).toNat, by omega⟩
          have e1 : (ln - 1).toNat = k + 1 := by omega
          have e2 : (ln - 1 - 1).toNat = k := by omega
          rw [e1, e2, List.getElem?_cons_succ]
      · rw [if_neg h2, if_neg h2]
        have e := ih (i + 1) ln hrest hln
        rw [show ((i : Int) + 1) = ((i + 1 : Nat) : Int) by push_cast; rfl, e]
    · rw [if_neg h1, if_neg h1]
      simp [localName]

/-- The function `luaF_getlocalname` on a prototype whose table of local
variables is `locvars`: the name of the local variable in register `reg`
active at `pc`, the empty string when there is none. -/
theorem getlocalname_eq (R : Remote) (f : Proto) (pc : Int) (locvars : List LocVar) (reg : Int)
    (hsize : f.sizelocvars = (locvars.length : Int))
    (hread : ∀ (j : Nat) (hj : j < locvars.length),
      deref R.LocVar_at (ptrAdd f.locvars (sizeof_LocVar * (j : Int))) =
        .ok (locvars.get ⟨j, hj⟩))
    (hreg : 0 ≤ reg) :
    luaF_getlocalname R f (reg + 1) pc = localName R ((activeLocals locvars pc)[reg.toNat]?) := by
  unfold luaF_getlocalname
  rw [hsize, Int.toNat_ofNat]
  have h := getlocalname_loop_eq R f pc locvars 0 (reg + 1)
    (by intro j hj; simp only [Nat.zero_add]; exact hread j hj) (by omega)
  simp only [Nat.cast_zero, add_sub_cancel_right] at h
  exact h

theorem GETARG_B_nonneg (i : Int) : 0 ≤ GETARG_B i := by
  rw [(decode_int i).2.2.2.1]
  omega

theorem findsetreg_LastSetter (R : Remote) (p : Proto) (lastpc reg pc : Int)
    (h : LastSetter R p lastpc reg pc) : findsetreg R p lastpc reg = .ok pc := by
  obtain ⟨code, hcode, hvalid, h0, hlt, hw, hafter⟩ := h
  have hn : ∀ q : Int, 0 ≤ q → q < 0 + (lastpc.toNat : Int) → q < lastpc := by
    intro q h0 h
    omega
  obtain ⟨r, hr, hcases⟩ := loop_jump_free R p code lastpc reg lastpc.toNat 0 (-1) (le_refl _)
    (fun q h1 h2 => hcode q h1 (hn q h1 h2))
    (fun q h1 h2 => (hvalid q h1 (hn q h1 h2)).1)
    (fun q h1 h2 => (hvalid q h1 (hn q h1 h2)).2)
  have hr2 : findsetreg R p lastpc reg = .ok r := hr
  rw [hr2]
  rcases hcases with ⟨_, hno⟩ | ⟨h1, h2, h3, h4⟩
  · have := hno pc h0 (by omega)
    rw [hw] at this
    cases this
  · rcases lt_trichotomy r pc with hlt2 | heq | hgt
    · have := h4 pc hlt2 (by omega)
      rw [hw] at this
      cases this
    · rw [heq]
    · have := hafter r hgt (hn r h1 h2)
      rw [h3] at this
      cases this

theorem kname_constant (R : Remote) (p : Proto) (fuel : Nat) (pc c : Int) (kvalue : TValue)
    (hk : ISK c = true)
    (hv : deref R.TValue_at (ptrAdd p.k (sizeof_TValue * INDEXK c)) = .ok kvalue) :
    kname R p fuel pc c = if kvalue.IsString then getstr R kvalue.value_ else .ok ['?'] := by
  simp only [kname, knameWith, hk, if_true, hv, Outcome.bind_eq, Outcome.bind_ok,
    Outcome.pure_eq]

/-- C13: `getobjname` on a prototype whose table of local variables is
`locvars`, when no local variable is active in register `reg` at `lastpc`
and the instruction that `findsetreg` gives as the last one setting `reg`,
at `pc`, is `OP_GETTABUP` or `OP_GETTABLE` (for code without jumps that
instruction may be given as the last one below `lastpc` that writes `reg`).
Let `vn` be, for `OP_GETTABUP`,
the name stored for upvalue `B` (`"?"` when the name pointer is null) and,
for `OP_GETTABLE`, the name of the local variable active in register `B` at
`pc` (empty when there is none).  The function returns `"global"` exactly
when `vn` is `"_ENV"`, and `"field"` otherwise, with `name` the key that
`kname` resolves for operand `C`: for a constant operand the string of the
constant, or `"?"` when the constant is no string. -/
theorem getobjname_global_field (R : Remote) (p : Proto) (fuel : Nat) (lastpc reg pc i : Int)
    (locvars : List LocVar) (vn key : List Char)
    (hsize : p.sizelocvars = (locvars.length : Int))
    (hread : ∀ (j : Nat) (hj : j < locvars.length),
      deref R.LocVar_at (ptrAdd p.locvars (sizeof_LocVar * (j : Int))) =
        .ok (locvars.get ⟨j, hj⟩))
    (hreg : 0 ≤ reg) (hloc : (activeLocals locvars lastpc)[reg.toNat]? = none)
    (hset : findsetreg R p lastpc reg = .ok pc ∨ LastSetter R p lastpc reg pc) (hpc : pc ≠ -1)
    (hi : readInstruction R p pc = .ok i)
    (hop : (GET_OPCODE i = OP_GETTABUP ∧ GETARG_B i < p.sizeupvalues ∧
        ∃ desc, deref R.Upvaldesc_at (ptrAdd p.upvalues (sizeof_Upvaldesc * GETARG_B i)) =
            .ok desc ∧
          ((desc.name = 0 ∧ vn = ['?']) ∨ (desc.name ≠ 0 ∧ getstr R desc.name = .ok vn))) ∨
      (GET_OPCODE i = OP_GETTABLE ∧
        localName R ((activeLocals locvars pc)[(GETARG_B i).toNat]?) = .ok vn))
    (hvn : NUL ∉ vn)
    (hkey : (ISK (GETARG_C i) = true ∧ ∃ kvalue,
        deref R.TValue_at (ptrAdd p.k (sizeof_TValue * INDEXK (GETARG_C i))) = .ok kvalue ∧
        ((kvalue.IsString = true ∧ getstr R kvalue.value_ = .ok key) ∨
          (kvalue.IsString = false ∧ key = ['?']))) ∨
      (ISK (GETARG_C i) = false ∧ kname R p fuel pc (GETARG_C i) = .ok key)) :
    getobjname R p (fuel + 1) lastpc reg =
      .ok (some (if vn = "_ENV".toList then "global".toList else "field".toList), key) := by
  have hE := isENV_iff vn hvn
  have hset : findsetreg R p lastpc reg = .ok pc := by
    rcases hset with h | h
    · exact h
    · exact findsetreg_LastSetter R p lastpc reg pc h
  have hkey : kname R p fuel pc (GETARG_C i) = .ok key := by
    rcases hkey with ⟨hisk, kvalue, hkv, hcase⟩ | ⟨_, h⟩
    · rw [kname_constant R p fuel pc _ kvalue hisk hkv]
      rcases hcase with ⟨hs, hg⟩ | ⟨hs, hg⟩
      · rw [if_pos hs, hg]
      · rw [hs, hg]
        rfl
    · exact h
  have hk : knameWith (getobjname R p fuel) R p pc (GETARG_C i) = .ok key := hkey
  have e1 : ¬ OP_GETTABUP = OP_MOVE := by decide
  have e2 : ¬ OP_GETTABLE = OP_MOVE := by decide
  have e3 : ¬ OP_GETTABUP = OP_GETTABLE := by decide
  have hif : (if vn ≠ [] ∧ cstring (c_str vn) = ['_', 'E', 'N', 'V']
      then ['g', 'l', 'o', 'b', 'a', 'l'] else ['f', 'i', 'e', 'l', 'd']) =
      (if vn = "_ENV".toList then "global".toList else "field".toList) := by
    by_cases h : vn = ['_', 'E', 'N', 'V']
    · rw [if_pos (hE.mpr h)]
      simp [h]
    · rw [if_neg (fun c => h (hE.mp c))]
      have h2 : ¬ vn = "_ENV".toList := h
      rw [if_neg h2]
      rfl
  have hl : luaF_getlocalname R p (reg + 1) lastpc = .ok [] := by
    rw [getlocalname_eq R p lastpc locvars reg hsize hread hreg, hloc]
    rfl
  rcases hop with ⟨hop, hlt, desc, hdesc, hname⟩ | ⟨hop, hv⟩
  · have hv : upvalname R p (GETARG_B i) = .ok vn := by
      have hge : ¬ GETARG_B i ≥ p.sizeupvalues := by omega
      rcases hname with ⟨h0, he⟩ | ⟨h0, he⟩
      · simp only [upvalname, hge, if_false, hdesc, Outcome.bind_eq, Outcome.bind_ok, h0,
          if_true, Outcome.pure_eq, he]
      · simp only [upvalname, hge, if_false, hdesc, Outcome.bind_eq, Outcome.bind_ok, h0, he]
    simp only [getobjname, hl, hset, hi, hop, hv, hk, Outcome.bind_eq, Outcome.pure_eq,
      Outcome.bind_ok, ne_eq, not_true_eq_false, if_false, hpc, not_false_eq_true, if_true,
      e1, e3, true_or]
    rw [← hif]
  · have hv2 : luaF_getlocalname R p (GETARG_B i + 1) pc = .ok vn := by
      rw [getlocalname_eq R p pc locvars (GETARG_B i) hsize hread (GETARG_B_nonneg i), hv]
    simp only [getobjname, hl, hset, hi, hop, hv2, hk, Outcome.bind_eq, Outcome.pure_eq,
      Outcome.bind_ok, ne_eq, not_true_eq_false, if_false, hpc, not_false_eq_true, if_true,
      e2, or_true]
    rw [← hif]

theorem exampleLocal_read (name : List Char) :
    ∀ (j : Nat) (hj : j < [exampleLocVar].length),
      deref (exampleLocal name).LocVar_at
        (ptrAdd exampleLocalProto.locvars (sizeof_LocVar * (j : Int))) =
        .ok ([exampleLocVar].get ⟨j, hj⟩) := by
  intro j hj
  have h0 : j = 0 := by simpa using hj
  subst h0
  rfl

theorem exampleLocal_LastSetter (name : List Char) :
    LastSetter (exampleLocal name) exampleLocalProto 3 1 1 := by
  refine ⟨exampleLocalCode, ?_, ?_, by decide, by decide, by decide, ?_⟩
  · intro q h0 h3
    obtain rfl | rfl | rfl : q = 0 ∨ q = 1 ∨ q = 2 := by omega
    · rfl
    · rfl
    · rfl
  · intro q h0 h3
    obtain rfl | rfl | rfl : q = 0 ∨ q = 1 ∨ q = 2 := by omega
    · decide
    · decide
    · decide
  · intro q h1 h3
    obtain rfl : q = 2 := by omega
    decide

theorem getobjname_global_field_witness :
    getobjname exampleRemote exampleProto 3 2 0 =
      .ok (some "global".toList, "print".toList) ∧
    getobjname (exampleLocal "_ENV".toList) exampleLocalProto 3 3 1 =
      .ok (some "global".toList, "print".toList) ∧
    getobjname (exampleLocal "t".toList) exampleLocalProto 3 3 1 =
      .ok (some "field".toList, "print".toList) ∧
    ∃ ar1, (GetInfo exampleRemote exampleLuaState ['n', 'S', 'l', 't']
        { lua_Debug.zero with i_ci := 0x2000 }).1 = .ok ar1 ∧
      ar1.namewhat = some "global".toList ∧ ar1.name = "print".toList :=
  ⟨getobjname_global_field exampleRemote exampleProto 2 2 0 0 4194310 [] "_ENV".toList
    "print".toList rfl (fun j hj => absurd hj (by simp)) (by decide) (by decide)
    (Or.inl (by decide)) (by decide) (by decide)
    (Or.inl ⟨by decide, by decide, ⟨0xF000⟩, by decide, Or.inr ⟨by decide, by decide⟩⟩)
    (by decide)
    (Or.inl ⟨by decide, ⟨0xE000, 68⟩, by decide, Or.inl ⟨by decide, by decide⟩⟩),
   getobjname_global_field (exampleLocal "_ENV".toList) exampleLocalProto 2 3 1 1 4194375
    [exampleLocVar] "_ENV".toList "print".toList rfl (exampleLocal_read _) (by decide)
    (by decide) (Or.inr (exampleLocal_LastSetter _)) (by decide) (by decide)
    (Or.inr ⟨by decide, by decide⟩) (by decide)
    (Or.inl ⟨by decide, ⟨0xE000, 68⟩, by decide, Or.inl ⟨by decide, by decide⟩⟩),
   getobjname_global_field (exampleLocal "t".toList) exampleLocalProto 2 3 1 1 4194375
    [exampleLocVar] "t".toList "print".toList rfl (exampleLocal_read _) (by decide)
    (by decide) (Or.inr (exampleLocal_LastSetter _)) (by decide) (by decide)
    (Or.inr ⟨by decide, by decide⟩) (by decide)
    (Or.inl ⟨by decide, ⟨0xE000, 68⟩, by decide, Or.inl ⟨by decide, by decide⟩⟩),
   _, rfl, by decide, by decide⟩

/-! ## The line of a frame -/

theorem funcinfo_linedefined (R : Remote) (ar ar1 : lua_Debug) (f : Option Closure)
    (h : funcinfo R ar f = .ok ar1) :
    (noLuaClosure f = true ∧ ar1.linedefined = -1) ∨
    (∃ cl proto, f = some cl ∧ cl.tt ≠ LUA_TCCL ∧ deref R.Proto_at cl.p = .ok proto ∧
      ar1.linedefined = proto.linedefined) := by
  by_cases hn : noLuaClosure f = true
  · rw [funcinfo_C R ar f hn] at h
    cases h
    exact Or.inl ⟨hn, rfl⟩
  · cases f with
    | none => simp [noLuaClosure] at hn
    | some cl =>
      have hcl : cl.tt ≠ LUA_TCCL := by simpa [noLuaClosure] using hn
      cases hp : deref R.Proto_at cl.p with
      | ok proto =>
        cases hs : (if proto.source ≠ 0 then getstr R proto.source else Outcome.ok ['=', '?']) with
        | ok src =>
          rw [funcinfo_Lua R ar cl proto src hcl hp hs] at h
          cases h
          exact Or.inr ⟨cl, proto, rfl, hcl, hp, rfl⟩
        | throw e =>
          simp only [funcinfo, noLuaClosure, hcl, hp, Outcome.bind_eq, Outcome.pure_eq,
            Outcome.bind_ok, decide_False, if_false, Bool.false_eq_true] at h
          by_cases h0 : proto.source = 0
          · simp [h0] at hs
          · simp [h0] at hs h
            simp [hs] at h
        | outOfFuel =>
          simp only [funcinfo, noLuaClosure, hcl, hp, Outcome.bind_eq, Outcome.pure_eq,
            Outcome.bind_ok, decide_False, if_false, Bool.false_eq_true] at h
          by_cases h0 : proto.source = 0
          · simp [h0] at hs
          · simp [h0] at hs h
            simp [hs] at h
      | throw e => simp [funcinfo, noLuaClosure, hcl, hp] at h
      | outOfFuel => simp [funcinfo, noLuaClosure, hcl, hp] at h

theorem option_S_linedefined (R : Remote) (L : lua_State) (ar ar1 : lua_Debug)
    (f : Option Closure) (ci : Option CallInfo)
    (h : (auxgetinfo.option R L 'S' ar f ci).1 = .ok ar1) :
    (noLuaClosure f = true ∧ ar1.linedefined = -1) ∨
    (∃ cl proto, f = some cl ∧ cl.tt ≠ LUA_TCCL ∧ deref R.Proto_at cl.p = .ok proto ∧
      ar1.linedefined = proto.linedefined) := by
  simp only [auxgetinfo.option, if_true, Outcome.bind_eq, Outcome.pure_eq] at h
  cases hf : funcinfo R ar f with
  | ok ar2 =>
    have h2 := funcinfo_linedefined R ar ar2 f hf
    rw [hf] at h
    cases f with
    | none => simp at h; rw [← h]; exact h2
    | some cl =>
      simp only [Outcome.bind_ok] at h
      split at h <;> simp at h <;> rw [← h] <;> exact h2
  | throw e => rw [hf] at h; simp at h
  | outOfFuel => rw [hf] at h; simp at h

theorem option_l_linedefined (R : Remote) (L : lua_State) (ar ar1 : lua_Debug)
    (f : Option Closure) (ci : Option CallInfo)
    (h : (auxgetinfo.option R L 'l' ar f ci).1 = .ok ar1) :
    ar1.linedefined = ar.linedefined := by
  have e1 : ¬ 'l' = 'S' := by decide
  simp only [auxgetinfo.option, e1, if_false, if_true, Outcome.bind_eq, Outcome.pure_eq] at h
  cases ci with
  | none =>
    simp only [Outcome.bind_ok] at h
    cases h
    rfl
  | some ci =>
    simp only at h
    split at h
    · cases hl : currentline R ci with
      | ok line => rw [hl] at h; simp only [Outcome.bind_ok] at h; cases h; rfl
      | throw e => rw [hl] at h; simp at h
      | outOfFuel => rw [hl] at h; simp at h
    · simp only [Outcome.bind_ok] at h
      cases h
      rfl

theorem option_t_linedefined (R : Remote) (L : lua_State) (ar ar1 : lua_Debug)
    (f : Option Closure) (ci : Option CallInfo)
    (h : (auxgetinfo.option R L 't' ar f ci).1 = .ok ar1) :
    ar1.linedefined = ar.linedefined := by
  have e1 : ¬ 't' = 'S' := by decide
  have e2 : ¬ 't' = 'l' := by decide
  have e3 : ¬ 't' = 'u' := by decide
  simp only [auxgetinfo.option, e1, e2, e3, if_false, if_true] at h
  cases h
  rfl

theorem auxgetinfo_linedefined (R : Remote) (L : lua_State) (ar debug : lua_Debug)
    (f : Option Closure) (ci : Option CallInfo)
    (h : (auxgetinfo R L ['n', 'S', 'l', 't'] ar f ci).1 = .ok debug) :
    (noLuaClosure f = true ∧ debug.linedefined = -1) ∨
    (∃ cl proto, f = some cl ∧ cl.tt ≠ LUA_TCCL ∧ deref R.Proto_at cl.p = .ok proto ∧
      debug.linedefined = proto.linedefined) := by
  obtain ⟨ar1, _, h⟩ := auxgetinfo_cons_ok _ _ _ _ _ _ _ _ h
  obtain ⟨ar2, h2, h⟩ := auxgetinfo_cons_ok _ _ _ _ _ _ _ _ h
  obtain ⟨ar3, h3, h⟩ := auxgetinfo_cons_ok _ _ _ _ _ _ _ _ h
  obtain ⟨ar4, h4, h⟩ := auxgetinfo_cons_ok _ _ _ _ _ _ _ _ h
  simp only [auxgetinfo] at h
  cases h
  have e : debug.linedefined = ar2.linedefined := by
    rw [option_t_linedefined _ _ _ _ _ _ h4, option_l_linedefined _ _ _ _ _ _ h3]
  rw [e]
  exact option_S_linedefined _ _ _ _ _ _ h2

/-- The `linedefined` that `GetInfo("nSlt")` leaves in the record: -1 unless
the function value of the frame is a closure whose header is not
`LUA_TCCL`, and then the `linedefined` of the prototype. -/
theorem GetInfo_linedefined (R : Remote) (L : lua_State) (ar debug : lua_Debug)
    (h : (GetInfo R L ['n', 'S', 'l', 't'] ar).1 = .ok debug) :
    ∃ callInfo func, deref R.CallInfo_at ar.i_ci = .ok callInfo ∧
      deref R.TValue_at callInfo.func = .ok func ∧
      ((func.IsClosure = false ∧ debug.linedefined = -1) ∨
       (∃ cl, func.IsClosure = true ∧ deref R.Closure_at func.value_ = .ok cl ∧
          ((cl.tt = LUA_TCCL ∧ debug.linedefined = -1) ∨
           (∃ proto, cl.tt ≠ LUA_TCCL ∧ deref R.Proto_at cl.p = .ok proto ∧
              debug.linedefined = proto.linedefined)))) := by
  have hw : (['n', 'S', 'l', 't'] : List Char).head? ≠ some '>' := by decide
  simp only [GetInfo, hw, if_false] at h
  cases hci : deref R.CallInfo_at ar.i_ci with
  | ok callInfo =>
    rw [hci] at h
    simp only at h
    cases hf : deref R.TValue_at callInfo.func with
    | ok func =>
      rw [hf] at h
      simp only at h
      split at h
      · simp at h
      · refine ⟨callInfo, func, rfl, hf, ?_⟩
        simp only [GetInfo.finish] at h
        by_cases hc : func.IsClosure = true
        · simp only [hc, if_true] at h
          cases hcl : deref R.Closure_at func.value_ with
          | ok cl =>
            rw [hcl] at h
            simp only at h
            refine Or.inr ⟨cl, hc, rfl, ?_⟩
            rcases auxgetinfo_linedefined R L _ debug _ _ h with ⟨hn, hl⟩ | ⟨cl2, proto, he, ht, hp, hl⟩
            · have : cl.tt = LUA_TCCL := by simpa [noLuaClosure] using hn
              exact Or.inl ⟨this, hl⟩
            · cases he
              exact Or.inr ⟨proto, ht, hp, hl⟩
          | throw e => rw [hcl] at h; simp at h
          | outOfFuel => rw [hcl] at h; simp at h
        · have hc' : func.IsClosure = false := by simpa using hc
          refine Or.inl ⟨hc', ?_⟩
          rw [if_neg hc] at h
          split at h
          · rcases auxgetinfo_linedefined R L _ debug _ _ h with ⟨_, hl⟩ | ⟨cl2, proto, he, _⟩
            · exact hl
            · cases he
          · rcases auxgetinfo_linedefined R L _ debug _ _ h with ⟨_, hl⟩ | ⟨cl2, proto, he, _⟩
            · exact hl
            · cases he
    | throw e => rw [hf] at h; simp at h
    | outOfFuel => rw [hf] at h; simp at h
  | throw e =>
    rw [hci] at h
    simp at h
  | outOfFuel => rw [hci] at h; simp at h

theorem makeFrame_Line (sym : Nat → List Char) (debug : lua_Debug) (frame : LuaStackFrame)
    (h : makeFrame sym debug = .ok frame) :
    frame.Line = if debug.linedefined = -1 then 0 else toUInt32 debug.linedefined := by
  simp only [makeFrame] at h
  split at h
  · simp at h
  · split at h <;> simp at h <;> rw [← h]

/-- The frames that the loop of `DumpStack` adds are, in order, those built
from the records that `GetInfo("nSlt")` fills for the `CallInfo` objects the
loop visits. -/
theorem loop_visits (R : Remote) (sym : Nat → List Char) (address : Nat) (L : lua_State)
    (fuel : Nat) :
    ∀ (callInfoPtr : Nat) (ret frames : List LuaStackFrame),
      (DumpStack.loop R sym address L fuel callInfoPtr ret).1 = .ok frames →
      ∃ (chain : List Nat) (fs : List LuaStackFrame), frames = ret ++ fs ∧
        WalkVisits R (baseCallInfo address) callInfoPtr chain ∧
        List.Forall₂ (fun c frame => ∃ debug : lua_Debug,
          (GetInfo R L ['n', 'S', 'l', 't'] { lua_Debug.zero with i_ci := c }).1 = .ok debug ∧
          makeFrame sym debug = .ok frame) chain fs := by
  induction fuel with
  | zero =>
    intro callInfoPtr ret frames h
    simp only [DumpStack.loop] at h
    split at h
    · simp at h
    · rename_i hc
      simp only [Outcome.ok.injEq] at h
      refine ⟨[], [], by simp [h], ?_, List.Forall₂.nil⟩
      simp only [WalkVisits]
      by_cases h0 : callInfoPtr = 0
      · exact Or.inl h0
      · right
        by_contra hb
        exact hc ⟨h0, hb⟩
  | succ fuel ih =>
    intro callInfoPtr ret frames h
    simp only [DumpStack.loop] at h
    split at h
    · rename_i hc
      cases hg : GetInfo R L ['n', 'S', 'l', 't'] { lua_Debug.zero with i_ci := callInfoPtr }
        with
      | mk r log =>
        rw [hg] at h
        cases r with
        | ok debug =>
          simp only at h
          cases hf : makeFrame sym debug with
          | ok fr =>
            rw [hf] at h
            simp only at h
            cases hd : deref R.CallInfo_at callInfoPtr with
            | ok callInfo =>
              rw [hd] at h
              simp only at h
              obtain ⟨chain, fs, he, hwalk, hall⟩ := ih _ _ _ h
              have hread : R.CallInfo_at callInfoPtr = some callInfo := by
                simp only [deref, hc.1, if_false] at hd
                cases hr : R.CallInfo_at callInfoPtr with
                | none => rw [hr] at hd; simp at hd
                | some v => rw [hr] at hd; simp only [Outcome.ok.injEq] at hd; rw [hd]
              refine ⟨callInfoPtr :: chain, fr :: fs, ?_, ?_, ?_⟩
              · rw [he, List.append_assoc]; rfl
              · exact ⟨rfl, hc.1, hc.2, callInfo, hread, hwalk⟩
              · exact List.Forall₂.cons ⟨debug, by rw [hg], hf⟩ hall
            | throw e => rw [hd] at h; simp at h
            | outOfFuel => rw [hd] at h; simp at h
          | throw e => rw [hf] at h; simp at h
          | outOfFuel => rw [hf] at h; simp at h
        | throw e => simp at h
        | outOfFuel => simp at h
    · rename_i hc
      simp only [Outcome.ok.injEq] at h
      refine ⟨[], [], by simp [h], ?_, List.Forall₂.nil⟩
      simp only [WalkVisits]
      by_cases h0 : callInfoPtr = 0
      · exact Or.inl h0
      · right
        by_contra hb
        exact hc ⟨h0, hb⟩

theorem deref_ok_iff {α : Type} (read : Nat → Option α) (a : Nat) (v : α) :
    deref read a = .ok v ↔ a ≠ 0 ∧ read a = some v := by
  unfold deref
  by_cases h0 : a = 0
  · simp [h0]
  · rw [if_neg h0]
    cases read a with
    | none => simp [h0]
    | some w => simp [h0]

theorem LineDefined_unique (R : Remote) (c : Nat) (ld1 ld2 : Int)
    (h1 : LineDefined R c ld1) (h2 : LineDefined R c ld2) : ld1 = ld2 := by
  obtain ⟨ci1, f1, hc1, hf1, hr1⟩ := h1
  obtain ⟨ci2, f2, hc2, hf2, hr2⟩ := h2
  rw [hc1] at hc2
  cases hc2
  rw [hf1] at hf2
  cases hf2
  rcases hr1 with ⟨hn1, hl1⟩ | ⟨cl1, hy1, hcl1, hr1⟩
  · rcases hr2 with ⟨_, hl2⟩ | ⟨cl2, hy2, _⟩
    · rw [hl1, hl2]
    · rw [hn1] at hy2; cases hy2
  · rcases hr2 with ⟨hn2, _⟩ | ⟨cl2, _, hcl2, hr2⟩
    · rw [hn2] at hy1; cases hy1
    · rw [hcl1] at hcl2
      cases hcl2
      rcases hr1 with ⟨ht1, hl1⟩ | ⟨p1, ht1, hp1, hl1⟩
      · rcases hr2 with ⟨_, hl2⟩ | ⟨p2, ht2, _⟩
        · rw [hl1, hl2]
        · exact absurd ht1 ht2
      · rcases hr2 with ⟨ht2, _⟩ | ⟨p2, _, hp2, hl2⟩
        · exact absurd ht2 ht1
        · rw [hp1] at hp2
          cases hp2
          rw [hl1, hl2]

theorem LineDefined_same (R R1 : Remote) (address c : Nat) (ld : Int)
    (hs : SameFunctions R R1 address) (h : LineDefined R c ld) : LineDefined R1 c ld := by
  obtain ⟨ci, f, hc, hf, hr⟩ := h
  rw [deref_ok_iff] at hc hf
  have hci := hs.callInfo c
  rw [hc.2] at hci
  cases hc1 : R1.CallInfo_at c with
  | none => rw [hc1] at hci; simp at hci
  | some ci1 =>
    rw [hc1] at hci
    simp only [Option.map_some', Option.some.injEq, Prod.mk.injEq] at hci
    have hfun := hs.func c ci hc.2
    refine ⟨ci1, f, (deref_ok_iff _ _ _).mpr ⟨hc.1, hc1⟩,
      (deref_ok_iff _ _ _).mpr ⟨by rw [← hci.1]; exact hf.1, by rw [← hci.1, ← hfun]; exact hf.2⟩,
      ?_⟩
    rcases hr with hr | ⟨cl, hy, hcl, hr⟩
    · exact Or.inl hr
    · refine Or.inr ⟨cl, hy, ?_, ?_⟩
      · rw [deref_ok_iff] at hcl ⊢
        exact ⟨hcl.1, by rw [← hs.closure]; exact hcl.2⟩
      · rcases hr with hr | ⟨proto, ht, hp, hl⟩
        · exact Or.inl hr
        · rw [deref_ok_iff] at hp
          have hpr := hs.proto cl.p
          rw [hp.2] at hpr
          cases hp1 : R1.Proto_at cl.p with
          | none => rw [hp1] at hpr; simp at hpr
          | some proto1 =>
            rw [hp1] at hpr
            simp only [Option.map_some', Option.some.injEq] at hpr
            exact Or.inr ⟨proto1, ht, (deref_ok_iff _ _ _).mpr ⟨hp.1, hp1⟩, by rw [hl, hpr]⟩

theorem WalkVisits_same (R R1 : Remote) (address base : Nat)
    (hs : SameFunctions R R1 address) (chain : List Nat) : ∀ (chain1 : List Nat) (p : Nat),
    WalkVisits R base p chain → WalkVisits R1 base p chain1 → chain = chain1 := by
  induction chain with
  | nil =>
    intro chain1 p h h1
    cases chain1 with
    | nil => rfl
    | cons c1 rest1 =>
      simp only [WalkVisits] at h h1
      obtain ⟨he, h0, hb, _⟩ := h1
      subst he
      rcases h with h | h
      · exact absurd h h0
      · exact absurd h hb
  | cons c rest ih =>
    intro chain1 p h h1
    simp only [WalkVisits] at h
    obtain ⟨he, h0, hb, ci, hci, hw⟩ := h
    subst he
    cases chain1 with
    | nil =>
      simp only [WalkVisits] at h1
      rcases h1 with h1 | h1
      · exact absurd h1 h0
      · exact absurd h1 hb
    | cons c1 rest1 =>
      simp only [WalkVisits] at h1
      obtain ⟨he1, _, _, ci1, hci1, hw1⟩ := h1
      subst he1
      have hcall := hs.callInfo p
      rw [hci, hci1] at hcall
      simp only [Option.map_some', Option.some.injEq, Prod.mk.injEq] at hcall
      rw [← hcall.2] at hw1
      rw [ih rest1 _ hw hw1]

theorem lines_same (R R1 : Remote) (address : Nat) (hs : SameFunctions R R1 address)
    (chain : List Nat) : ∀ (frames frames1 : List LuaStackFrame),
    List.Forall₂ (fun c (frame : LuaStackFrame) => ∃ ld, LineDefined R c ld ∧
      frame.Line = if ld = -1 then 0 else toUInt32 ld) chain frames →
    List.Forall₂ (fun c (frame : LuaStackFrame) => ∃ ld, LineDefined R1 c ld ∧
      frame.Line = if ld = -1 then 0 else toUInt32 ld) chain frames1 →
    frames1.map LuaStackFrame.Line = frames.map LuaStackFrame.Line := by
  induction chain with
  | nil =>
    intro frames frames1 h h1
    cases h
    cases h1
    rfl
  | cons c rest ih =>
    intro frames frames1 h h1
    cases h with
    | cons hf hrest =>
      cases h1 with
      | cons hf1 hrest1 =>
        obtain ⟨ld, hl, he⟩ := hf
        obtain ⟨ld1, hl1, he1⟩ := hf1
        have := LineDefined_unique R1 c ld ld1 (LineDefined_same R R1 address c ld hs hl) hl1
        subst this
        simp only [List.map_cons, he, he1, ih _ _ hrest hrest1]

theorem DumpStack_lines (R : Remote) (sym : Nat → List Char) (address fuel : Nat)
    (frames : List LuaStackFrame) (h : (DumpStack R sym address fuel).1 = .ok frames) :
    ∃ (L : lua_State) (chain : List Nat), R.lua_State_at address = some L ∧
      WalkVisits R (baseCallInfo address) L.ci chain ∧
      List.Forall₂ (fun c (frame : LuaStackFrame) => ∃ ld, LineDefined R c ld ∧
        frame.Line = if ld = -1 then 0 else toUInt32 ld) chain frames := by
  simp only [DumpStack] at h
  cases hL : deref R.lua_State_at address with
  | ok L =>
    rw [hL] at h
    simp only at h
    obtain ⟨chain, fs, he, hwalk, hall⟩ := loop_visits R sym address L fuel L.ci [] frames h
    simp only [List.nil_append] at he
    subst he
    refine ⟨L, chain, ((deref_ok_iff _ _ _).mp hL).2, hwalk, ?_⟩
    refine hall.imp ?_
    intro c frame hcf
    obtain ⟨debug, hg, hm⟩ := hcf
    have hline := makeFrame_Line sym debug frame hm
    obtain ⟨callInfo, func, hci, hfunc, hcases⟩ := GetInfo_linedefined R L _ debug hg
    exact ⟨debug.linedefined, ⟨callInfo, func, hci, hfunc, hcases⟩, hline⟩
  | throw e => rw [hL] at h; simp at h
  | outOfFuel => rw [hL] at h; simp at h

/-- C30: the frames that `DumpStack` returns are, in order, those of the
`CallInfo` objects the walk visits from `L->ci`, and the `Line` of each is 0
when the definition line of the function running in that `CallInfo` is -1
(no closure or a C closure) and otherwise the `linedefined` of the prototype
of its closure, converted to `unsigned`, which is `linedefined` itself when
that is not negative.  Two samples of the same stack of calls, which may
differ in every `savedpc` and so in every current line, give the same
`Line` in every frame. -/
theorem frame_line (R R1 : Remote) (sym sym1 : Nat → List Char) (address fuel fuel1 : Nat)
    (frames frames1 : List LuaStackFrame)
    (h : (DumpStack R sym address fuel).1 = .ok frames)
    (h1 : (DumpStack R1 sym1 address fuel1).1 = .ok frames1)
    (hs : SameFunctions R R1 address) :
    (∃ (L : lua_State) (chain : List Nat), R.lua_State_at address = some L ∧
      WalkVisits R (baseCallInfo address) L.ci chain ∧
      List.Forall₂ (fun c (frame : LuaStackFrame) => ∃ ld, LineDefined R c ld ∧
        frame.Line = (if ld = -1 then 0 else toUInt32 ld) ∧
        (0 ≤ ld → ld < 2 ^ 32 → (frame.Line : Int) = ld)) chain frames) ∧
    frames1.map LuaStackFrame.Line = frames.map LuaStackFrame.Line := by
  obtain ⟨L, chain, hL, hwalk, hall⟩ := DumpStack_lines R sym address fuel frames h
  obtain ⟨L1, chain1, hL1, hwalk1, hall1⟩ := DumpStack_lines R1 sym1 address fuel1 frames1 h1
  have hci := hs.ci
  rw [hL, hL1] at hci
  simp only [Option.map_some', Option.some.injEq] at hci
  rw [← hci] at hwalk1
  have hchain := WalkVisits_same R R1 address _ hs chain chain1 _ hwalk hwalk1
  subst hchain
  refine ⟨⟨L, chain, hL, hwalk, ?_⟩, lines_same R R1 address hs chain frames frames1 hall hall1⟩
  refine hall.imp ?_
  intro c frame hcf
  obtain ⟨ld, hl, he⟩ := hcf
  refine ⟨ld, hl, he, ?_⟩
  intro h0 h32
  rw [he, if_neg (by omega), toUInt32]
  have e : (2 : Int) ^ 32 = 4294967296 := by norm_num
  rw [e] at h32 ⊢
  omega

theorem exampleSample_same : SameFunctions (exampleSample 0x800C) (exampleSample 0x8014) 0x1000 where
  ci := rfl
  callInfo := fun a => by
    by_cases ha : a = 0x2100
    · subst ha; rfl
    · simp only [exampleSample, ha, if_false]
  func := fun _ _ _ => rfl
  closure := fun _ => rfl
  proto := fun _ => rfl

theorem frame_line_witness :
    (DumpStack (exampleSample 0x800C) exampleSymbols 0x1000 2).1 = .ok exampleSampleFrames ∧
    (DumpStack (exampleSample 0x8014) (fun _ => []) 0x1000 2).1 = .ok exampleSampleUnnamed ∧
    (GetInfo (exampleSample 0x800C) exampleLuaState ['n', 'S', 'l', 't']
      { lua_Debug.zero with i_ci := 0x2100 }).1.value?.map lua_Debug.currentline = some 1 ∧
    (GetInfo (exampleSample 0x8014) exampleLuaState ['n', 'S', 'l', 't']
      { lua_Debug.zero with i_ci := 0x2100 }).1.value?.map lua_Debug.currentline = some 2 ∧
    exampleSampleFrames.map LuaStackFrame.Line = [0, 3] ∧
    (∃ (L : lua_State) (chain : List Nat), (exampleSample 0x800C).lua_State_at 0x1000 = some L ∧
      WalkVisits (exampleSample 0x800C) (baseCallInfo 0x1000) L.ci chain ∧
      List.Forall₂ (fun c (frame : LuaStackFrame) => ∃ ld, LineDefined (exampleSample 0x800C) c ld ∧
        frame.Line = (if ld = -1 then 0 else toUInt32 ld) ∧
        (0 ≤ ld → ld < 2 ^ 32 → (frame.Line : Int) = ld)) chain exampleSampleFrames) ∧
    exampleSampleUnnamed.map LuaStackFrame.Line = exampleSampleFrames.map LuaStackFrame.Line :=
  ⟨by decide, by decide, by decide, by decide, by decide,
    frame_line (exampleSample 0x800C) (exampleSample 0x8014) exampleSymbols (fun _ => []) 0x1000
      2 2 exampleSampleFrames exampleSampleUnnamed (by decide) (by decide) exampleSample_same⟩

/-! ## Stepping over a breakpoint -/

theorem GetRegister_RIP_paused (d : Debugger) (hP : d.m_uStatus = ProcessStatus.Paused) :
    d.GetRegister Registers.RIP = (.ok d.target.regs.rip, d.log .GETREGS) := by
  simp [Debugger.GetRegister, hP]

theorem SetRegister_paused (d : Debugger) (reg : Registers) (val : Nat)
    (hP : d.m_uStatus = ProcessStatus.Paused) :
    d.SetRegister reg val =
      (.ok (),
        { m_uStatus := ProcessStatus.Paused
          target := { d.target with regs := assignRegister d.target.regs reg val }
          trace := d.trace ++ [.GETREGS, .SETREGS (assignRegister d.target.regs reg val)] }) := by
  simp [Debugger.SetRegister, hP, Debugger.log]

/-- What `Disable` does to an enabled breakpoint on a paused target whose
word at the address can be transferred. -/
theorem Disable_enabled_paused (d : Debugger) (bp : Breakpoint)
    (hE : bp.m_bEnabled = true) (hP : d.m_uStatus = ProcessStatus.Paused)
    (hr : d.target.readable bp.m_uAddress = true) :
    ∃ (bp1 : Breakpoint) (d1 : Debugger), bp.Disable d = (.ok (), bp1, d1) ∧
      bp1.m_uAddress = bp.m_uAddress ∧ bp1.m_bEnabled = false ∧
      d1.m_uStatus = ProcessStatus.Paused ∧ d1.target.regs = d.target.regs ∧
      d1.target.mapped = d.target.mapped ∧
      d1.target.mem =
        (if d.target.mem bp.m_uAddress = 0xCC then
          Function.update d.target.mem bp.m_uAddress bp.m_uOriginalByte
        else d.target.mem) := by
  by_cases hc : d.target.mem bp.m_uAddress = 0xCC
  · rw [Disable_trap_paused d bp hE hP hr hc]
    exact ⟨_, _, rfl, rfl, rfl, hP, rfl, rfl, by rw [if_pos hc]⟩
  · rw [Disable_modified_paused d bp hE hP hr hc]
    exact ⟨_, _, rfl, rfl, rfl, hP, rfl, rfl, by rw [if_neg hc]; rfl⟩

theorem readable_congr (t1 t2 : Target) (h : t1.mapped = t2.mapped) (a : Nat) :
    t1.readable a = t2.readable a := by
  simp [Target.readable, h]

theorem Controller.GetRegister_RIP_ok (c : Controller)
    (hP : c.base.m_uStatus = ProcessStatus.Paused) :
    c.GetRegister Registers.RIP =
      (.ok c.base.target.regs.rip, { c with base := c.base.log .GETREGS }) := by
  simp only [Controller.GetRegister, lperf.GetRegister_RIP_paused c.base hP]

theorem Controller.SetRegister_ok (c : Controller) (reg : Registers) (val : Nat)
    (hP : c.base.m_uStatus = ProcessStatus.Paused) :
    c.SetRegister reg val =
      (.ok (),
        { c with
          base :=
            { m_uStatus := ProcessStatus.Paused
              target := { c.base.target with regs := assignRegister c.base.target.regs reg val }
              trace := c.base.trace ++
                [.GETREGS, .SETREGS (assignRegister c.base.target.regs reg val)] } }) := by
  simp only [Controller.SetRegister, lperf.SetRegister_paused c.base reg val hP]

theorem Controller.Disable_eq (c : Controller) (p : Nat) (bp bp1 : Breakpoint) (d1 : Debugger)
    (o : Outcome Unit) (hb : c.objects p = some bp) (hD : bp.Disable c.base = (o, bp1, d1)) :
    c.Disable p =
      (o, { c with base := d1, objects := Function.update c.objects p (some bp1) }) := by
  simp only [Controller.Disable, hb, hD]

theorem Controller.Enable_eq (c : Controller) (p : Nat) (bp bp1 : Breakpoint) (d1 : Debugger)
    (o : Outcome Unit) (hb : c.objects p = some bp) (hD : bp.Enable c.base = (o, bp1, d1)) :
    c.Enable p =
      (o, { c with base := d1, objects := Function.update c.objects p (some bp1) }) := by
  simp only [Controller.Enable, hb, hD]

/-- The loop of `Wait` over results that are interruptions of `waitpid` or
stops by `SIGCHLD`, followed by a stop by another signal: the target is
resumed after each stop by `SIGCHLD`, and the last stop is reported. -/
theorem Wait_loop_stopped (sig : Int) (t : Target) (rest : List WaitResult)
    (hs : sig ≠ SIGCHLD) (pre : List WaitResult) : ∀ (c : Controller),
    (∀ r ∈ pre, r = WaitResult.eintr ∨ ∃ ti, r = WaitResult.stopped SIGCHLD ti) →
    Wait.loop (pre ++ .stopped sig t :: rest) c =
      (.ok true,
        { c with
          base := { c.base with m_uStatus := ProcessStatus.Paused, target := t }
          m_iLastSignal := sig
          future := rest
          control := c.control ++ Wait.resumed pre }) := by
  induction pre with
  | nil =>
    intro c _
    simp only [List.nil_append, Wait.loop, hs, if_false, Wait.resumed, List.append_nil]
  | cons r pre ih =>
    intro c h
    have hpre : ∀ r ∈ pre, r = WaitResult.eintr ∨ ∃ ti, r = WaitResult.stopped SIGCHLD ti :=
      fun r hr => h r (List.mem_cons_of_mem _ hr)
    rcases h r (List.mem_cons_self _ _) with h1 | ⟨ti, h1⟩
    · subst h1
      simp only [List.cons_append, Wait.loop, Wait.resumed, List.append_eq]
      exact ih c hpre
    · subst h1
      simp only [List.cons_append, Wait.loop, if_true, Wait.resumed, List.append_eq]
      rw [ih _ hpre]
      simp only [Controller.resume, List.append_assoc, List.singleton_append]

theorem InternalStepOver_stopped (c : Controller) (sig : Int) (t : Target)
    (pre rest : List WaitResult) (hP : c.base.m_uStatus = ProcessStatus.Paused)
    (hf : c.future = pre ++ .stopped sig t :: rest)
    (hpre : ∀ r ∈ pre, r = WaitResult.eintr ∨ ∃ ti, r = WaitResult.stopped SIGCHLD ti)
    (hs : sig ≠ SIGCHLD) :
    c.InternalStepOver =
      (.ok (),
        { c with
          base := { c.base with m_uStatus := ProcessStatus.Paused, target := t }
          m_iLastSignal := sig
          future := rest
          control := c.control ++ .SINGLESTEP c.base.target :: Wait.resumed pre }) := by
  have hT : c.base.m_uStatus ≠ ProcessStatus.Terminated := by rw [hP]; decide
  simp only [Controller.InternalStepOver, Controller.GetStatus, hP, ne_eq, not_true_eq_false,
    if_false, Controller.Wait, hT]
  rw [hf, Wait_loop_stopped sig t rest hs pre _ hpre]
  simp only [List.append_assoc, List.singleton_append, reduceCtorEq, if_false]

theorem StepOverBreakpoint_stepped (c c1 c2 c3 c4 c5 : Controller) (pc A p : Nat)
    (bp : Breakpoint) (hA : A = (pc + WORD_MOD - 1) % WORD_MOD)
    (h1 : c.GetRegister Registers.RIP = (.ok pc, c1))
    (h2 : c1.m_stBreakpoints A = some p) (h2o : c1.objects p = some bp)
    (h3 : bp.m_bEnabled = true)
    (h4 : c1.SetRegister Registers.RIP A = (.ok (), c2))
    (h5 : c2.Disable p = (.ok (), c3))
    (h6 : c3.InternalStepOver = (.ok (), c4))
    (h7 : c4.Enable p = (.ok (), c5)) :
    c.StepOverBreakpoint = (.ok true, c5) := by
  unfold Controller.StepOverBreakpoint
  rw [h1]
  simp only [← hA, Controller.GetBreakpoint, h2, h2o, h3, if_true, h4, h5, h6, h7]

/-- C27: `StepOverBreakpoint` on a paused target, `PC - 1` being computed on
64 bit words.  With no breakpoint, or a disabled one, registered at `PC - 1`
it returns `false` and leaves the registers, the memory, the breakpoints and
every other field as they were (the register request is logged).  With an
enabled breakpoint registered at `PC - 1`, its word transferable before and
after the step, and the wait of the step ending in a reported stop (after
any interruptions of `waitpid` and stops by `SIGCHLD`, each of which resumes
the target), it returns `true`.  The single step is requested on a target
whose program counter is `PC - 1`, whose other registers are unchanged and
whose byte at the address is the saved one if the trap byte was there.
Afterwards the breakpoint is enabled, the byte at its address is `0xCC`, the
rest of the memory and the registers are as the step left them, and neither
the breakpoint map nor another breakpoint has changed. -/
theorem step_over_breakpoint (c : Controller) (hP : c.GetStatus = ProcessStatus.Paused) :
    ((c.m_stBreakpoints ((c.base.target.regs.rip + WORD_MOD - 1) % WORD_MOD) = none ∨
        ∃ p bp, c.m_stBreakpoints ((c.base.target.regs.rip + WORD_MOD - 1) % WORD_MOD) = some p ∧
          c.objects p = some bp ∧ bp.m_bEnabled = false) →
      c.StepOverBreakpoint = (.ok false, { c with base := c.base.log .GETREGS })) ∧
    (∀ (p : Nat) (bp : Breakpoint) (sig : Int) (t : Target) (pre rest : List WaitResult),
      c.m_stBreakpoints ((c.base.target.regs.rip + WORD_MOD - 1) % WORD_MOD) = some p →
      c.objects p = some bp → bp.m_bEnabled = true →
      bp.m_uAddress = (c.base.target.regs.rip + WORD_MOD - 1) % WORD_MOD →
      c.base.target.readable bp.m_uAddress = true →
      c.future = pre ++ .stopped sig t :: rest →
      (∀ r ∈ pre, r = WaitResult.eintr ∨ ∃ ti, r = WaitResult.stopped SIGCHLD ti) →
      sig ≠ SIGCHLD → t.readable bp.m_uAddress = true →
      ∃ (c5 : Controller) (t0 : Target),
        c.StepOverBreakpoint = (.ok true, c5) ∧
        c5.control = c.control ++ .SINGLESTEP t0 :: Wait.resumed pre ∧
        t0.regs.rip = (c.base.target.regs.rip + WORD_MOD - 1) % WORD_MOD ∧
        t0.regs = { c.base.target.regs with rip := bp.m_uAddress } ∧
        t0.mapped = c.base.target.mapped ∧
        t0.mem = (if c.base.target.mem bp.m_uAddress = 0xCC then
          Function.update c.base.target.mem bp.m_uAddress bp.m_uOriginalByte
          else c.base.target.mem) ∧
        c5.objects p =
          some { m_uAddress := bp.m_uAddress, m_bEnabled := true,
                 m_uOriginalByte := t.mem bp.m_uAddress } ∧
        (∀ q, q ≠ p → c5.objects q = c.objects q) ∧
        c5.m_stBreakpoints = c.m_stBreakpoints ∧
        c5.base.target.mem = Function.update t.mem bp.m_uAddress 0xCC ∧
        c5.base.target.regs = t.regs ∧
        c5.GetStatus = ProcessStatus.Paused ∧ c5.m_iLastSignal = sig ∧ c5.future = rest) := by
  have hP1 : c.base.m_uStatus = ProcessStatus.Paused := hP
  refine ⟨?_, ?_⟩
  · intro h
    simp only [Controller.StepOverBreakpoint, Controller.GetRegister,
      lperf.GetRegister_RIP_paused c.base hP1, Controller.GetBreakpoint]
    rcases h with h | ⟨p, bp, hb, ho, hE⟩
    · simp only [h]
    · simp [hb, ho, hE]
  · intro p bp sig t pre rest hb ho hE hA hr hf hpre hs hrt
    rw [← hA] at hb
    have hr2 : (((c.base.log .GETREGS).SetRegister Registers.RIP bp.m_uAddress).2).target.readable
        bp.m_uAddress = true := by
      rw [lperf.SetRegister_paused (c.base.log .GETREGS) _ _ hP1, ← hr]
      exact readable_congr _ _ rfl _
    have hP0 : (((c.base.log .GETREGS).SetRegister Registers.RIP bp.m_uAddress).2).m_uStatus =
        ProcessStatus.Paused := by
      rw [lperf.SetRegister_paused (c.base.log .GETREGS) _ _ hP1]
    obtain ⟨bp1, d1, hD, hA1, hE1, hP2, hregs, hmapped, hmem⟩ :=
      Disable_enabled_paused _ bp hE hP0 hr2
    rw [lperf.SetRegister_paused (c.base.log .GETREGS) _ _ hP1] at hregs hmem hmapped
    have h1 := Controller.GetRegister_RIP_ok c hP1
    have h4 : ({ c with base := c.base.log .GETREGS } : Controller).SetRegister Registers.RIP
        bp.m_uAddress =
        (.ok (), { c with
          base := ((c.base.log .GETREGS).SetRegister Registers.RIP bp.m_uAddress).2 }) := by
      simp only [Controller.SetRegister,
        lperf.SetRegister_paused (c.base.log .GETREGS) Registers.RIP bp.m_uAddress hP1]
    have h5 := Controller.Disable_eq
      { c with base := ((c.base.log .GETREGS).SetRegister Registers.RIP bp.m_uAddress).2 }
      p bp bp1 d1 _ ho hD
    have h6 := InternalStepOver_stopped
      { c with
        base := d1
        objects := Function.update c.objects p (some bp1) }
      sig t pre rest hP2 hf hpre hs
    have hEn := Enable_fresh_paused
      { m_uStatus := ProcessStatus.Paused, target := t, trace := d1.trace }
      bp.m_uAddress bp1 hA1 hE1 rfl hrt
    have h7 := Controller.Enable_eq
      { c with
        base := { m_uStatus := ProcessStatus.Paused, target := t, trace := d1.trace }
        m_iLastSignal := sig
        objects := Function.update c.objects p (some bp1)
        future := rest
        control := c.control ++ .SINGLESTEP d1.target :: Wait.resumed pre }
      p bp1 _ _ _ (Function.update_same _ _ _) hEn
    refine ⟨_, d1.target, StepOverBreakpoint_stepped c _ _ _ _ _ _ _ p bp hA h1 hb ho hE h4 h5 h6 h7,
      rfl, ?_, hregs, hmapped, hmem, ?_, ?_, rfl, rfl, rfl, rfl, rfl, rfl⟩
    · rw [hregs, ← hA]
      rfl
    · simp
    · intro q hq
      simp [Function.update_noteq hq]

theorem step_over_breakpoint_witness :
    exampleTrapped.GetStatus = ProcessStatus.Paused ∧
    ∃ (c5 : Controller) (t0 : Target), exampleTrapped.StepOverBreakpoint = (.ok true, c5) ∧
      c5.control.head? = some (.SINGLESTEP t0) ∧ c5.control.length = 2 ∧
      t0.regs.rip = 16 ∧ t0.regs.rax = 1 ∧ t0.mem 16 = 0x55 ∧
      c5.base.target.mem 16 = 0xCC ∧
      c5.objects 1 = some { m_uAddress := 16, m_bEnabled := true, m_uOriginalByte := 0x55 } ∧
      c5.base.target.regs.rax = 99 ∧ c5.base.target.regs.rip = 17 :=
  ⟨rfl, by
    obtain ⟨c5, t0, h, hc, hrip, hregs, _, hmem0, hb, _, _, hm, hr, _⟩ :=
      (step_over_breakpoint exampleTrapped rfl).2 1
        { m_uAddress := 16, m_bEnabled := true, m_uOriginalByte := 0x55 } SIGTRAP
        { exampleTarget with regs := { exampleRegs with rip := 17, rax := 99 } }
        [ .eintr, .stopped SIGCHLD { exampleTarget with regs := { exampleRegs with rip := 17 } } ]
        [] rfl rfl rfl (by decide) (by decide) rfl
        (by
          intro r hr
          simp only [List.mem_cons, List.mem_singleton, List.not_mem_nil, or_false] at hr
          rcases hr with hr | hr
          · exact Or.inl hr
          · exact Or.inr ⟨_, hr⟩)
        (by decide) (by decide)
    refine ⟨c5, t0, h, by rw [hc]; rfl, by rw [hc]; rfl, by rw [hrip]; decide, by rw [hregs]; rfl,
      by rw [hmem0]; rfl, by rw [hm]; rfl, hb, by rw [hr], by rw [hr]⟩⟩

/-- The call `Continue()` that `Wait` makes after a stop by `SIGCHLD` is the
tail `resume` of `Continue`, as `Wait.loop` has it. -/
theorem Continue_after_SIGCHLD (c : Controller) (hP : c.GetStatus = ProcessStatus.Paused)
    (hs : c.m_iLastSignal = SIGCHLD) : c.Continue = (.ok (), c.resume) := by
  have hne : SIGCHLD ≠ SIGTRAP := by decide
  simp only [Controller.Continue, hP, ne_eq, not_true_eq_false, if_false, hs, hne]

/-! ## The Lua state locator on the controller -/

/-- C20: runs of `FetchLuaState` on the controller.  In the first two the
outcome of the body is not the outcome of the call.  On `exampleExiting`
the target stops at the hook on `lua_callk` with `RDI = 0x1000`, the body
continues it and returns that value; the target then exits, the interrupt in
the destructor of the fetcher throws, and the call ends in `std::terminate`.
On `exampleStripped` no hook can be installed, the body throws
`OperationNotSupport`, and the call ends in `std::terminate` in the same way.
In the other runs the outcome of the body is the outcome of the call: the
value of `RDI` when the interrupt of the destructor is answered by a stop,
also after a stop by `SIGTRAP` away from any hook, which is resumed;
`OperationCancelled` for a stop by `SIGINT`, `OperationNotSupport` for a stop
by signal 11, and `InvalidCall` when the target exits during the wait. -/
theorem FetchLuaState_terminate :
    ((FetchLuaState.body controllerApi [] 1 exampleExiting).1 = .ok 0x1000 ∧
      (FetchLuaState controllerApi [] 1 exampleExiting).1 = .throw .Terminate) ∧
    ((FetchLuaState.body controllerApi [] 1 exampleStripped).1 =
        .throw .OperationNotSupportException ∧
      (FetchLuaState controllerApi [] 1 exampleStripped).1 = .throw .Terminate) ∧
    (FetchLuaState controllerApi [] 1 exampleHooking).1 = .ok 0x1000 ∧
    (FetchLuaState controllerApi [] 2
      (exampleStops
        (.stopped SIGTRAP { exampleHooked with regs := { exampleRegs with rip := 500 } } ::
          exampleHooking.future.tail))).1 = .ok 0x1000 ∧
    (FetchLuaState controllerApi [] 1 (exampleStops [.stopped SIGINT exampleHooked])).1 =
      .throw .OperationCancelledException ∧
    (FetchLuaState controllerApi [] 1 (exampleStops [.stopped 11 exampleHooked])).1 =
      .throw .OperationNotSupportException ∧
    (FetchLuaState controllerApi [] 1 (exampleStops [.exited 0])).1 =
      .throw .InvalidCallException := by
  decide

/-- C21: runs of `FetchLuaState` in which the hooks are not cleaned up.
Without custom entry points the two hooks of `exampleHooking` are removed
and the bytes at 16 and 24 are restored.  With the custom entry point 16,
the address of `lua_callk`, the pointer of that breakpoint is pushed a
second time (the hooks are the pointers 1, 2, 1), and with the custom entry
point 100 given twice the hooks are 1, 2, 3, 3: the destructor of the
fetcher passes a pointer to `RemoveBreakpoint` after the breakpoint has been
destroyed, which is undefined behaviour.  On `exampleWaitFails` the wait of
the interrupt in the destructor fails: the call ends in `std::terminate`
with the target not terminated, the breakpoint at 16 still registered and
enabled, and the trap byte in place. -/
theorem hook_cleanup_use_after_free :
    ((FetchLuaState controllerApi [] 1 exampleHooking).1 = .ok 0x1000 ∧
      (FetchLuaState controllerApi [] 1 exampleHooking).2.m_stBreakpoints 16 = none ∧
      (FetchLuaState controllerApi [] 1 exampleHooking).2.m_stBreakpoints 24 = none ∧
      (FetchLuaState controllerApi [] 1 exampleHooking).2.base.target.mem 16 = 0x55 ∧
      (FetchLuaState controllerApi [] 1 exampleHooking).2.base.target.mem 24 = 0x90) ∧
    ((FetchLuaState.body controllerApi [16] 1 exampleHooking).1 = .ok 0x1000 ∧
      (FetchLuaState.body controllerApi [16] 1 exampleHooking).2.1 = [1, 2, 1] ∧
      (FetchLuaState controllerApi [16] 1 exampleHooking).1 = .throw .UndefinedBehavior) ∧
    ((FetchLuaState.body controllerApi [100, 100] 1 exampleHooking).2.1 = [1, 2, 3, 3] ∧
      (FetchLuaState controllerApi [100, 100] 1 exampleHooking).1 =
        .throw .UndefinedBehavior) ∧
    ((FetchLuaState controllerApi [] 1 exampleWaitFails).1 = .throw .Terminate ∧
      (FetchLuaState controllerApi [] 1 exampleWaitFails).2.GetStatus = ProcessStatus.Running ∧
      (FetchLuaState controllerApi [] 1 exampleWaitFails).2.m_stBreakpoints 16 = some 1 ∧
      (FetchLuaState controllerApi [] 1 exampleWaitFails).2.objects 1 =
        some { m_uAddress := 16, m_bEnabled := true, m_uOriginalByte := 0x55 } ∧
      (FetchLuaState controllerApi [] 1 exampleWaitFails).2.base.target.mem 16 = 0xCC) := by
  decide

end lperf
